import Mathlib

/-!
Token data store and application settings of the analytics dashboard.

A shallow embedding of `src/contexts/TokenData.js`, of the parts of
`src/contexts/v1/TokenData.js` that share its code, and of
`src/contexts/Application.js`: the reducers of the token data store and of the
application settings, the mutation operations of their providers, the hooks
that read and fill the stores, and the bulk enrichment of token records.

JavaScript values are embedded as the inductive type `JSVal`.  An object is the
list of its own enumerable properties in definition order, read like an object
literal: a later entry for a key overrides an earlier one.  The model leaves out
the prototype chain (`__proto__`, inherited members), the ascending order in
which an engine enumerates integer-like keys, functions and symbols; a string
is a list of characters.  A number held in a store is an integer; the numeric
fields that the bulk enrichment computes are values of `JSNum`, the numbers of
the binary64 format with its rounding to nearest, its two zeros, its infinities
and `NaN`.
-/

set_option autoImplicit false

namespace JS

/-- JavaScript values that the store can hold. -/
inductive JSVal where
  | undefined
  | null
  | bool (b : Bool)
  | num (n : Int)
  | str (s : String)
  | arr (items : List JSVal)
  | obj (props : List (String × JSVal))

/-- Own enumerable properties of an object, in definition order. -/
abbrev Obj := List (String × JSVal)

/-- What a `throw` carries: a `TypeError` of the engine, or `Error(message)`. -/
inductive Thrown where
  | typeError
  | error (message : String)

/-- Truthiness, as tested by `!x`, `x && y` and `x || y`. -/
def truthy : JSVal → Bool
  | .undefined => false
  | .null => false
  | .bool b => b
  | .num n => n != 0
  | .str s => s != ""
  | .arr _ => true
  | .obj _ => true

mutual
/-- String that a value becomes when it is used as a property key. -/
def toPropertyKey : JSVal → String
  | .undefined => "undefined"
  | .null => "null"
  | .bool true => "true"
  | .bool false => "false"
  | .num n => toString n
  | .str s => s
  | .arr items => joinKeys items
  | .obj _ => "[object Object]"
termination_by structural v => v
/-- The `Array.prototype.join(",")` of an array used as a key. -/
def joinKeys : List JSVal → String
  | [] => ""
  | .undefined :: rest => sepKeys rest
  | .null :: rest => sepKeys rest
  | x :: rest => toPropertyKey x ++ sepKeys rest
termination_by structural l => l
/-- The elements after the first one, each preceded by the separator. -/
def sepKeys : List JSVal → String
  | [] => ""
  | .undefined :: rest => "," ++ sepKeys rest
  | .null :: rest => "," ++ sepKeys rest
  | x :: rest => "," ++ toPropertyKey x ++ sepKeys rest
termination_by structural l => l
end

/-- Own property `k` of an object, `none` when the object has no such key. -/
def getOwn? : Obj → String → Option JSVal
  | [], _ => none
  | (k', v) :: rest, k =>
    match getOwn? rest k with
    | some w => some w
    | none => if k' = k then some v else none

/-- The read `o[k]` (and `o?.[k]` on an object): `undefined` for a missing key. -/
def getProp (o : Obj) (k : String) : JSVal :=
  (getOwn? o k).getD .undefined

/-- The keys of `Object.keys(o)`. -/
def ownKeys (o : Obj) : List String :=
  o.map Prod.fst

/-- The write `o[k] = v`, also a property definition `[k]: v` of an object
literal: an existing key keeps its place, a new key goes last. -/
def setProp (o : Obj) (k : String) (v : JSVal) : Obj :=
  if o.any (fun p => p.1 == k) then
    o.map (fun p => if p.1 = k then (k, v) else p)
  else
    o ++ [(k, v)]

/-- The spread `...src` inside an object literal whose earlier part is `base`. -/
def spreadInto (base : Obj) (src : Obj) : Obj :=
  src.foldl (fun acc p => setProp acc p.1 p.2) base

/-- Elements paired with their index keys `"0"`, `"1"`, ... starting at `i`. -/
def indexedFrom : Nat → List JSVal → Obj
  | _, [] => []
  | i, x :: rest => (toString i, x) :: indexedFrom (i + 1) rest

/-- Own enumerable properties that a spread `...v` copies. -/
def ownProps : JSVal → Obj
  | .obj props => props
  | .arr items => indexedFrom 0 items
  | .str s => indexedFrom 0 (s.toList.map (fun c => JSVal.str (String.singleton c)))
  | _ => []

/-- The read `v.name` of a data property `name`: a `TypeError` on `undefined`
and `null`, otherwise the own property or `undefined`. -/
def getMember (v : JSVal) (name : String) : Except Thrown JSVal :=
  match v with
  | .undefined => .error .typeError
  | .null => .error .typeError
  | w => .ok (getProp (ownProps w) name)

/-- An action `{ type, payload }` handed to a reducer. -/
structure Action where
  type : String
  payload : JSVal

end JS

namespace TokenData

open JS

/-- Action tag `UPDATE`. -/
def UPDATE : String := "UPDATE"
/-- Action tag `UPDATE_TOP_TOKENS` (the source constant starts with a blank). -/
def UPDATE_TOP_TOKENS : String := " UPDATE_TOP_TOKENS"
/-- Action tag `UPDATE_ALL_PAIRS`. -/
def UPDATE_ALL_PAIRS : String := "UPDATE_ALL_PAIRS"
/-- Field under which the pair list of a token is kept. -/
def TOKEN_PAIRS_KEY : String := "TOKEN_PAIRS_KEY"

/-- The loop `topTokens.map((token) => (added[token.tokenAddress] = token))`. -/
def addTokens : Obj → List JSVal → Except Thrown Obj
  | added, [] => .ok added
  | added, token :: rest =>
    match getMember token "tokenAddress" with
    | .error e => .error e
    | .ok key => addTokens (setProp added (toPropertyKey key) token) rest

/-- The reducer of the token data store. -/
def reducer (state : Obj) (action : Action) : Except Thrown Obj :=
  if action.type = UPDATE then
    match getMember action.payload "tokenAddress", getMember action.payload "data" with
    | .ok tokenAddress, .ok data =>
      .ok (setProp (spreadInto [] state) (toPropertyKey tokenAddress)
        (.obj (spreadInto (spreadInto [] (ownProps (getProp state (toPropertyKey tokenAddress))))
          (ownProps data))))
    | _, _ => .error .typeError
  else if action.type = UPDATE_TOP_TOKENS then
    match getMember action.payload "topTokens" with
    | .error e => .error e
    | .ok topTokens =>
      let added : Except Thrown Obj :=
        if truthy topTokens then
          match topTokens with
          | .arr tokens => addTokens [] tokens
          | _ => .error .typeError
        else .ok []
      match added with
      | .error e => .error e
      | .ok added => .ok (spreadInto (spreadInto [] state) added)
  else if action.type = UPDATE_ALL_PAIRS then
    match getMember action.payload "address", getMember action.payload "allPairs" with
    | .ok address, .ok allPairs =>
      .ok (setProp (spreadInto [] state) (toPropertyKey address)
        (.obj (setProp (spreadInto [] (ownProps (getProp state (toPropertyKey address))))
          TOKEN_PAIRS_KEY allPairs)))
    | _, _ => .error .typeError
  else
    .error (.error ("Unexpected action type in DataContext reducer: '" ++ action.type ++ "'."))

/-- The operation `update` of the provider: the actions it dispatches. -/
def update (tokenAddress data : JSVal) : List Action :=
  if !truthy tokenAddress then []
  else [⟨UPDATE, .obj [("tokenAddress", tokenAddress), ("data", data)]⟩]

/-- The operation `updateTopTokens` of the provider. -/
def updateTopTokens (topTokens : JSVal) : List Action :=
  [⟨UPDATE_TOP_TOKENS, .obj [("topTokens", topTokens)]⟩]

/-- The operation `updateAllPairs` of the provider. -/
def updateAllPairs (address allPairs : JSVal) : List Action :=
  [⟨UPDATE_ALL_PAIRS, .obj [("address", address), ("allPairs", allPairs)]⟩]

/-- The `dispatch` of `useReducer`: each action replaces the state by the
reducer's result; an exception of the reducer ends the run. -/
def dispatch : Obj → List Action → Except Thrown Obj
  | state, [] => .ok state
  | state, action :: rest =>
    match reducer state action with
    | .error e => .error e
    | .ok next => dispatch next rest

/-- The hook `useAllTokenData`: the store without the key `combinedVol`. -/
def useAllTokenData (state : Obj) : Obj :=
  ((ownKeys state).filter (fun key => key != "combinedVol")).foldl
    (fun res key => setProp res key (getProp state key)) []

/-- The read `currentValue?.period?.[period]`. -/
def periodOf (currentValue : JSVal) (period : String) : JSVal :=
  match currentValue with
  | .undefined => .undefined
  | .null => .undefined
  | cv =>
    match getProp (ownProps cv) "period" with
    | .undefined => .undefined
    | .null => .undefined
    | p => getProp (ownProps p) period

/-- The `reduce` over `tokensData` whose step is
`{ ...acc, [currentValue.tokenAddress]: currentValue?.period?.[period] }`. -/
def indexPeriod (period : String) : Obj → List JSVal → Except Thrown Obj
  | acc, [] => .ok acc
  | acc, currentValue :: rest =>
    match getMember currentValue "tokenAddress" with
    | .error e => .error e
    | .ok tokenAddress =>
      indexPeriod period
        (setProp (spreadInto [] acc) (toPropertyKey tokenAddress) (periodOf currentValue period)) rest

/-- The expression `historicalData?.data?.tokensData.reduce(..., {})` for one
period: `undefined` when the optional chain stops, a `TypeError` when
`tokensData` is no array. -/
def historyIndex (period : String) (historicalData : JSVal) : Except Thrown JSVal :=
  match historicalData with
  | .undefined => .ok .undefined
  | .null => .ok .undefined
  | h =>
    match getProp (ownProps h) "data" with
    | .undefined => .ok .undefined
    | .null => .ok .undefined
    | data =>
      match getProp (ownProps data) "tokensData" with
      | .arr rows =>
        match indexPeriod period [] rows with
        | .error e => .error e
        | .ok index => .ok (.obj index)
      | _ => .error .typeError

/-- The `tokens.map(async (token) => ...)` of `getBulkTokenData` joined by
`Promise.all`: the callback looks the two histories of the token up and runs
`enrich`, the rest of its body; one rejected callback rejects the whole. -/
def enrichAll (enrich : JSVal → JSVal → JSVal → Except Thrown JSVal)
    (oneDayData twoDaysData : Obj) : List JSVal → Except Thrown (List JSVal)
  | [] => .ok []
  | token :: rest =>
    match getMember token "tokenAddress" with
    | .error e => .error e
    | .ok tokenAddress =>
      match enrich token (getProp oneDayData (toPropertyKey tokenAddress))
          (getProp twoDaysData (toPropertyKey tokenAddress)) with
      | .error e => .error e
      | .ok data =>
        match enrichAll enrich oneDayData twoDaysData rest with
        | .error e => .error e
        | .ok results => .ok (data :: results)

/-- The body of the `try` block of `getBulkTokenData`.  `current` and
`historicalData` are the outcomes of the two queries, `oneDay` and `twoDays`
the keys `apiTimeframeOptions.oneDay` and `apiTimeframeOptions.twoDays`, and
`enrich token oneDayHistory twoDaysHistory` is the callback body that computes
the derived fields and returns the record. -/
def getBulkTokenData.attempt (oneDay twoDays : String)
    (enrich : JSVal → JSVal → JSVal → Except Thrown JSVal)
    (current historicalData : Except Thrown JSVal) : Except Thrown JSVal :=
  match current with
  | .error e => .error e
  | .ok current =>
    match historicalData with
    | .error e => .error e
    | .ok historicalData =>
      match historyIndex oneDay historicalData, historyIndex twoDays historicalData with
      | .ok oneDayData, .ok twoDaysData =>
        if !truthy current then
          match current with
          | .str _ => .ok (.arr [])
          | _ => .error .typeError
        else
          match oneDayData, twoDaysData with
          | .obj oneDayData, .obj twoDaysData =>
            match getProp (ownProps current) "data" with
            | .undefined => .error .typeError
            | .null => .error .typeError
            | data =>
              match getProp (ownProps data) "tokens" with
              | .arr tokens =>
                match enrichAll enrich oneDayData twoDaysData tokens with
                | .error e => .error e
                | .ok bulkResults => .ok (.arr bulkResults)
              | _ => .error .typeError
          | _, _ => .error .typeError
      | _, _ => .error .typeError

/-- The function `getBulkTokenData`: the array of enriched records, or
`undefined` after the `catch` block has logged an exception. -/
def getBulkTokenData (oneDay twoDays : String)
    (enrich : JSVal → JSVal → JSVal → Except Thrown JSVal)
    (current historicalData : Except Thrown JSVal) : JSVal :=
  match getBulkTokenData.attempt oneDay twoDays enrich current historicalData with
  | .ok bulkResults => bulkResults
  | .error _ => .undefined

/-- The key `token.tokenAddress` under which the loop of `UPDATE_TOP_TOKENS`
files a token that is neither `undefined` nor `null`. -/
def tokenKey (token : JSVal) : String :=
  toPropertyKey (getProp (ownProps token) "tokenAddress")

/-- The test of the effect of `useTokenData` that decides whether the token is
fetched; `isStarknetAddress` is the address check of `utils`. -/
def useTokenData.cacheMiss (isStarknetAddress : JSVal → Bool) (state : Obj)
    (ethPrice ethPriceOld tokenAddress : JSVal) : Bool :=
  !truthy (getProp state (toPropertyKey tokenAddress)) && truthy ethPrice &&
    truthy ethPriceOld && isStarknetAddress tokenAddress

/-- The effect of `useTokenData`: on a cache miss it calls `getBulkTokenData`
and hands the value that call resolves to, `fetched`, to `update`. -/
def useTokenData.effect (isStarknetAddress : JSVal → Bool) (state : Obj)
    (ethPrice ethPriceOld tokenAddress fetched : JSVal) : List Action :=
  if useTokenData.cacheMiss isStarknetAddress state ethPrice ethPriceOld tokenAddress then
    update tokenAddress fetched
  else []

end TokenData

namespace TokenDataV1

open JS

/-- Action tag `UPDATE`. -/
def UPDATE : String := "UPDATE"
/-- Action tag `UPDATE_ALL_TOKENS` (the source constant starts with a blank). -/
def UPDATE_ALL_TOKENS : String := " UPDATE_ALL_TOKENS"

/-- The loop `allTokens.map((token) => (added[token.id] = token))`. -/
def addTokens : Obj → List JSVal → Except Thrown Obj
  | added, [] => .ok added
  | added, token :: rest =>
    match getMember token "id" with
    | .error e => .error e
    | .ok key => addTokens (setProp added (toPropertyKey key) token) rest

/-- The reducer of the v1 token data store. -/
def reducer (state : Obj) (action : Action) : Except Thrown Obj :=
  if action.type = UPDATE then
    match getMember action.payload "tokenAddress", getMember action.payload "data" with
    | .ok tokenAddress, .ok data =>
      .ok (setProp (spreadInto [] state) (toPropertyKey tokenAddress)
        (.obj (spreadInto (spreadInto [] (ownProps (getProp state (toPropertyKey tokenAddress))))
          (ownProps data))))
    | _, _ => .error .typeError
  else if action.type = UPDATE_ALL_TOKENS then
    match getMember action.payload "allTokens" with
    | .error e => .error e
    | .ok allTokens =>
      let added : Except Thrown Obj :=
        if truthy allTokens then
          match allTokens with
          | .arr tokens => addTokens [] tokens
          | _ => .error .typeError
        else .ok []
      match added with
      | .error e => .error e
      | .ok added => .ok (spreadInto (spreadInto [] state) added)
  else
    .error (.error ("Unexpected action type in DataContext reducer: '" ++ action.type ++ "'."))

/-- The operation `update` of the v1 provider: the actions it dispatches. -/
def update (tokenAddress data : JSVal) : List Action :=
  if !truthy tokenAddress then []
  else [⟨UPDATE, .obj [("tokenAddress", tokenAddress), ("data", data)]⟩]

/-- The operation `updateAllTokens` of the v1 provider. -/
def updateAllTokens (allTokens : JSVal) : List Action :=
  [⟨UPDATE_ALL_TOKENS, .obj [("allTokens", allTokens)]⟩]

/-- The `dispatch` of `useReducer` over the v1 reducer. -/
def dispatch : Obj → List Action → Except Thrown Obj
  | state, [] => .ok state
  | state, action :: rest =>
    match reducer state action with
    | .error e => .error e
    | .ok next => dispatch next rest

/-- The v1 hook `useAllTokenData`: the store without the key `combinedVol`. -/
def useAllTokenData (state : Obj) : Obj :=
  ((ownKeys state).filter (fun key => key != "combinedVol")).foldl
    (fun res key => setProp res key (getProp state key)) []

end TokenDataV1

namespace JS

/-- The iteration of a spread `...v` inside an array literal: the elements of
an array, the characters of a string, a `TypeError` for any other value. -/
def iterate : JSVal → Except Thrown (List JSVal)
  | .arr items => .ok items
  | .str s => .ok (s.toList.map (fun c => JSVal.str (String.singleton c)))
  | _ => .error .typeError

/-- The operator `a ?? b`. -/
def coalesce (a b : JSVal) : JSVal :=
  match a with
  | .undefined => b
  | .null => b
  | v => v

/-- The comparison that `Array.prototype.includes` makes.  Arrays and objects
compare by identity; the values of a parsed response are all distinct, so two
of them never compare equal. -/
def sameValueZero : JSVal → JSVal → Bool
  | .undefined, .undefined => true
  | .null, .null => true
  | .bool a, .bool b => a == b
  | .num a, .num b => a == b
  | .str a, .str b => a == b
  | _, _ => false

/-- The test `isEmpty` of lodash: no own enumerable property, no element, no
character; `true` for numbers, booleans, `null` and `undefined`. -/
def isEmpty (v : JSVal) : Bool :=
  (ownProps v).isEmpty

end JS

namespace TokenData

open JS

/-- The `reduce` of `getTopTokens` over the rows of `tokensDayData`, whose step
pushes `tokenAddress` unless `accum.includes(tokenAddress)`. -/
def collectIds : List JSVal → List JSVal → Except Thrown (List JSVal)
  | accum, [] => .ok accum
  | accum, row :: rest =>
    match getMember row "tokenAddress" with
    | .error e => .error e
    | .ok tokenAddress =>
      if !(accum.any (fun x => sameValueZero x tokenAddress)) then
        collectIds (accum ++ [tokenAddress]) rest
      else
        collectIds accum rest

/-- The value `ids` of `getTopTokens`, which it hands to `getBulkTokenData`:
`tokenids?.data?.tokensDayData?.reduce(..., [])` for the answer `tokenids` of
the query. -/
def getTopTokens.ids (tokenids : JSVal) : Except Thrown JSVal :=
  match tokenids with
  | .undefined => .ok .undefined
  | .null => .ok .undefined
  | t =>
    match getProp (ownProps t) "data" with
    | .undefined => .ok .undefined
    | .null => .ok .undefined
    | data =>
      match getProp (ownProps data) "tokensDayData" with
      | .undefined => .ok .undefined
      | .null => .ok .undefined
      | .arr rows =>
        match collectIds [] rows with
        | .error e => .error e
        | .ok ids => .ok (.arr ids)
      | _ => .error .typeError

end TokenData

namespace Application

open JS

/-- Action tag `UPDATE`. -/
def UPDATE : String := "UPDATE"
/-- Action tag `UPDATE_TIMEFRAME`. -/
def UPDATE_TIMEFRAME : String := "UPDATE_TIMEFRAME"
/-- Action tag `UPDATE_SESSION_START`. -/
def UPDATE_SESSION_START : String := "UPDATE_SESSION_START"
/-- Action tag `UPDATED_SUPPORTED_TOKENS`. -/
def UPDATED_SUPPORTED_TOKENS : String := "UPDATED_SUPPORTED_TOKENS"
/-- Action tag `UPDATED_WHITELISTED_TOKENS`. -/
def UPDATED_WHITELISTED_TOKENS : String := "UPDATED_WHITELISTED_TOKENS"
/-- Action tag `UPDATE_LATEST_BLOCK`. -/
def UPDATE_LATEST_BLOCK : String := "UPDATE_LATEST_BLOCK"
/-- Action tag `UPDATE_HEAD_BLOCK`. -/
def UPDATE_HEAD_BLOCK : String := "UPDATE_HEAD_BLOCK"

/-- State key of the supported token list. -/
def SUPPORTED_TOKENS : String := "SUPPORTED_TOKENS"
/-- State key of the whitelisted token map. -/
def WHITELISTED_TOKENS : String := "WHITELISTED_TOKENS"
/-- State key of the active time window. -/
def TIME_KEY : String := "TIME_KEY"
/-- State key of the currency. -/
def CURRENCY : String := "CURRENCY"
/-- State key of the session start. -/
def SESSION_START : String := "SESSION_START"
/-- State key of the latest indexed block. -/
def LATEST_BLOCK : String := "LATEST_BLOCK"
/-- State key of the head block. -/
def HEAD_BLOCK : String := "HEAD_BLOCK"

/-- One case of the reducer: `const { field } = payload` and then
`{ ...state, [key]: field }`. -/
def setField (state : Obj) (payload : JSVal) (field key : String) : Except Thrown Obj :=
  match getMember payload field with
  | .error e => .error e
  | .ok value => .ok (setProp (spreadInto [] state) key value)

/-- The reducer of the application settings store. -/
def reducer (state : Obj) (action : Action) : Except Thrown Obj :=
  if action.type = UPDATE then
    setField state action.payload "currency" CURRENCY
  else if action.type = UPDATE_TIMEFRAME then
    setField state action.payload "newTimeFrame" TIME_KEY
  else if action.type = UPDATE_SESSION_START then
    setField state action.payload "timestamp" SESSION_START
  else if action.type = UPDATE_LATEST_BLOCK then
    setField state action.payload "block" LATEST_BLOCK
  else if action.type = UPDATE_HEAD_BLOCK then
    setField state action.payload "block" HEAD_BLOCK
  else if action.type = UPDATED_SUPPORTED_TOKENS then
    setField state action.payload "supportedTokens" SUPPORTED_TOKENS
  else if action.type = UPDATED_WHITELISTED_TOKENS then
    setField state action.payload "whitelistedTokens" WHITELISTED_TOKENS
  else
    .error (.error ("Unexpected action type in DataContext reducer: '" ++ action.type ++ "'."))

/-- The state `INITIAL_STATE`; `ALL_TIME` is `timeframeOptions.ALL_TIME` of
`constants`. -/
def INITIAL_STATE (ALL_TIME : JSVal) : Obj :=
  [("CURRENCY", .str "USD"), ("TIME_KEY", ALL_TIME)]

/-- The operation `update` of the provider: the actions it dispatches. -/
def update (currency : JSVal) : List Action :=
  [⟨UPDATE, .obj [("currency", currency)]⟩]

/-- The operation `updateTimeframe` of the provider. -/
def updateTimeframe (newTimeFrame : JSVal) : List Action :=
  [⟨UPDATE_TIMEFRAME, .obj [("newTimeFrame", newTimeFrame)]⟩]

/-- The operation `updateSessionStart` of the provider. -/
def updateSessionStart (timestamp : JSVal) : List Action :=
  [⟨UPDATE_SESSION_START, .obj [("timestamp", timestamp)]⟩]

/-- The operation `updateSupportedTokens` of the provider. -/
def updateSupportedTokens (supportedTokens : JSVal) : List Action :=
  [⟨UPDATED_SUPPORTED_TOKENS, .obj [("supportedTokens", supportedTokens)]⟩]

/-- The operation `updateWhitelistedTokens` of the provider. -/
def updateWhitelistedTokens (whitelistedTokens : JSVal) : List Action :=
  [⟨UPDATED_WHITELISTED_TOKENS, .obj [("whitelistedTokens", whitelistedTokens)]⟩]

/-- The operation `updateLatestBlock` of the provider. -/
def updateLatestBlock (block : JSVal) : List Action :=
  [⟨UPDATE_LATEST_BLOCK, .obj [("block", block)]⟩]

/-- The operation `updateHeadBlock` of the provider. -/
def updateHeadBlock (block : JSVal) : List Action :=
  [⟨UPDATE_HEAD_BLOCK, .obj [("block", block)]⟩]

/-- The `dispatch` of `useReducer` over the settings reducer. -/
def dispatch : Obj → List Action → Except Thrown Obj
  | state, [] => .ok state
  | state, action :: rest =>
    match reducer state action with
    | .error e => .error e
    | .ok next => dispatch next rest

/-- A call of one of the seven mutation operations of the provider. -/
inductive Mutation where
  | update (currency : JSVal)
  | updateTimeframe (newTimeFrame : JSVal)
  | updateSessionStart (timestamp : JSVal)
  | updateSupportedTokens (supportedTokens : JSVal)
  | updateWhitelistedTokens (whitelistedTokens : JSVal)
  | updateLatestBlock (block : JSVal)
  | updateHeadBlock (block : JSVal)

/-- The actions that a call dispatches. -/
def Mutation.actions : Mutation → List Action
  | .update currency => Application.update currency
  | .updateTimeframe newTimeFrame => Application.updateTimeframe newTimeFrame
  | .updateSessionStart timestamp => Application.updateSessionStart timestamp
  | .updateSupportedTokens supportedTokens => Application.updateSupportedTokens supportedTokens
  | .updateWhitelistedTokens whitelistedTokens =>
    Application.updateWhitelistedTokens whitelistedTokens
  | .updateLatestBlock block => Application.updateLatestBlock block
  | .updateHeadBlock block => Application.updateHeadBlock block

/-- The state after a sequence of calls, made one after the other. -/
def run : Obj → List Mutation → Except Thrown Obj
  | state, [] => .ok state
  | state, m :: rest =>
    match dispatch state m.actions with
    | .error e => .error e
    | .ok next => run next rest

/-- The `reduce` over `SUPPORTED_LIST_URLS__NO_ENS` in `fetchList`.  The first
argument is what the promise `fetchedTokens` resolves to, the list holds what
`getTokenList(url)` resolves to for each further URL.  A step whose answer has
no truthy `tokens` returns nothing, so that the next step starts from
`undefined`. -/
def mergeTokenLists : JSVal → List JSVal → Except Thrown JSVal
  | tokensSoFar, [] => .ok tokensSoFar
  | tokensSoFar, newTokens :: rest =>
    let tokens : JSVal :=
      match newTokens with
      | .undefined => .undefined
      | .null => .undefined
      | r => getProp (ownProps r) "tokens"
    if truthy tokens then
      match iterate (coalesce tokensSoFar (.arr [])), iterate tokens with
      | .ok soFar, .ok new => mergeTokenLists (.arr (soFar ++ new)) rest
      | _, _ => .error .typeError
    else
      mergeTokenLists .undefined rest

/-- The expression `cleanHex(address.toLowerCase())`; the two functions are
those of the `starknet` package and of the engine. -/
def normalizeAddress (toLowerCase cleanHex : String → String) (address : JSVal) :
    Except Thrown String :=
  match address with
  | .str a => .ok (cleanHex (toLowerCase a))
  | _ => .error .typeError

/-- The `map` of `useListedTokens` over the fetched tokens:
`(t) => cleanHex(t.address.toLowerCase())`. -/
def formatSupported (toLowerCase cleanHex : String → String) :
    List JSVal → Except Thrown (List JSVal)
  | [] => .ok []
  | t :: rest =>
    match getMember t "address" with
    | .error e => .error e
    | .ok address =>
      match normalizeAddress toLowerCase cleanHex address with
      | .error e => .error e
      | .ok key =>
        match formatSupported toLowerCase cleanHex rest with
        | .error e => .error e
        | .ok keys => .ok (.str key :: keys)

/-- The `reduce` of `useWhitelistedTokens` over the fetched tokens, whose step
is `acc[cleanHex(address.toLowerCase())] = { symbol, logoURI }`. -/
def formatWhitelisted (toLowerCase cleanHex : String → String) :
    Obj → List JSVal → Except Thrown Obj
  | acc, [] => .ok acc
  | acc, t :: rest =>
    match getMember t "address", getMember t "symbol", getMember t "logoURI" with
    | .ok address, .ok symbol, .ok logoURI =>
      match normalizeAddress toLowerCase cleanHex address with
      | .error e => .error e
      | .ok key =>
        formatWhitelisted toLowerCase cleanHex
          (setProp acc key (.obj [("symbol", symbol), ("logoURI", logoURI)])) rest
    | _, _, _ => .error .typeError

/-- The function `fetchList` of `useListedTokens`: the actions it dispatches
for the answers of the token-list sources; none when it ends in an exception. -/
def useListedTokens.fetchList (toLowerCase cleanHex : String → String)
    (responses : List JSVal) : List Action :=
  match mergeTokenLists (.arr []) responses with
  | .error _ => []
  | .ok .undefined => updateSupportedTokens .undefined
  | .ok .null => updateSupportedTokens .undefined
  | .ok (.arr allFetched) =>
    match formatSupported toLowerCase cleanHex allFetched with
    | .error _ => []
    | .ok formatted => updateSupportedTokens (.arr formatted)
  | .ok _ => []

/-- The function `fetchList` of `useWhitelistedTokens`. -/
def useWhitelistedTokens.fetchList (toLowerCase cleanHex : String → String)
    (responses : List JSVal) : List Action :=
  match mergeTokenLists (.arr []) responses with
  | .error _ => []
  | .ok .undefined => updateWhitelistedTokens .undefined
  | .ok .null => updateWhitelistedTokens .undefined
  | .ok (.arr allFetched) =>
    match formatWhitelisted toLowerCase cleanHex [] allFetched with
    | .error _ => []
    | .ok formatted => updateWhitelistedTokens (.obj formatted)
  | .ok _ => []

/-- The value that the hook `useWhitelistedTokens` returns:
`{ ...DEFAULT_TOKENS_WHITELIST, ...whitelistedTokens }` with
`whitelistedTokens = state?.[WHITELISTED_TOKENS] ?? []`. -/
def useWhitelistedTokens (DEFAULT_TOKENS_WHITELIST : JSVal) (state : Obj) : Obj :=
  spreadInto (spreadInto [] (ownProps DEFAULT_TOKENS_WHITELIST))
    (ownProps (coalesce (getProp state WHITELISTED_TOKENS) (.arr [])))

end Application

namespace JS

/-- A JavaScript number: a value of the binary64 format.  A finite value is
given by the rational number it stands for, `fin 0` is the positive zero and
`negZero` the negative one. -/
inductive JSNum where
  | nan
  | fin (q : ℚ)
  | inf (negative : Bool)
  | negZero
  deriving DecidableEq

/-- The power `2 ^ k` for an integer exponent. -/
def pow2 (k : ℤ) : ℚ :=
  if 0 ≤ k then ((2 ^ k.toNat : ℕ) : ℚ) else 1 / ((2 ^ (-k).toNat : ℕ) : ℚ)

/-- The number of halvings, at most `fuel`, that bring `n` below `2`. -/
def halvings : ℕ → ℕ → ℕ
  | 0, _ => 0
  | fuel + 1, n => if n < 2 then 0 else halvings fuel (n / 2) + 1

/-- The exponent `k` with `2 ^ k ≤ n < 2 ^ (k + 1)` of a positive integer. -/
def floorLog2Nat (n : ℕ) : ℕ :=
  halvings n n

/-- The exponent `k` with `2 ^ k ≤ a < 2 ^ (k + 1)` of a positive rational. -/
def floorLog2 (a : ℚ) : ℤ :=
  let k : ℤ := (floorLog2Nat a.num.natAbs : ℤ) - (floorLog2Nat a.den : ℤ)
  if pow2 k ≤ a then k else k - 1

/-- The integer nearest to a rational that is not negative, the even one of
two that are equally near. -/
def roundHalfEven (x : ℚ) : ℕ :=
  let f := x.floor.toNat
  let r := x - (f : ℚ)
  if r < 1 / 2 then f else if 1 / 2 < r then f + 1 else if f % 2 = 0 then f else f + 1

/-- The binary64 value nearest to a rational (ties to even): 53 significant
bits, the least exponent `-1022` with the subnormal values below it, an
infinity from `2 ^ 1024` on, and a zero that keeps the sign when the value
rounds to zero. -/
def round64 (q : ℚ) : JSNum :=
  if q = 0 then .fin 0
  else
    let a := |q|
    let e := max (floorLog2 a) (-1022)
    let ulp := pow2 (e - 52)
    let r := (roundHalfEven (a / ulp) : ℚ) * ulp
    if pow2 1024 ≤ r then .inf (decide (q < 0))
    else if r = 0 then (if q < 0 then .negZero else .fin 0)
    else .fin (if q < 0 then -r else r)

/-- The sign bit of a number. -/
def JSNum.isNegative : JSNum → Bool
  | .nan => false
  | .fin q => decide (q < 0)
  | .inf negative => negative
  | .negZero => true

/-- Whether a number is one of the two zeros. -/
def JSNum.isZero : JSNum → Bool
  | .fin q => decide (q = 0)
  | .negZero => true
  | _ => false

/-- Whether a number is `NaN`. -/
def JSNum.isNaN : JSNum → Bool
  | .nan => true
  | _ => false

/-- The rational that a finite number stands for (`0` for the others). -/
def JSNum.value : JSNum → ℚ
  | .fin q => q
  | _ => 0

/-- The zero with the given sign bit. -/
def JSNum.zero (negative : Bool) : JSNum :=
  if negative then .negZero else .fin 0

/-- The negation `-x`. -/
def JSNum.neg : JSNum → JSNum
  | .nan => .nan
  | .fin q => if q = 0 then .negZero else .fin (-q)
  | .inf negative => .inf (!negative)
  | .negZero => .fin 0

/-- The product `x * y`, rounded to the nearest value. -/
def JSNum.mul : JSNum → JSNum → JSNum
  | .nan, _ => .nan
  | _, .nan => .nan
  | .inf a, y => if y.isZero then .nan else .inf (xor a y.isNegative)
  | x, .inf b => if x.isZero then .nan else .inf (xor x.isNegative b)
  | x, y =>
    if x.isZero || y.isZero then JSNum.zero (xor x.isNegative y.isNegative)
    else round64 (x.value * y.value)

/-- The sum `x + y`, rounded to the nearest value. -/
def JSNum.add : JSNum → JSNum → JSNum
  | .nan, _ => .nan
  | _, .nan => .nan
  | .inf a, .inf b => if a = b then .inf a else .nan
  | .inf a, _ => .inf a
  | _, .inf b => .inf b
  | x, y =>
    if x.isZero && y.isZero then JSNum.zero (x.isNegative && y.isNegative)
    else if x.value + y.value = 0 then .fin 0
    else round64 (x.value + y.value)

/-- The difference `x - y`, rounded to the nearest value. -/
def JSNum.sub (x y : JSNum) : JSNum :=
  x.add y.neg

/-- The quotient `x / y`, rounded to the nearest value. -/
def JSNum.div : JSNum → JSNum → JSNum
  | .nan, _ => .nan
  | _, .nan => .nan
  | .inf _, .inf _ => .nan
  | .inf a, y => .inf (xor a y.isNegative)
  | x, .inf b => JSNum.zero (xor x.isNegative b)
  | x, y =>
    if y.isZero then
      if x.isZero then .nan else .inf (xor x.isNegative y.isNegative)
    else if x.isZero then JSNum.zero (xor x.isNegative y.isNegative)
    else round64 (x.value / y.value)

/-- Truthiness of a number: the zeros and `NaN` are falsy. -/
def JSNum.truthy : JSNum → Bool
  | .nan => false
  | .fin q => q != 0
  | .inf _ => true
  | .negZero => false

/-- The number that `parseFloat` reads from the text of a number: the number
itself, but the positive zero for the negative one, which is written `0`. -/
def JSNum.reread : JSNum → JSNum
  | .negZero => .fin 0
  | x => x

/-- The value of a numeric field of a query answer: missing, `null`, a number,
a string that spells the decimal number `q`, a non-empty string that spells no
number, or any other value, given by what `parseFloat` and `Number` read from
it and by its truthiness. -/
inductive Scalar where
  | undefined
  | null
  | number (x : JSNum)
  | numeral (q : ℚ)
  | text
  | other (parsed number : JSNum) (truthy : Bool)

/-- Truthiness of a field value; a non-empty string is truthy, also `"0"`. -/
def Scalar.truthy : Scalar → Bool
  | .undefined => false
  | .null => false
  | .number x => x.truthy
  | .numeral _ => true
  | .text => true
  | .other _ _ truthy => truthy

/-- The function `parseFloat`. -/
def parseFloat : Scalar → JSNum
  | .undefined => .nan
  | .null => .nan
  | .number x => x.reread
  | .numeral q => round64 q
  | .text => .nan
  | .other parsed _ _ => parsed

/-- The conversion to a number that the operator `*` applies to an operand. -/
def toNumber : Scalar → JSNum
  | .undefined => .nan
  | .null => .fin 0
  | .number x => x
  | .numeral q => round64 q
  | .text => .nan
  | .other _ number _ => number

/-- The method `toString` of a number: a non-empty string from which both
`parseFloat` and `Number` read the number back, the positive zero for the
negative one. -/
def JSNum.toStringScalar (x : JSNum) : Scalar :=
  .other x.reread x.reread true

/-- The operator `a ?? b` on field values. -/
def Scalar.coalesce (a b : Scalar) : Scalar :=
  match a with
  | .undefined => b
  | .null => b
  | v => v

/-- Whether a character is white space or a line terminator, which `parseFloat`
and `Number` skip at the ends of a string. -/
def isStrWhiteSpaceChar (c : Char) : Bool :=
  c.toNat = 0x09 || c.toNat = 0x0A || c.toNat = 0x0B || c.toNat = 0x0C || c.toNat = 0x0D ||
    c.toNat = 0x20 || c.toNat = 0xA0 || c.toNat = 0x1680 ||
    (0x2000 ≤ c.toNat && c.toNat ≤ 0x200A) || c.toNat = 0x2028 || c.toNat = 0x2029 ||
    c.toNat = 0x202F || c.toNat = 0x205F || c.toNat = 0x3000 || c.toNat = 0xFEFF

/-- The number that a list of decimal digits spells. -/
def digitsValue (digits : List Char) : ℕ :=
  digits.foldl (fun n c => 10 * n + (c.toNat - 48)) 0

/-- The power `10 ^ k` for an integer exponent. -/
def pow10 (k : ℤ) : ℚ :=
  if 0 ≤ k then ((10 ^ k.toNat : ℕ) : ℚ) else 1 / ((10 ^ (-k).toNat : ℕ) : ℚ)

/-- The exponent part at the start of a list of characters, `e` or `E`, a sign
that may be left out, and digits: its value and the characters after it.
Without such a part the value is `0` and no character is taken. -/
def exponentPart (cs : List Char) : ℤ × List Char :=
  match cs with
  | [] => (0, cs)
  | c :: rest =>
    if c = 'e' ∨ c = 'E' then
      match rest with
      | [] => (0, cs)
      | s :: signed =>
        if s = '+' ∨ s = '-' then
          if signed.takeWhile Char.isDigit = [] then (0, cs)
          else
            (if s = '-' then -(digitsValue (signed.takeWhile Char.isDigit) : ℤ)
              else (digitsValue (signed.takeWhile Char.isDigit) : ℤ),
              signed.dropWhile Char.isDigit)
        else if rest.takeWhile Char.isDigit = [] then (0, cs)
        else ((digitsValue (rest.takeWhile Char.isDigit) : ℤ), rest.dropWhile Char.isDigit)
    else (0, cs)

/-- The longest decimal literal without sign at the start of a list of
characters, `Infinity` or digits with a point and an exponent part that may be
left out: the number it spells, with the sign bit `negative`, and the
characters after it; `none` when no literal starts the list. -/
def unsignedLiteral (negative : Bool) (cs : List Char) : Option (JSNum × List Char) :=
  if "Infinity".toList.isPrefixOf cs then some (.inf negative, cs.drop 8)
  else
    let whole := cs.takeWhile Char.isDigit
    let afterWhole := cs.dropWhile Char.isDigit
    let fraction : List Char :=
      match afterWhole with
      | c :: rest => if c = '.' then rest.takeWhile Char.isDigit else []
      | [] => []
    let afterFraction : List Char :=
      match afterWhole with
      | c :: rest =>
        if c = '.' ∧ ¬ (whole = [] ∧ fraction = []) then rest.dropWhile Char.isDigit
        else afterWhole
      | [] => afterWhole
    if whole = [] ∧ fraction = [] then none
    else
      let exponent := exponentPart afterFraction
      let q : ℚ := (digitsValue (whole ++ fraction) : ℚ) * pow10 (exponent.1 - fraction.length)
      some (if q = 0 then JSNum.zero negative else round64 (if negative then -q else q),
        exponent.2)

/-- The longest decimal literal at the start of a list of characters, with a
sign that may be left out. -/
def signedLiteral (cs : List Char) : Option (JSNum × List Char) :=
  match cs with
  | [] => none
  | c :: rest =>
    if c = '-' then unsignedLiteral true rest
    else if c = '+' then unsignedLiteral false rest
    else unsignedLiteral false cs

/-- The function `parseFloat` on a string: the number that the longest decimal
literal after the leading white space spells, `NaN` without one. -/
def parseFloatString (s : String) : JSNum :=
  match signedLiteral (s.toList.dropWhile isStrWhiteSpaceChar) with
  | some (x, _) => x
  | none => .nan

/-- The value of a digit in a radix up to 16, `none` for another character. -/
def radixDigit (radix : ℕ) (c : Char) : Option ℕ :=
  let v : ℕ :=
    if c.isDigit then c.toNat - 48
    else if 97 ≤ c.toNat ∧ c.toNat ≤ 102 then c.toNat - 87
    else if 65 ≤ c.toNat ∧ c.toNat ≤ 70 then c.toNat - 55
    else 16
  if v < radix then some v else none

/-- The integer that a literal `0x`, `0o` or `0b` with digits spells. -/
def nonDecimalLiteral (cs : List Char) : Option ℕ :=
  match cs with
  | zero :: x :: digits =>
    let radix : ℕ :=
      if x = 'x' ∨ x = 'X' then 16
      else if x = 'o' ∨ x = 'O' then 8
      else if x = 'b' ∨ x = 'B' then 2
      else 0
    if zero = '0' ∧ digits ≠ [] ∧ digits.all (fun c => (radixDigit radix c).isSome) then
      some (digits.foldl (fun n c => radix * n + (radixDigit radix c).getD 0) 0)
    else none
  | _ => none

/-- The conversion of a string to a number, as `Number` and the operator `*`
make it: `0` for a string of white space, the number that the whole of the
string between the white space at its ends spells, `NaN` for any other. -/
def stringToNumber (s : String) : JSNum :=
  let cs := ((s.toList.dropWhile isStrWhiteSpaceChar).reverse.dropWhile
    isStrWhiteSpaceChar).reverse
  if cs = [] then .fin 0
  else
    match nonDecimalLiteral cs with
    | some n => round64 n
    | none =>
      match signedLiteral cs with
      | some (x, []) => x
      | _ => .nan

/-- A value as the arithmetic and the tests of the callback of
`getBulkTokenData` read it: `undefined`, `null`, or what `parseFloat` and
`Number` make of the value, with its truthiness.  An array is read through its
text, and the text of an object is `[object Object]`. -/
def readValue (v : JSVal) : Scalar :=
  match v with
  | .undefined => .undefined
  | .null => .null
  | .bool b => .other .nan (if b then .fin 1 else .fin 0) (truthy v)
  | .num n => .other (round64 n) (round64 n) (truthy v)
  | .str s => .other (parseFloatString s) (stringToNumber s) (truthy v)
  | .arr items =>
    .other (parseFloatString (joinKeys items)) (stringToNumber (joinKeys items)) (truthy v)
  | .obj _ => .other .nan .nan (truthy v)

end JS

namespace TokenData

open JS

/-- The fields of a token of a query answer that `getBulkTokenData` reads. -/
structure TokenRow where
  volumeUSD : Scalar
  volume : Scalar
  derivedETH : Scalar
  txCount : Scalar
  feesUSD : Scalar
  totalValueLockedUSD : Scalar
  totalValueLocked : Scalar

/-- The read `history?.field` of a history that may be missing. -/
def historyField (history : Option TokenRow) (field : TokenRow → Scalar) : Scalar :=
  match history with
  | none => .undefined
  | some h => field h

/-- The record that the callback of `getBulkTokenData` returns: the fields of
the token it leaves as they are, and the fields it assigns. -/
structure EnrichedToken where
  volumeUSD : Scalar
  volume : Scalar
  derivedETH : Scalar
  txCount : Scalar
  totalValueLockedUSD : Scalar
  totalValueLocked : Scalar
  priceUSD : JSNum
  priceChangeUSD : Scalar
  totalLiquidityUSD : JSNum
  liquidityChangeUSD : Scalar
  oneDayVolumeUSD : JSNum
  volumeChangeUSD : Scalar
  oneDayVolumeETH : JSNum
  volumeChangeETH : Scalar
  oneDayTxns : Scalar
  txnChange : Scalar
  feesUSD : JSNum
  oneDayData : Option TokenRow
  twoDaysData : Option TokenRow

/-- Modelled from the spec: `getPercentChange` of `utils`, which is not among
the sources.  The percent change is `((current - previous) / previous) * 100`
on the parsed values, and `0` if `previous` is zero, undefined or not numeric. -/
def getPercentChange (valueNow value24HoursAgo : Scalar) : Scalar :=
  let current := parseFloat valueNow
  let previous := parseFloat value24HoursAgo
  if previous.isZero || previous.isNaN then .number (.fin 0)
  else .number (((current.sub previous).div previous).mul (.fin 100))

/-- The constant `priceUSD` of the callback. -/
def enrichToken.priceUSD (ethPrice : Scalar) (data : TokenRow) : JSNum :=
  if data.derivedETH.truthy then (parseFloat data.derivedETH).mul (toNumber ethPrice)
  else .fin 0

/-- The constant `priceUSDOneDay` of the callback. -/
def enrichToken.priceUSDOneDay (ethPriceOld : Scalar) (oneDayHistory : Option TokenRow) :
    JSNum :=
  if (historyField oneDayHistory TokenRow.derivedETH).truthy then
    (parseFloat (historyField oneDayHistory TokenRow.derivedETH)).mul (toNumber ethPriceOld)
  else .fin 0

/-- The constant `priceUSDChange` of the callback. -/
def enrichToken.priceUSDChange (getPercentChange : Scalar → Scalar → Scalar)
    (ethPrice ethPriceOld : Scalar) (data : TokenRow) (oneDayHistory : Option TokenRow) :
    Scalar :=
  if (enrichToken.priceUSD ethPrice data).truthy &&
      (enrichToken.priceUSDOneDay ethPriceOld oneDayHistory).truthy then
    getPercentChange (enrichToken.priceUSD ethPrice data).toStringScalar
      (enrichToken.priceUSDOneDay ethPriceOld oneDayHistory).toStringScalar
  else .number (.fin 0)

/-- The constant `txCount` of the callback; the token `data` is an object, so
the test of the inner conditional holds. -/
def enrichToken.txCount (data : TokenRow) (oneDayHistory : Option TokenRow) : JSNum :=
  if data.txCount.truthy && (historyField oneDayHistory TokenRow.txCount).truthy then
    (parseFloat data.txCount).sub (parseFloat (historyField oneDayHistory TokenRow.txCount))
  else parseFloat data.txCount

/-- The constant `feesUSD` of the callback. -/
def enrichToken.feesUSD (data : TokenRow) (oneDayHistory : Option TokenRow) : JSNum :=
  if data.feesUSD.truthy && (historyField oneDayHistory TokenRow.feesUSD).truthy then
    (parseFloat data.feesUSD).sub (parseFloat (historyField oneDayHistory TokenRow.feesUSD))
  else parseFloat data.feesUSD

/-- The product `history?.volume * history?.derivedETH` guarded by the two
factors, the second and third argument of the call for the volume in ETH. -/
def enrichToken.volumeETH (history : Option TokenRow) : Scalar :=
  if (historyField history TokenRow.volume).truthy &&
      (historyField history TokenRow.derivedETH).truthy then
    .number ((toNumber (historyField history TokenRow.volume)).mul
      (toNumber (historyField history TokenRow.derivedETH)))
  else .number (.fin 0)

/-- The body of the callback `async (token) => ...` of `getBulkTokenData` on the
numeric fields: `get2DayPercentChange` and `getPercentChange` are the functions
of `utils`, `oneDayHistory` and `twoDaysHistory` the entries of the two indexes
for the token.  The constant `txCount` is computed and assigned to no field. -/
def enrichToken (get2DayPercentChange : Scalar → Scalar → Scalar → Scalar × Scalar)
    (getPercentChange : Scalar → Scalar → Scalar) (ethPrice ethPriceOld : Scalar)
    (token : TokenRow) (oneDayHistory twoDaysHistory : Option TokenRow) : EnrichedToken :=
  let data := token
  let volumeUSD := get2DayPercentChange data.volumeUSD
    ((historyField oneDayHistory TokenRow.volumeUSD).coalesce (.number (.fin 0)))
    ((historyField twoDaysHistory TokenRow.volumeUSD).coalesce (.number (.fin 0)))
  let volumeETH := get2DayPercentChange
    (.number ((toNumber data.volume).mul (toNumber data.derivedETH)))
    (enrichToken.volumeETH oneDayHistory) (enrichToken.volumeETH twoDaysHistory)
  let txns := get2DayPercentChange data.txCount
    ((historyField oneDayHistory TokenRow.txCount).coalesce (.number (.fin 0)))
    ((historyField twoDaysHistory TokenRow.txCount).coalesce (.number (.fin 0)))
  let tvlUSD : JSNum :=
    if data.totalValueLockedUSD.truthy then parseFloat data.totalValueLockedUSD else .fin 0
  let tvlUSDChange := getPercentChange data.totalValueLockedUSD
    (historyField oneDayHistory TokenRow.totalValueLockedUSD)
  { volumeUSD := data.volumeUSD
    volume := data.volume
    derivedETH := data.derivedETH
    txCount := data.txCount
    totalValueLockedUSD := data.totalValueLockedUSD
    totalValueLocked := data.totalValueLocked
    priceUSD := enrichToken.priceUSD ethPrice data
    priceChangeUSD := enrichToken.priceUSDChange getPercentChange ethPrice ethPriceOld data
      oneDayHistory
    totalLiquidityUSD := tvlUSD
    liquidityChangeUSD := tvlUSDChange
    oneDayVolumeUSD := parseFloat volumeUSD.1
    volumeChangeUSD := volumeUSD.2
    oneDayVolumeETH := parseFloat volumeETH.1
    volumeChangeETH := volumeETH.2
    oneDayTxns := txns.1
    txnChange := txns.2
    feesUSD := enrichToken.feesUSD data oneDayHistory
    oneDayData := oneDayHistory
    twoDaysData := twoDaysHistory }

end TokenData

namespace TokenData

/-- The addresses of a list in the order of their first occurrence, each once:
the reading of "de-duplicate" that the id list of `getTopTokens` is compared
with. -/
def firstOccurrences : List String → List String
  | [] => []
  | a :: rest => a :: (firstOccurrences rest).filter (fun b => b != a)

end TokenData


namespace JS

/-- The comparison `a === b`.  Arrays and objects compare by identity; the
values compared here are read from a state and a literal, which are distinct. -/
def strictEquals : JSVal → JSVal → Bool
  | .undefined, .undefined => true
  | .null, .null => true
  | .bool a, .bool b => a == b
  | .num a, .num b => a == b
  | .str a, .str b => a == b
  | _, _ => false

end JS

namespace TokenData

open JS

/-- Modelled from the spec: `get2DayPercentChange` of `utils`, which is not
among the sources.  The one-day value is `current - oneDayAgo`, and the whole
of `current` when `oneDayAgo` is missing; the percent change is
`((recent - prior) / prior) * 100` with `recent = current - oneDayAgo` and
`prior = oneDayAgo - twoDaysAgo`, and `0` when `prior` is zero.  For an input
that is no number the formula gives `NaN`. -/
def get2DayPercentChange (valueNow value24HoursAgo value48HoursAgo : Scalar) :
    Scalar × Scalar :=
  let current := parseFloat valueNow
  let oneDayAgo := parseFloat value24HoursAgo
  let twoDaysAgo := parseFloat value48HoursAgo
  let recent := current.sub oneDayAgo
  let prior := oneDayAgo.sub twoDaysAgo
  let oneDayValue : JSNum := if oneDayAgo.isNaN then current else recent
  let percentChange : JSNum :=
    if prior.isZero then .fin 0 else ((recent.sub prior).div prior).mul (.fin 100)
  (.number oneDayValue, .number percentChange)

/-- The fields of a token, or of one of its histories, as the arithmetic of the
callback of `getBulkTokenData` reads them. -/
def readRow (record : JSVal) : TokenRow :=
  { volumeUSD := readValue (getProp (ownProps record) "volumeUSD")
    volume := readValue (getProp (ownProps record) "volume")
    derivedETH := readValue (getProp (ownProps record) "derivedETH")
    txCount := readValue (getProp (ownProps record) "txCount")
    feesUSD := readValue (getProp (ownProps record) "feesUSD")
    totalValueLockedUSD := readValue (getProp (ownProps record) "totalValueLockedUSD")
    totalValueLocked := readValue (getProp (ownProps record) "totalValueLocked") }

/-- A history `oneDayData?.[token.tokenAddress]` as the reads `history?.field`
of the callback see it: missing when it is `undefined` or `null`. -/
def readHistory (history : JSVal) : Option TokenRow :=
  match history with
  | .undefined => none
  | .null => none
  | record => some (readRow record)

/-- The assignments `data.priceUSD = priceUSD` to
`data.twoDaysData = twoDaysHistory` at the end of the callback, in their
order, on the properties `data` of the token.  The store of this model holds
integers, so `toJSVal`, the value that holds a computed field, is left open. -/
def getBulkTokenData.assign (toJSVal : Scalar → JSVal) (computed : EnrichedToken)
    (oneDayHistory twoDaysHistory : JSVal) (data : Obj) : Obj :=
  let data := setProp data "priceUSD" (toJSVal (.number computed.priceUSD))
  let data := setProp data "priceChangeUSD" (toJSVal computed.priceChangeUSD)
  let data := setProp data "totalLiquidityUSD" (toJSVal (.number computed.totalLiquidityUSD))
  let data := setProp data "liquidityChangeUSD" (toJSVal computed.liquidityChangeUSD)
  let data := setProp data "oneDayVolumeUSD" (toJSVal (.number computed.oneDayVolumeUSD))
  let data := setProp data "volumeChangeUSD" (toJSVal computed.volumeChangeUSD)
  let data := setProp data "oneDayVolumeETH" (toJSVal (.number computed.oneDayVolumeETH))
  let data := setProp data "volumeChangeETH" (toJSVal computed.volumeChangeETH)
  let data := setProp data "oneDayTxns" (toJSVal computed.oneDayTxns)
  let data := setProp data "txnChange" (toJSVal computed.txnChange)
  let data := setProp data "feesUSD" (toJSVal (.number computed.feesUSD))
  let data := setProp data "oneDayData" oneDayHistory
  setProp data "twoDaysData" twoDaysHistory

/-- A value for a computed field in the examples: a finite number is held as
the pair of the numerator and the denominator of the rational it stands for,
any other value as `undefined`. -/
def asFraction : Scalar → JSVal
  | .number (.fin q) => .arr [.num q.num, .num q.den]
  | _ => .undefined

/-- The callback `async (token) => ...` of `getBulkTokenData` after the lookup
of the two histories: it computes the derived fields, assigns them to the
token and returns it.  The module is in strict mode, where the assignment to a
token that is a boolean, a number or a string is a `TypeError`; the model has
no array with named properties and gives a token that is an array as the
object of its elements and the assigned fields. -/
def getBulkTokenData.callback (toJSVal : Scalar → JSVal)
    (get2DayPercentChange : Scalar → Scalar → Scalar → Scalar × Scalar)
    (getPercentChange : Scalar → Scalar → Scalar) (ethPrice ethPriceOld : JSVal)
    (token oneDayHistory twoDaysHistory : JSVal) : Except Thrown JSVal :=
  let computed := enrichToken get2DayPercentChange getPercentChange (readValue ethPrice)
    (readValue ethPriceOld) (readRow token) (readHistory oneDayHistory)
    (readHistory twoDaysHistory)
  match token with
  | .obj data =>
    .ok (.obj (getBulkTokenData.assign toJSVal computed oneDayHistory twoDaysHistory data))
  | .arr items =>
    .ok (.obj (getBulkTokenData.assign toJSVal computed oneDayHistory twoDaysHistory
      (indexedFrom 0 items)))
  | _ => .error .typeError

/-- The value that the hook `useTokenPairs` returns: `tokenPairs || []` with
`tokenPairs = state?.[tokenAddress]?.[TOKEN_PAIRS_KEY]`. -/
def useTokenPairs (state : Obj) (tokenAddress : JSVal) : JSVal :=
  let tokenPairs : JSVal :=
    match getProp state (toPropertyKey tokenAddress) with
    | .undefined => .undefined
    | .null => .undefined
    | record => getProp (ownProps record) TOKEN_PAIRS_KEY
  if truthy tokenPairs then tokenPairs else .arr []

/-- The constant `untrackedAddresses` of `useTokenDataForList`: the `reduce`
that pushes an address unless `Object.keys(allTokensData).includes(address)`
or the address check of `utils` fails. -/
def useTokenDataForList.untrackedAddresses (isStarknetAddress : JSVal → Bool) (state : Obj)
    (addresses : List JSVal) : List JSVal :=
  addresses.foldl
    (fun accum address =>
      if !((ownKeys (useAllTokenData state)).any (fun key => sameValueZero (.str key) address))
          && isStarknetAddress address then
        accum ++ [address]
      else accum)
    []

/-- The loop `data.forEach((p) => { update(p.id, p) })`: the actions dispatched
in order; a `TypeError` on an element that is `undefined` or `null` ends it. -/
def useTokenDataForList.forEachUpdate : List JSVal → List Action
  | [] => []
  | p :: rest =>
    match getMember p "id" with
    | .error _ => []
    | .ok id => update id p ++ useTokenDataForList.forEachUpdate rest

/-- The effect of `useTokenDataForList`: when there are untracked addresses it
calls `getBulkTokenData(untrackedAddresses, ethPrice)` and, when the value that
call resolves to, `fetched`, is truthy, runs the loop over it. -/
def useTokenDataForList.effect (isStarknetAddress : JSVal → Bool) (state : Obj)
    (addresses : List JSVal) (fetched : JSVal) : List Action :=
  if (useTokenDataForList.untrackedAddresses isStarknetAddress state addresses).length = 0 then
    []
  else if truthy fetched then
    match fetched with
    | .arr data => useTokenDataForList.forEachUpdate data
    | _ => []
  else []

end TokenData

namespace TokenDataV1

open JS

/-- The `reduce` of v1 `getTokens` over the tokens of a query answer, whose
step is `{ ...obj, [cur.tokenAddress]: cur }`. -/
def indexTokens : Obj → List JSVal → Except Thrown Obj
  | obj, [] => .ok obj
  | obj, cur :: rest =>
    match getMember cur "tokenAddress" with
    | .error e => .error e
    | .ok tokenAddress =>
      indexTokens (setProp (spreadInto [] obj) (toPropertyKey tokenAddress) cur) rest

/-- The expression `result?.data?.tokens.reduce(..., {})` of v1 `getTokens`. -/
def tokenIndex (result : JSVal) : Except Thrown JSVal :=
  match result with
  | .undefined => .ok .undefined
  | .null => .ok .undefined
  | r =>
    match getProp (ownProps r) "data" with
    | .undefined => .ok .undefined
    | .null => .ok .undefined
    | data =>
      match getProp (ownProps data) "tokens" with
      | .arr tokens =>
        match indexTokens [] tokens with
        | .error e => .error e
        | .ok index => .ok (.obj index)
      | _ => .error .typeError

/-- The `Object.keys(currentResultData).map((tokenAddress) => ...)` of v1
`getTokens`: the callback reads the token and its one-day entry and runs
`enrich`, the rest of its body, which also sees the one-day index. -/
def enrichKeys (enrich : JSVal → JSVal → JSVal → Except Thrown JSVal)
    (currentResultData : Obj) (oneDayData : JSVal) : List String → Except Thrown (List JSVal)
  | [] => .ok []
  | tokenAddress :: rest =>
    let oneDayEntry : JSVal :=
      match oneDayData with
      | .undefined => .undefined
      | .null => .undefined
      | index => getProp (ownProps index) tokenAddress
    match enrich (getProp currentResultData tokenAddress) (coalesce oneDayEntry (.obj []))
        oneDayData with
    | .error e => .error e
    | .ok tokenData =>
      match enrichKeys enrich currentResultData oneDayData rest with
      | .error e => .error e
      | .ok results => .ok (tokenData :: results)

/-- The body of the `try` block of v1 `getTokens` for a non-empty id list;
`currentResult` and `oneDayResult` are the outcomes of the two queries. -/
def getTokens.attempt (enrich : JSVal → JSVal → JSVal → Except Thrown JSVal)
    (currentResult oneDayResult : Except Thrown JSVal) : Except Thrown JSVal :=
  match currentResult with
  | .error e => .error e
  | .ok currentResult =>
    match oneDayResult with
    | .error e => .error e
    | .ok oneDayResult =>
      match tokenIndex currentResult, tokenIndex oneDayResult with
      | .ok currentResultData, .ok oneDayData =>
        if !(truthy currentResultData && truthy oneDayResult) then .ok (.obj [])
        else
          match enrichKeys enrich (ownProps currentResultData) oneDayData
              (ownKeys (ownProps currentResultData)) with
          | .error e => .error e
          | .ok bulkResult => .ok (.arr bulkResult)
      | _, _ => .error .typeError

/-- The function `getTokens` of v1: the empty object for an empty id list or a
missing answer, the array of enriched records, or `undefined` after the `catch`
block has logged an exception. -/
def getTokens (enrich : JSVal → JSVal → JSVal → Except Thrown JSVal) (ids : List JSVal)
    (currentResult oneDayResult : Except Thrown JSVal) : JSVal :=
  if ids.length = 0 then .obj []
  else
    match getTokens.attempt enrich currentResult oneDayResult with
    | .ok value => value
    | .error _ => .undefined

/-- The effect of the v1 `Updater`: `updateAllTokens(allTokens)` with the value
that `getTokens` resolves to, when both prices are truthy. -/
def Updater (ethPrice oldEthPrice allTokens : JSVal) : List Action :=
  if truthy ethPrice && truthy oldEthPrice then updateAllTokens allTokens else []

end TokenDataV1

namespace Application

open JS

/-- The function `toggleCurrency` of `useCurrentCurrency`: it tests
`state.currency === 'ETH'` and calls `update('USD')` or `update('ETH')`. -/
def useCurrentCurrency.toggleCurrency (state : Obj) : List Action :=
  if strictEquals (getProp state "currency") (.str "ETH") then update (.str "USD")
  else update (.str "ETH")

/-- The currency that `useCurrentCurrency` returns: `state[CURRENCY]`. -/
def useCurrentCurrency (state : Obj) : JSVal :=
  getProp state CURRENCY

/-- A call on the settings that a user of the module can make.  The context
and the hook `useApplicationContext` are not exported, so the operation
`update` is reached through `toggleCurrency` alone, which tests the state
`rendered` that its closure holds; the other six operations are taken with any
argument. -/
inductive Call where
  | toggleCurrency (rendered : Obj)
  | updateTimeframe (newTimeFrame : JSVal)
  | updateSessionStart (timestamp : JSVal)
  | updateSupportedTokens (supportedTokens : JSVal)
  | updateWhitelistedTokens (whitelistedTokens : JSVal)
  | updateLatestBlock (block : JSVal)
  | updateHeadBlock (block : JSVal)

/-- The actions that a call dispatches. -/
def Call.actions : Call → List Action
  | .toggleCurrency rendered => useCurrentCurrency.toggleCurrency rendered
  | .updateTimeframe newTimeFrame => Application.updateTimeframe newTimeFrame
  | .updateSessionStart timestamp => Application.updateSessionStart timestamp
  | .updateSupportedTokens supportedTokens => Application.updateSupportedTokens supportedTokens
  | .updateWhitelistedTokens whitelistedTokens =>
    Application.updateWhitelistedTokens whitelistedTokens
  | .updateLatestBlock block => Application.updateLatestBlock block
  | .updateHeadBlock block => Application.updateHeadBlock block

/-- The state after a sequence of calls of the module, made one after the
other. -/
def runCalls : Obj → List Call → Except Thrown Obj
  | state, [] => .ok state
  | state, call :: rest =>
    match dispatch state call.actions with
    | .error e => .error e
    | .ok next => runCalls next rest

end Application

/-! ## Properties of the object operations -/

namespace JS

theorem getOwn?_nil (k : String) : getOwn? [] k = none := rfl

theorem getOwn?_cons (k' : String) (v : JSVal) (rest : Obj) (k : String) :
    getOwn? ((k', v) :: rest) k = (match getOwn? rest k with
      | some w => some w
      | none => if k' = k then some v else none) := rfl

theorem ownKeys_nil : ownKeys [] = [] := rfl

theorem ownKeys_cons (p : String × JSVal) (rest : Obj) :
    ownKeys (p :: rest) = p.1 :: ownKeys rest := rfl

theorem ownKeys_append (a b : Obj) : ownKeys (a ++ b) = ownKeys a ++ ownKeys b := by
  simp [ownKeys]

theorem getOwn?_append (a b : Obj) (k : String) :
    getOwn? (a ++ b) k = (match getOwn? b k with
      | some w => some w
      | none => getOwn? a k) := by
  induction a with
  | nil => cases h : getOwn? b k <;> simp [getOwn?_nil, h]
  | cons p rest ih =>
    obtain ⟨k', v⟩ := p
    rw [List.cons_append, getOwn?_cons, getOwn?_cons, ih]
    cases getOwn? b k <;> rfl

theorem any_key_iff (o : Obj) (k : String) :
    o.any (fun p => p.1 == k) = true ↔ k ∈ ownKeys o := by
  induction o with
  | nil => simp [ownKeys_nil]
  | cons p rest ih =>
    rw [List.any_cons, Bool.or_eq_true, ih, ownKeys_cons, List.mem_cons, beq_iff_eq]
    constructor
    · rintro (h | h)
      · exact Or.inl h.symm
      · exact Or.inr h
    · rintro (h | h)
      · exact Or.inl h.symm
      · exact Or.inr h

theorem mem_ownKeys_iff (o : Obj) (k : String) :
    k ∈ ownKeys o ↔ getOwn? o k ≠ none := by
  induction o with
  | nil => simp [ownKeys_nil, getOwn?_nil]
  | cons p rest ih =>
    obtain ⟨k', v⟩ := p
    rw [ownKeys_cons, List.mem_cons, getOwn?_cons, ih]
    cases h : getOwn? rest k with
    | some w => simp
    | none =>
      by_cases hk : k' = k
      · simp [hk]
      · simp [hk, Ne.symm hk]

theorem getOwn?_replace (o : Obj) (k : String) (v : JSVal) (k' : String) :
    getOwn? (o.map (fun p => if p.1 = k then (k, v) else p)) k' =
      if k' = k then (if k ∈ ownKeys o then some v else none) else getOwn? o k' := by
  induction o with
  | nil => simp [getOwn?_nil, ownKeys_nil]
  | cons p rest ih =>
    obtain ⟨k1, v1⟩ := p
    have hmem : k ∈ ownKeys ((k1, v1) :: rest) ↔ (k = k1 ∨ k ∈ ownKeys rest) := by
      rw [ownKeys_cons, List.mem_cons]
    by_cases h1 : k1 = k
    · have hhead : (if (k1, v1).1 = k then (k, v) else (k1, v1)) = (k, v) := if_pos h1
      rw [List.map_cons, hhead, getOwn?_cons, getOwn?_cons, ih]
      subst h1
      by_cases h2 : k' = k1
      · subst h2
        by_cases h3 : k' ∈ ownKeys rest <;> simp [h3, hmem]
      · simp only [if_neg h2, if_neg (Ne.symm h2)]
    · have hhead : (if (k1, v1).1 = k then (k, v) else (k1, v1)) = (k1, v1) := if_neg h1
      rw [List.map_cons, hhead, getOwn?_cons, getOwn?_cons, ih]
      by_cases h2 : k' = k
      · subst h2
        by_cases h3 : k' ∈ ownKeys rest <;> simp [h3, h1, Ne.symm h1, hmem]
      · simp only [if_neg h2]

theorem getOwn?_setProp (o : Obj) (k : String) (v : JSVal) (k' : String) :
    getOwn? (setProp o k v) k' = if k' = k then some v else getOwn? o k' := by
  unfold setProp
  by_cases h : k ∈ ownKeys o
  · rw [if_pos ((any_key_iff o k).2 h), getOwn?_replace]
    simp [h]
  · have hany : ¬ (o.any (fun p => p.1 == k) = true) := fun hc => h ((any_key_iff o k).1 hc)
    rw [if_neg hany, getOwn?_append, getOwn?_cons, getOwn?_nil]
    by_cases hk : k' = k
    · subst hk; simp
    · simp [hk, Ne.symm hk]

theorem spreadInto_nil (base : Obj) : spreadInto base [] = base := rfl

theorem spreadInto_cons (base : Obj) (p : String × JSVal) (rest : Obj) :
    spreadInto base (p :: rest) = spreadInto (setProp base p.1 p.2) rest := rfl

theorem getOwn?_spreadInto (base src : Obj) (k : String) :
    getOwn? (spreadInto base src) k = (match getOwn? src k with
      | some w => some w
      | none => getOwn? base k) := by
  induction src generalizing base with
  | nil => simp [spreadInto_nil, getOwn?_nil]
  | cons p rest ih =>
    obtain ⟨k1, v1⟩ := p
    rw [spreadInto_cons, ih, getOwn?_setProp, getOwn?_cons]
    cases getOwn? rest k with
    | some w => rfl
    | none =>
      by_cases hk : k = k1
      · simp [hk]
      · simp [hk, Ne.symm hk]

theorem getOwn?_spreadInto_nil (src : Obj) (k : String) :
    getOwn? (spreadInto [] src) k = getOwn? src k := by
  rw [getOwn?_spreadInto]
  cases getOwn? src k <;> simp [getOwn?_nil]


theorem getOwn?_eq_none_of_not_mem (o : Obj) (k : String) (h : k ∉ ownKeys o) :
    getOwn? o k = none := by
  by_contra hc
  exact h ((mem_ownKeys_iff o k).2 hc)

theorem getOwn?_cons_of_ne (k' : String) (v : JSVal) (rest : Obj) (k : String) (h : k' ≠ k) :
    getOwn? ((k', v) :: rest) k = getOwn? rest k := by
  rw [getOwn?_cons]
  cases getOwn? rest k <;> simp [h]

theorem obj_ext (o₁ o₂ : Obj) (hkeys : ownKeys o₁ = ownKeys o₂)
    (hget : ∀ k, getOwn? o₁ k = getOwn? o₂ k) (hnd : (ownKeys o₁).Nodup) : o₁ = o₂ := by
  induction o₁ generalizing o₂ with
  | nil =>
    cases o₂ with
    | nil => rfl
    | cons p r => simp [ownKeys_nil, ownKeys_cons] at hkeys
  | cons p₁ r₁ ih =>
    cases o₂ with
    | nil => simp [ownKeys_nil, ownKeys_cons] at hkeys
    | cons p₂ r₂ =>
      obtain ⟨k₁, v₁⟩ := p₁
      obtain ⟨k₂, v₂⟩ := p₂
      rw [ownKeys_cons, ownKeys_cons, List.cons.injEq] at hkeys
      obtain ⟨hk, hrest⟩ := hkeys
      simp only at hk
      subst hk
      rw [ownKeys_cons, List.nodup_cons] at hnd
      obtain ⟨hnot, hnd'⟩ := hnd
      have hnot₂ : k₁ ∉ ownKeys r₂ := hrest ▸ hnot
      have hv : v₁ = v₂ := by
        have h := hget k₁
        rw [getOwn?_cons, getOwn?_cons, getOwn?_eq_none_of_not_mem r₁ k₁ hnot,
          getOwn?_eq_none_of_not_mem r₂ k₁ hnot₂] at h
        simpa using h
      have hr : r₁ = r₂ := by
        apply ih r₂ hrest _ hnd'
        intro k
        by_cases hk : k₁ = k
        · subst hk
          rw [getOwn?_eq_none_of_not_mem r₁ k₁ hnot, getOwn?_eq_none_of_not_mem r₂ k₁ hnot₂]
        · have h := hget k
          rwa [getOwn?_cons_of_ne _ _ _ _ hk, getOwn?_cons_of_ne _ _ _ _ hk] at h
      rw [hv, hr]

theorem ownKeys_replace (o : Obj) (k : String) (v : JSVal) :
    ownKeys (o.map (fun p => if p.1 = k then (k, v) else p)) = ownKeys o := by
  induction o with
  | nil => rfl
  | cons p rest ih =>
    rw [List.map_cons, ownKeys_cons, ownKeys_cons, ih]
    by_cases h : p.1 = k
    · simp [h]
    · simp [h]

theorem setProp_of_mem (o : Obj) (k : String) (v : JSVal) (h : k ∈ ownKeys o) :
    setProp o k v = o.map (fun p => if p.1 = k then (k, v) else p) := by
  unfold setProp
  rw [if_pos ((any_key_iff o k).2 h)]

theorem setProp_of_not_mem (o : Obj) (k : String) (v : JSVal) (h : k ∉ ownKeys o) :
    setProp o k v = o ++ [(k, v)] := by
  unfold setProp
  rw [if_neg (fun hc => h ((any_key_iff o k).1 hc))]

theorem ownKeys_setProp_of_mem (o : Obj) (k : String) (v : JSVal) (h : k ∈ ownKeys o) :
    ownKeys (setProp o k v) = ownKeys o := by
  rw [setProp_of_mem o k v h, ownKeys_replace]

theorem mem_ownKeys_setProp (o : Obj) (k : String) (v : JSVal) (k' : String) :
    k' ∈ ownKeys (setProp o k v) ↔ (k' = k ∨ k' ∈ ownKeys o) := by
  rw [mem_ownKeys_iff, getOwn?_setProp, mem_ownKeys_iff]
  by_cases h : k' = k <;> simp [h]

theorem nodup_setProp (o : Obj) (k : String) (v : JSVal) (h : (ownKeys o).Nodup) :
    (ownKeys (setProp o k v)).Nodup := by
  by_cases hk : k ∈ ownKeys o
  · rw [ownKeys_setProp_of_mem o k v hk]; exact h
  · rw [setProp_of_not_mem o k v hk, ownKeys_append]
    have : ownKeys [(k, v)] = [k] := rfl
    rw [this]
    exact List.Nodup.append h (List.nodup_singleton k) (by simpa using hk)

theorem nodup_spreadInto (base src : Obj) (h : (ownKeys base).Nodup) :
    (ownKeys (spreadInto base src)).Nodup := by
  induction src generalizing base with
  | nil => exact h
  | cons p rest ih =>
    rw [spreadInto_cons]
    exact ih _ (nodup_setProp base p.1 p.2 h)

theorem mem_ownKeys_spreadInto (base src : Obj) (k : String) :
    k ∈ ownKeys (spreadInto base src) ↔ (k ∈ ownKeys src ∨ k ∈ ownKeys base) := by
  rw [mem_ownKeys_iff, getOwn?_spreadInto, mem_ownKeys_iff, mem_ownKeys_iff]
  cases getOwn? src k <;> simp

theorem ownKeys_spreadInto_of_subset (base src : Obj)
    (h : ∀ k ∈ ownKeys src, k ∈ ownKeys base) : ownKeys (spreadInto base src) = ownKeys base := by
  induction src generalizing base with
  | nil => rfl
  | cons p rest ih =>
    have hp : p.1 ∈ ownKeys base := h p.1 (by rw [ownKeys_cons]; exact List.mem_cons_self _ _)
    rw [spreadInto_cons, ih, ownKeys_setProp_of_mem base p.1 p.2 hp]
    intro k hk
    rw [ownKeys_setProp_of_mem base p.1 p.2 hp]
    exact h k (by rw [ownKeys_cons]; exact List.mem_cons_of_mem _ hk)

theorem spreadInto_eq_append (base src : Obj) (h : (ownKeys (base ++ src)).Nodup) :
    spreadInto base src = base ++ src := by
  induction src generalizing base with
  | nil => simp [spreadInto_nil]
  | cons p rest ih =>
    have hp : p.1 ∉ ownKeys base := by
      rw [ownKeys_append, ownKeys_cons] at h
      intro hc
      exact (List.nodup_append.1 h).2.2 hc (List.mem_cons_self _ _)
    have happ : base ++ p :: rest = (base ++ [p]) ++ rest := by simp
    rw [spreadInto_cons, setProp_of_not_mem base p.1 p.2 hp, happ]
    exact ih (base ++ [p]) (happ ▸ h)

theorem spreadInto_nil_of_nodup (o : Obj) (h : (ownKeys o).Nodup) : spreadInto [] o = o := by
  have := spreadInto_eq_append [] o (by simpa using h)
  simpa using this

theorem spreadInto_absorb (base src : Obj) (h : (ownKeys base).Nodup) :
    spreadInto (spreadInto base src) src = spreadInto base src := by
  apply obj_ext
  · apply ownKeys_spreadInto_of_subset
    intro k hk
    exact (mem_ownKeys_spreadInto base src k).2 (Or.inl hk)
  · intro k
    rw [getOwn?_spreadInto, getOwn?_spreadInto]
    cases getOwn? src k <;> rfl
  · exact nodup_spreadInto _ _ (nodup_spreadInto _ _ h)

theorem setProp_setProp_same (o : Obj) (k : String) (v : JSVal) (h : (ownKeys o).Nodup) :
    setProp (setProp o k v) k v = setProp o k v := by
  apply obj_ext
  · exact ownKeys_setProp_of_mem _ k v ((mem_ownKeys_setProp o k v k).2 (Or.inl rfl))
  · intro k'
    rw [getOwn?_setProp, getOwn?_setProp]
    by_cases hk : k' = k <;> simp [hk]
  · exact nodup_setProp _ _ _ (nodup_setProp _ _ _ h)

end JS

/-! ## The merge update of the token data store -/

namespace TokenData

open JS

/-- Record that an `UPDATE` for the key `key` with data `d` stores. -/
theorem reducer_update (s : Obj) (a d : JSVal) :
    reducer s ⟨UPDATE, .obj [("tokenAddress", a), ("data", d)]⟩ =
      .ok (setProp (spreadInto [] s) (toPropertyKey a)
        (.obj (spreadInto (spreadInto [] (ownProps (getProp s (toPropertyKey a))))
          (ownProps d)))) := rfl

theorem toPropertyKey_str (a : String) : toPropertyKey (.str a) = a := rfl

theorem update_str (a : String) (d : JSVal) (ha : a ≠ "") :
    update (.str a) d = [⟨UPDATE, .obj [("tokenAddress", .str a), ("data", d)]⟩] := by
  simp [update, truthy, ha]

theorem dispatch_update_str (s : Obj) (a : String) (d : JSVal) (ha : a ≠ "") :
    dispatch s (update (.str a) d) =
      .ok (setProp (spreadInto [] s) a
        (.obj (spreadInto (spreadInto [] (ownProps (getProp s a))) (ownProps d)))) := by
  rw [update_str a d ha]
  simp only [dispatch, reducer_update, toPropertyKey_str]

/-- C1: a merge update for a non-empty address keeps every field of the previous
record that the partial record does not carry, with the value it had. -/
theorem mergeUpdate_preserves_unrelated_fields (s : Obj) (a : String) (d : JSVal)
    (k : String) (v : JSVal) (ha : a ≠ "")
    (hv : getOwn? (ownProps (getProp s a)) k = some v)
    (hk : k ∉ ownKeys (ownProps d)) :
    ∃ s' r, dispatch s (update (.str a) d) = .ok s' ∧ getOwn? s' a = some (.obj r) ∧
      getOwn? r k = some v := by
  refine ⟨_, spreadInto (spreadInto [] (ownProps (getProp s a))) (ownProps d),
    dispatch_update_str s a d ha, ?_, ?_⟩
  · rw [getOwn?_setProp, if_pos rfl]
  · rw [getOwn?_spreadInto, getOwn?_eq_none_of_not_mem _ _ hk, getOwn?_spreadInto_nil, hv]

theorem mergeUpdate_preserves_unrelated_fields_witness :
    ∃ s' r, dispatch [("0xa", .obj [("priceUSD", .num 10)])]
        (update (.str "0xa") (.obj [("volumeUSD", .num 5)])) = .ok s' ∧
      getOwn? s' "0xa" = some (.obj r) ∧ getOwn? r "priceUSD" = some (.num 10) :=
  mergeUpdate_preserves_unrelated_fields [("0xa", .obj [("priceUSD", .num 10)])] "0xa"
    (.obj [("volumeUSD", .num 5)]) "priceUSD" (.num 10) (by decide) rfl (by decide)

/-- C2: after a merge update for a non-empty address the stored record has, for
every field of the partial record, the incoming value; when the store had no
record for the address, the record is created with exactly the fields of the
partial record. -/
theorem mergeUpdate_overrides_and_creates (s : Obj) (a : String) (d : JSVal) (ha : a ≠ "") :
    ∃ s' r, dispatch s (update (.str a) d) = .ok s' ∧ getOwn? s' a = some (.obj r) ∧
      (∀ k v, getOwn? (ownProps d) k = some v → getOwn? r k = some v) ∧
      (getOwn? s a = none → ∀ k, getOwn? r k = getOwn? (ownProps d) k) := by
  refine ⟨_, spreadInto (spreadInto [] (ownProps (getProp s a))) (ownProps d),
    dispatch_update_str s a d ha, ?_, ?_, ?_⟩
  · rw [getOwn?_setProp, if_pos rfl]
  · intro k v h
    rw [getOwn?_spreadInto, h]
  · intro hnone k
    have hprev : ownProps (getProp s a) = [] := by
      simp [getProp, hnone, ownProps]
    rw [getOwn?_spreadInto, hprev]
    cases getOwn? (ownProps d) k <;> rfl

theorem mergeUpdate_overrides_and_creates_witness :
    ∃ s' r, dispatch [] (update (.str "0xa") (.obj [("volumeUSD", .num 5)])) = .ok s' ∧
      getOwn? s' "0xa" = some (.obj r) ∧
      (∀ k v, getOwn? (ownProps (.obj [("volumeUSD", .num 5)])) k = some v →
        getOwn? r k = some v) ∧
      (getOwn? [] "0xa" = none →
        ∀ k, getOwn? r k = getOwn? (ownProps (.obj [("volumeUSD", .num 5)])) k) :=
  mergeUpdate_overrides_and_creates [] "0xa" (.obj [("volumeUSD", .num 5)]) (by decide)

/-- C5: a merge update whose address is falsy (`null`, `undefined`, the empty
string) dispatches no action and leaves the store as it was, without an
exception, in the provider of the store and in the v1 provider. -/
theorem mergeUpdate_falsy_address_noop (s : Obj) (a d : JSVal) (ha : truthy a = false) :
    update a d = [] ∧ dispatch s (update a d) = .ok s ∧
      TokenDataV1.update a d = [] ∧
      TokenDataV1.dispatch s (TokenDataV1.update a d) = .ok s := by
  have h₁ : update a d = [] := by simp [update, ha]
  have h₂ : TokenDataV1.update a d = [] := by simp [TokenDataV1.update, ha]
  refine ⟨h₁, ?_, h₂, ?_⟩
  · rw [h₁]; rfl
  · rw [h₂]; rfl

theorem mergeUpdate_falsy_address_noop_witness :
    (update .null (.obj [("volumeUSD", .num 5)]) = [] ∧
      dispatch [("0xa", .obj [])] (update .null (.obj [("volumeUSD", .num 5)])) =
        .ok [("0xa", .obj [])] ∧
      TokenDataV1.update .null (.obj [("volumeUSD", .num 5)]) = [] ∧
      TokenDataV1.dispatch [("0xa", .obj [])]
        (TokenDataV1.update .null (.obj [("volumeUSD", .num 5)])) = .ok [("0xa", .obj [])]) ∧
    dispatch [("0xa", .obj [])] (update .undefined .null) = .ok [("0xa", .obj [])] ∧
    dispatch [("0xa", .obj [])] (update (.str "") .null) = .ok [("0xa", .obj [])] :=
  ⟨mergeUpdate_falsy_address_noop [("0xa", .obj [])] .null (.obj [("volumeUSD", .num 5)]) rfl,
    (mergeUpdate_falsy_address_noop [("0xa", .obj [])] .undefined .null rfl).2.1,
    (mergeUpdate_falsy_address_noop [("0xa", .obj [])] (.str "") .null rfl).2.1⟩

theorem nodup_ownKeys_nil : (ownKeys ([] : Obj)).Nodup := List.nodup_nil

/-- C6: applying the `UPDATE` action for an address and a partial record to the
state it has just produced gives that state again. -/
theorem mergeUpdate_idempotent (s : Obj) (a : String) (d : JSVal) :
    ∃ s', reducer s ⟨UPDATE, .obj [("tokenAddress", .str a), ("data", d)]⟩ = .ok s' ∧
      reducer s' ⟨UPDATE, .obj [("tokenAddress", .str a), ("data", d)]⟩ = .ok s' := by
  refine ⟨_, reducer_update s (.str a) d, ?_⟩
  rw [reducer_update, toPropertyKey_str]
  have hS : (ownKeys (spreadInto [] s)).Nodup := nodup_spreadInto _ _ nodup_ownKeys_nil
  have hP : (ownKeys (spreadInto [] (ownProps (getProp s a)))).Nodup :=
    nodup_spreadInto _ _ nodup_ownKeys_nil
  have hget : getProp (setProp (spreadInto [] s) a
      (.obj (spreadInto (spreadInto [] (ownProps (getProp s a))) (ownProps d)))) a =
      .obj (spreadInto (spreadInto [] (ownProps (getProp s a))) (ownProps d)) := by
    simp [getProp, getOwn?_setProp]
  have hown : ∀ r : Obj, ownProps (.obj r) = r := fun _ => rfl
  rw [hget, hown,
    spreadInto_nil_of_nodup _ (nodup_spreadInto _ _ hP),
    spreadInto_absorb _ _ hP,
    spreadInto_nil_of_nodup _ (nodup_setProp _ _ _ hS),
    setProp_setProp_same _ _ _ hS]

end TokenData

/-! ## Merge updates for different addresses -/

namespace TokenData

open JS

theorem getOwn?_update (s : Obj) (a : String) (r : JSVal) (k : String) :
    getOwn? (setProp (spreadInto [] s) a r) k = if k = a then some r else getOwn? s k := by
  rw [getOwn?_setProp, getOwn?_spreadInto_nil]

theorem getProp_update_of_ne (s : Obj) (a : String) (r : JSVal) (b : String) (h : b ≠ a) :
    getProp (setProp (spreadInto [] s) a r) b = getProp s b := by
  unfold getProp
  rw [getOwn?_update, if_neg h]

theorem nodup_update (s : Obj) (a : String) (r : JSVal) :
    (ownKeys (setProp (spreadInto [] s) a r)).Nodup :=
  nodup_setProp _ _ _ (nodup_spreadInto _ _ List.nodup_nil)

/-- C9: `UPDATE` actions for two different addresses commute: both orders
succeed and give states with the same keys that map every key to the same
record (the two states differ at most in the order of their keys); and an
`UPDATE` for one address leaves the record of every other address as it was. -/
theorem mergeUpdate_commutes (s : Obj) (a b : String) (d₁ d₂ : JSVal) (hab : a ≠ b) :
    ∃ sa sab sb sba,
      reducer s ⟨UPDATE, .obj [("tokenAddress", .str a), ("data", d₁)]⟩ = .ok sa ∧
      reducer sa ⟨UPDATE, .obj [("tokenAddress", .str b), ("data", d₂)]⟩ = .ok sab ∧
      reducer s ⟨UPDATE, .obj [("tokenAddress", .str b), ("data", d₂)]⟩ = .ok sb ∧
      reducer sb ⟨UPDATE, .obj [("tokenAddress", .str a), ("data", d₁)]⟩ = .ok sba ∧
      (∀ k, getOwn? sab k = getOwn? sba k) ∧
      (ownKeys sab).Perm (ownKeys sba) ∧
      (∀ k, k ≠ a → getOwn? sa k = getOwn? s k) := by
  have hlook : ∀ k,
      getOwn? (setProp (spreadInto [] (setProp (spreadInto [] s) a
          (.obj (spreadInto (spreadInto [] (ownProps (getProp s a))) (ownProps d₁))))) b
          (.obj (spreadInto (spreadInto [] (ownProps (getProp
            (setProp (spreadInto [] s) a
              (.obj (spreadInto (spreadInto [] (ownProps (getProp s a))) (ownProps d₁)))) b)))
            (ownProps d₂)))) k =
      getOwn? (setProp (spreadInto [] (setProp (spreadInto [] s) b
          (.obj (spreadInto (spreadInto [] (ownProps (getProp s b))) (ownProps d₂))))) a
          (.obj (spreadInto (spreadInto [] (ownProps (getProp
            (setProp (spreadInto [] s) b
              (.obj (spreadInto (spreadInto [] (ownProps (getProp s b))) (ownProps d₂)))) a)))
            (ownProps d₁)))) k := by
    intro k
    rw [getOwn?_update, getOwn?_update, getOwn?_update, getOwn?_update,
      getProp_update_of_ne s a _ b (Ne.symm hab), getProp_update_of_ne s b _ a hab]
    by_cases hka : k = a
    · subst hka
      simp [hab]
    · simp [hka]
  refine ⟨_, _, _, _, reducer_update s (.str a) d₁, reducer_update _ (.str b) d₂,
    reducer_update s (.str b) d₂, reducer_update _ (.str a) d₁, ?_, ?_, ?_⟩
  · simpa only [toPropertyKey_str] using hlook
  · simp only [toPropertyKey_str]
    refine (List.perm_ext_iff_of_nodup (nodup_update _ _ _) (nodup_update _ _ _)).2 ?_
    intro k
    rw [mem_ownKeys_iff, mem_ownKeys_iff, hlook k]
  · intro k hk
    simp only [toPropertyKey_str]
    rw [getOwn?_update, if_neg hk]

theorem mergeUpdate_commutes_witness :
    ∃ sa sab sb sba,
      reducer [] ⟨UPDATE, .obj [("tokenAddress", .str "0xa"), ("data", .obj [("x", .num 1)])]⟩
        = .ok sa ∧
      reducer sa ⟨UPDATE, .obj [("tokenAddress", .str "0xb"), ("data", .obj [("y", .num 2)])]⟩
        = .ok sab ∧
      reducer [] ⟨UPDATE, .obj [("tokenAddress", .str "0xb"), ("data", .obj [("y", .num 2)])]⟩
        = .ok sb ∧
      reducer sb ⟨UPDATE, .obj [("tokenAddress", .str "0xa"), ("data", .obj [("x", .num 1)])]⟩
        = .ok sba ∧
      (∀ k, getOwn? sab k = getOwn? sba k) ∧
      (ownKeys sab).Perm (ownKeys sba) ∧
      (∀ k, k ≠ "0xa" → getOwn? sa k = getOwn? [] k) :=
  mergeUpdate_commutes [] "0xa" "0xb" (.obj [("x", .num 1)]) (.obj [("y", .num 2)]) (by decide)

end TokenData

/-! ## Bulk replacement, listing and the life of a record -/

namespace TokenData

open JS

theorem getMember_of_ne (t : JSVal) (name : String) (h₁ : t ≠ .undefined) (h₂ : t ≠ .null) :
    getMember t name = .ok (getProp (ownProps t) name) := by
  cases t <;> first | rfl | exact absurd rfl h₁ | exact absurd rfl h₂

theorem addTokens_spec (tokens : List JSVal) (added : Obj)
    (hrec : ∀ t ∈ tokens, t ≠ .undefined ∧ t ≠ .null) :
    ∃ added', addTokens added tokens = .ok added' ∧
      (∀ pre t post, tokens = pre ++ t :: post →
        (∀ u ∈ post, tokenKey u ≠ tokenKey t) → getOwn? added' (tokenKey t) = some t) ∧
      (∀ k, (∀ t ∈ tokens, tokenKey t ≠ k) → getOwn? added' k = getOwn? added k) := by
  induction tokens generalizing added with
  | nil =>
    refine ⟨added, rfl, ?_, ?_⟩
    · intro pre t post h
      simp at h
    · intro k _
      rfl
  | cons x rest ih =>
    have hx := hrec x (List.mem_cons_self _ _)
    obtain ⟨added', hrun, hlast, hframe⟩ :=
      ih (setProp added (tokenKey x) x) (fun t ht => hrec t (List.mem_cons_of_mem _ ht))
    refine ⟨added', ?_, ?_, ?_⟩
    · rw [addTokens, getMember_of_ne x _ hx.1 hx.2]
      exact hrun
    · intro pre t post hsplit hpost
      cases pre with
      | nil =>
        rw [List.nil_append, List.cons.injEq] at hsplit
        obtain ⟨hxt, hrest⟩ := hsplit
        subst hxt
        subst hrest
        rw [hframe (tokenKey x) hpost, getOwn?_setProp, if_pos rfl]
      | cons y pre' =>
        rw [List.cons_append, List.cons.injEq] at hsplit
        exact hlast pre' t post hsplit.2 hpost
    · intro k hk
      rw [hframe k (fun t ht => hk t (List.mem_cons_of_mem _ ht)), getOwn?_setProp,
        if_neg (Ne.symm (hk x (List.mem_cons_self _ _)))]

theorem dispatch_updateTopTokens (s : Obj) (tokens : List JSVal) (added : Obj)
    (h : addTokens [] tokens = .ok added) :
    dispatch s (updateTopTokens (.arr tokens)) = .ok (spreadInto (spreadInto [] s) added) := by
  have hred : reducer s ⟨UPDATE_TOP_TOKENS, .obj [("topTokens", .arr tokens)]⟩ =
      (match addTokens [] tokens with
        | .error e => .error e
        | .ok added => .ok (spreadInto (spreadInto [] s) added)) := rfl
  simp only [updateTopTokens, dispatch, hred, h]

/-- C7: a bulk replacement with a list of records (values that are neither
`undefined` nor `null`) succeeds; in the new state the address of every listed
record maps to the last record listed for that address, as a whole, and every
key that is the address of no listed record maps to what it mapped to before. -/
theorem bulkReplace_spec (s : Obj) (tokens : List JSVal)
    (hrec : ∀ t ∈ tokens, t ≠ .undefined ∧ t ≠ .null) :
    ∃ s', dispatch s (updateTopTokens (.arr tokens)) = .ok s' ∧
      (∀ pre t post, tokens = pre ++ t :: post →
        (∀ u ∈ post, tokenKey u ≠ tokenKey t) → getOwn? s' (tokenKey t) = some t) ∧
      (∀ k, (∀ t ∈ tokens, tokenKey t ≠ k) → getOwn? s' k = getOwn? s k) := by
  obtain ⟨added, hrun, hlast, hframe⟩ := addTokens_spec tokens [] hrec
  refine ⟨_, dispatch_updateTopTokens s tokens added hrun, ?_, ?_⟩
  · intro pre t post hsplit hpost
    rw [getOwn?_spreadInto, hlast pre t post hsplit hpost]
  · intro k hk
    rw [getOwn?_spreadInto, hframe k hk, getOwn?_nil, getOwn?_spreadInto_nil]

theorem bulkReplace_spec_witness :
    ∃ s', dispatch [("0xa", .obj [("priceUSD", .num 1), ("TOKEN_PAIRS_KEY", .arr [])]),
          ("0xc", .obj [])]
        (updateTopTokens (.arr [.obj [("tokenAddress", .str "0xa"), ("priceUSD", .num 2)],
          .obj [("tokenAddress", .str "0xa"), ("priceUSD", .num 3)]])) = .ok s' ∧
      (∀ pre t post, [JSVal.obj [("tokenAddress", .str "0xa"), ("priceUSD", .num 2)],
          .obj [("tokenAddress", .str "0xa"), ("priceUSD", .num 3)]] = pre ++ t :: post →
        (∀ u ∈ post, tokenKey u ≠ tokenKey t) → getOwn? s' (tokenKey t) = some t) ∧
      (∀ k, (∀ t ∈ [JSVal.obj [("tokenAddress", .str "0xa"), ("priceUSD", .num 2)],
          .obj [("tokenAddress", .str "0xa"), ("priceUSD", .num 3)]], tokenKey t ≠ k) →
        getOwn? s' k = getOwn? [("0xa", .obj [("priceUSD", .num 1), ("TOKEN_PAIRS_KEY", .arr [])]),
          ("0xc", .obj [])] k) :=
  bulkReplace_spec _ _ (by
    intro t ht
    simp only [List.mem_cons, List.mem_singleton, List.not_mem_nil, or_false] at ht
    rcases ht with h | h <;> subst h <;> exact ⟨nofun, nofun⟩)

theorem getOwn?_copyKeys (s : Obj) (ks : List String) (res : Obj) (k : String) :
    getOwn? (ks.foldl (fun res key => setProp res key (getProp s key)) res) k =
      if k ∈ ks then some (getProp s k) else getOwn? res k := by
  induction ks generalizing res with
  | nil => simp
  | cons key rest ih =>
    rw [List.foldl_cons, ih, getOwn?_setProp]
    by_cases h₁ : k ∈ rest
    · simp [h₁]
    · by_cases h₂ : k = key
      · subst h₂; simp
      · simp [h₁, h₂]

theorem getOwn?_useAllTokenData (s : Obj) (k : String) :
    getOwn? (useAllTokenData s) k =
      if k = "combinedVol" then none else getOwn? s k := by
  unfold useAllTokenData
  rw [getOwn?_copyKeys, getOwn?_nil]
  by_cases hc : k = "combinedVol"
  · simp [hc]
  · rw [if_neg hc]
    by_cases hk : k ∈ ownKeys s
    · have hne := (mem_ownKeys_iff s k).1 hk
      obtain ⟨w, hw⟩ := Option.ne_none_iff_exists'.1 hne
      simp [hk, hc, getProp, hw]
    · simp [hk, getOwn?_eq_none_of_not_mem s k hk]

/-- C8: for every store state the mapping returned by `useAllTokenData` has as
keys exactly the keys of the state other than `combinedVol` and maps each of
them to the same record as the state; the v1 hook is the same function. -/
theorem listAll_spec (s : Obj) :
    (∀ k, k ∈ ownKeys (useAllTokenData s) ↔ (k ∈ ownKeys s ∧ k ≠ "combinedVol")) ∧
      (∀ k, k ≠ "combinedVol" → getOwn? (useAllTokenData s) k = getOwn? s k) ∧
      getOwn? (useAllTokenData s) "combinedVol" = none ∧
      TokenDataV1.useAllTokenData s = useAllTokenData s := by
  refine ⟨?_, ?_, ?_, rfl⟩
  · intro k
    rw [mem_ownKeys_iff, getOwn?_useAllTokenData, mem_ownKeys_iff]
    by_cases hc : k = "combinedVol" <;> simp [hc]
  · intro k hc
    rw [getOwn?_useAllTokenData, if_neg hc]
  · rw [getOwn?_useAllTokenData, if_pos rfl]

theorem mem_ownKeys_update (s : Obj) (a : String) (r : JSVal) (k : String)
    (hk : k ∈ ownKeys s) : k ∈ ownKeys (setProp (spreadInto [] s) a r) :=
  (mem_ownKeys_setProp _ _ _ _).2 (Or.inr ((mem_ownKeys_spreadInto _ _ _).2 (Or.inl hk)))

/-- C10: whenever the reducer returns a state for an action, every key of the
previous state is a key of the new state; the three recognised actions are the
only ones for which it returns one. -/
theorem reducer_never_deletes (s : Obj) (action : Action) (s' : Obj)
    (h : reducer s action = .ok s') (k : String) (hk : k ∈ ownKeys s) :
    k ∈ ownKeys s' ∧
      (action.type = UPDATE ∨ action.type = UPDATE_TOP_TOKENS ∨
        action.type = UPDATE_ALL_PAIRS) := by
  unfold reducer at h
  split_ifs at h with h₁ h₂ h₃
  · refine ⟨?_, Or.inl h₁⟩
    split at h
    · injection h with h
      subst h
      exact mem_ownKeys_update _ _ _ _ hk
    · cases h
  · refine ⟨?_, Or.inr (Or.inl h₂)⟩
    split at h
    · cases h
    · simp only at h
      split at h
      · cases h
      · injection h with h
        subst h
        exact (mem_ownKeys_spreadInto _ _ _).2
          (Or.inr ((mem_ownKeys_spreadInto _ _ _).2 (Or.inl hk)))
  · refine ⟨?_, Or.inr (Or.inr h₃)⟩
    split at h
    · injection h with h
      subst h
      exact mem_ownKeys_update _ _ _ _ hk
    · cases h

theorem reducer_never_deletes_witness :
    ("0xa" ∈ ownKeys [("0xa", JSVal.obj [("volumeUSD", .num 5)])] ∧
      (UPDATE = UPDATE ∨ UPDATE = UPDATE_TOP_TOKENS ∨ UPDATE = UPDATE_ALL_PAIRS)) ∧
    ("0xa" ∈ ownKeys [("0xa", JSVal.obj []), ("0xb", .obj [("tokenAddress", .str "0xb")])] ∧
      (UPDATE_TOP_TOKENS = UPDATE ∨ UPDATE_TOP_TOKENS = UPDATE_TOP_TOKENS ∨
        UPDATE_TOP_TOKENS = UPDATE_ALL_PAIRS)) ∧
    ("0xa" ∈ ownKeys [("0xa", JSVal.obj [("TOKEN_PAIRS_KEY", .arr [])])] ∧
      (UPDATE_ALL_PAIRS = UPDATE ∨ UPDATE_ALL_PAIRS = UPDATE_TOP_TOKENS ∨
        UPDATE_ALL_PAIRS = UPDATE_ALL_PAIRS)) :=
  ⟨reducer_never_deletes [("0xa", .obj [])]
      ⟨UPDATE, .obj [("tokenAddress", .str "0xa"), ("data", .obj [("volumeUSD", .num 5)])]⟩
      _ rfl "0xa" (List.mem_cons_self _ _),
    reducer_never_deletes [("0xa", .obj [])]
      ⟨UPDATE_TOP_TOKENS, .obj [("topTokens", .arr [.obj [("tokenAddress", .str "0xb")]])]⟩
      _ rfl "0xa" (List.mem_cons_self _ _),
    reducer_never_deletes [("0xa", .obj [])]
      ⟨UPDATE_ALL_PAIRS, .obj [("address", .str "0xa"), ("allPairs", .arr [])]⟩
      _ rfl "0xa" (List.mem_cons_self _ _)⟩

end TokenData

/-! ## The single-token fetch of `useTokenData` -/

namespace TokenData

open JS

theorem attempt_shape (oneDay twoDays : String)
    (enrich : JSVal → JSVal → JSVal → Except Thrown JSVal)
    (current historicalData : Except Thrown JSVal) (v : JSVal)
    (h : getBulkTokenData.attempt oneDay twoDays enrich current historicalData = .ok v) :
    ∃ bulkResults, v = .arr bulkResults := by
  unfold getBulkTokenData.attempt at h
  repeat' split at h
  all_goals cases h <;> exact ⟨_, rfl⟩

/-- What `getBulkTokenData` resolves to is `undefined` or an array of records,
for every outcome of its queries. -/
theorem getBulkTokenData_shape (oneDay twoDays : String)
    (enrich : JSVal → JSVal → JSVal → Except Thrown JSVal)
    (current historicalData : Except Thrown JSVal) :
    getBulkTokenData oneDay twoDays enrich current historicalData = .undefined ∨
      ∃ bulkResults,
        getBulkTokenData oneDay twoDays enrich current historicalData = .arr bulkResults := by
  unfold getBulkTokenData
  cases h : getBulkTokenData.attempt oneDay twoDays enrich current historicalData with
  | error e => exact Or.inl rfl
  | ok v =>
    obtain ⟨rs, hrs⟩ := attempt_shape oneDay twoDays enrich current historicalData v h
    exact Or.inr ⟨rs, hrs⟩

/-- A fetched array is merged as a whole: for an address without a record the
stored record has the enriched record under the key `0` and nothing else. -/
theorem useTokenData_stores_array (isStarknetAddress : JSVal → Bool) (s : Obj)
    (ethPrice ethPriceOld : JSVal) (a : String) (r : JSVal) (ha : a ≠ "")
    (hnew : getOwn? s a = none)
    (hmiss : useTokenData.cacheMiss isStarknetAddress s ethPrice ethPriceOld (.str a) = true) :
    ∃ s', dispatch s (useTokenData.effect isStarknetAddress s ethPrice ethPriceOld (.str a)
        (.arr [r])) = .ok s' ∧ getOwn? s' a = some (.obj [("0", r)]) := by
  refine ⟨setProp (spreadInto [] s) a
    (.obj (spreadInto (spreadInto [] (ownProps (getProp s a))) (ownProps (.arr [r])))), ?_, ?_⟩
  · unfold useTokenData.effect
    rw [if_pos hmiss]
    exact dispatch_update_str s a _ ha
  · have hprev : ownProps (getProp s a) = [] := by simp [getProp, hnew, ownProps]
    rw [getOwn?_setProp, if_pos rfl, hprev]
    rfl

/-- A failed fetch is merged as an empty record: the address gets a record,
and the test for a cache miss fails from then on. -/
theorem useTokenData_failed_fetch_caches (isStarknetAddress : JSVal → Bool) (s : Obj)
    (ethPrice ethPriceOld : JSVal) (a : String) (ha : a ≠ "")
    (hmiss : useTokenData.cacheMiss isStarknetAddress s ethPrice ethPriceOld (.str a) = true) :
    ∃ s' r, dispatch s (useTokenData.effect isStarknetAddress s ethPrice ethPriceOld (.str a)
        .undefined) = .ok s' ∧ getOwn? s' a = some (.obj r) ∧
      useTokenData.cacheMiss isStarknetAddress s' ethPrice ethPriceOld (.str a) = false := by
  refine ⟨setProp (spreadInto [] s) a
    (.obj (spreadInto (spreadInto [] (ownProps (getProp s a))) (ownProps .undefined))),
    spreadInto (spreadInto [] (ownProps (getProp s a))) (ownProps .undefined), ?_, ?_, ?_⟩
  · unfold useTokenData.effect
    rw [if_pos hmiss]
    exact dispatch_update_str s a _ ha
  · rw [getOwn?_setProp, if_pos rfl]
  · simp [useTokenData.cacheMiss, toPropertyKey_str, getProp, getOwn?_setProp, truthy]

/-- C3 (the code differs): the query answers with one token `0x1`, the
enrichment sets `priceUSD` to 3000, and `getBulkTokenData` resolves to the
array of the one enriched record; `useTokenData` merges that array, so the
store holds the record under the field `0` of the entry for `0x1`, whose field
`priceUSD` is `undefined`. -/
theorem useTokenData_merges_array_not_record :
    getBulkTokenData "one_day" "two_days"
        (fun token _ _ => .ok (.obj (setProp (ownProps token) "priceUSD" (.num 3000))))
        (.ok (.obj [("data", .obj [("tokens", .arr [.obj [("tokenAddress", .str "0x1")]])])]))
        (.ok (.obj [("data", .obj [("tokensData", .arr [])])])) =
      .arr [.obj [("tokenAddress", .str "0x1"), ("priceUSD", .num 3000)]] ∧
    dispatch [] (useTokenData.effect (fun _ => true) [] (.num 1500) (.num 1400) (.str "0x1")
        (.arr [.obj [("tokenAddress", .str "0x1"), ("priceUSD", .num 3000)]])) =
      .ok [("0x1", .obj [("0", .obj [("tokenAddress", .str "0x1"), ("priceUSD", .num 3000)])])] ∧
    getProp (ownProps (getProp
        [("0x1", .obj [("0", .obj [("tokenAddress", .str "0x1"), ("priceUSD", .num 3000)])])]
        "0x1")) "priceUSD" = .undefined :=
  ⟨rfl, rfl, rfl⟩

/-- C4 (the code differs): when the query is rejected `getBulkTokenData`
resolves to `undefined`; `useTokenData` still calls `update`, which stores the
empty record for `0x1`, and the test for a cache miss, true before, is false
afterwards, so that no further fetch is started. -/
theorem useTokenData_failed_fetch_is_cached :
    getBulkTokenData "one_day" "two_days" (fun token _ _ => .ok token)
        (.error .typeError) (.error .typeError) = .undefined ∧
    useTokenData.cacheMiss (fun _ => true) [] (.num 1500) (.num 1400) (.str "0x1") = true ∧
    dispatch [] (useTokenData.effect (fun _ => true) [] (.num 1500) (.num 1400) (.str "0x1")
        .undefined) = .ok [("0x1", .obj [])] ∧
    useTokenData.cacheMiss (fun _ => true) [("0x1", .obj [])] (.num 1500) (.num 1400)
        (.str "0x1") = false :=
  ⟨rfl, rfl, rfl, rfl⟩

end TokenData

/-! ## The reducers and unexpected actions -/

namespace Application

open JS

theorem getMember_error (v : JSVal) (name : String) (e : Thrown)
    (h : getMember v name = .error e) : e = .typeError := by
  cases v <;> simp [getMember] at h <;> exact h.symm

theorem setField_ne_error (state : Obj) (payload : JSVal) (field key m : String) :
    setField state payload field key ≠ .error (.error m) := by
  unfold setField
  intro h
  split at h
  · next e he =>
    have := getMember_error _ _ _ he
    subst this
    cases h
  · cases h

theorem settings_reducer_error_iff (s : Obj) (action : Action) (m : String) :
    reducer s action = .error (.error m) ↔
      (action.type ∉ [UPDATE, UPDATE_TIMEFRAME, UPDATE_SESSION_START, UPDATE_LATEST_BLOCK,
          UPDATE_HEAD_BLOCK, UPDATED_SUPPORTED_TOKENS, UPDATED_WHITELISTED_TOKENS] ∧
        m = "Unexpected action type in DataContext reducer: '" ++ action.type ++ "'.") := by
  unfold reducer
  split_ifs with h₁ h₂ h₃ h₄ h₅ h₆ h₇
  all_goals first
    | (constructor
       · intro h
         exact absurd h (setField_ne_error _ _ _ _ _)
       · rintro ⟨hn, _⟩
         exact absurd (by simp [*]) hn)
    | (constructor
       · intro h
         injection h with h
         injection h with h
         exact ⟨by simp [*], h.symm⟩
       · rintro ⟨_, hm⟩
         rw [hm])

end Application

namespace TokenData

open JS

theorem addTokens_error (tokens : List JSVal) (added : Obj) (e : Thrown)
    (h : addTokens added tokens = .error e) : e = .typeError := by
  induction tokens generalizing added with
  | nil => cases h
  | cons t rest ih =>
    rw [addTokens] at h
    split at h
    · next e' he =>
      injection h with h
      subst h
      exact Application.getMember_error _ _ _ he
    · exact ih _ h

theorem tokenData_reducer_error_iff (s : Obj) (action : Action) (m : String) :
    reducer s action = .error (.error m) ↔
      (action.type ∉ [UPDATE, UPDATE_TOP_TOKENS, UPDATE_ALL_PAIRS] ∧
        m = "Unexpected action type in DataContext reducer: '" ++ action.type ++ "'.") := by
  unfold reducer
  split_ifs with h₁ h₂ h₃
  · constructor
    · intro h
      split at h <;> cases h
    · rintro ⟨hn, _⟩
      exact absurd (by simp [h₁]) hn
  · constructor
    · intro h
      split at h
      · next e he =>
        have := Application.getMember_error _ _ _ he
        subst this
        cases h
      · next topTokens _ =>
        simp only at h
        split at h
        · next e he =>
          injection h with h
          subst h
          split_ifs at he
          · split at he
            · have := addTokens_error _ _ _ he
              cases this
            · cases he
        · cases h
    · rintro ⟨hn, _⟩
      exact absurd (by simp [h₂]) hn
  · constructor
    · intro h
      split at h <;> cases h
    · rintro ⟨hn, _⟩
      exact absurd (by simp [h₃]) hn
  · constructor
    · intro h
      injection h with h
      injection h with h
      exact ⟨by simp [*], h.symm⟩
    · rintro ⟨_, hm⟩
      rw [hm]

end TokenData

namespace TokenDataV1

open JS

theorem v1_addTokens_error (tokens : List JSVal) (added : Obj) (e : Thrown)
    (h : addTokens added tokens = .error e) : e = .typeError := by
  induction tokens generalizing added with
  | nil => cases h
  | cons t rest ih =>
    rw [addTokens] at h
    split at h
    · next e' he =>
      injection h with h
      subst h
      exact Application.getMember_error _ _ _ he
    · exact ih _ h

theorem v1_reducer_error_iff (s : Obj) (action : Action) (m : String) :
    reducer s action = .error (.error m) ↔
      (action.type ∉ [UPDATE, UPDATE_ALL_TOKENS] ∧
        m = "Unexpected action type in DataContext reducer: '" ++ action.type ++ "'.") := by
  unfold reducer
  split_ifs with h₁ h₂
  · constructor
    · intro h
      split at h <;> cases h
    · rintro ⟨hn, _⟩
      exact absurd (by simp [h₁]) hn
  · constructor
    · intro h
      split at h
      · next e he =>
        have := Application.getMember_error _ _ _ he
        subst this
        cases h
      · next allTokens _ =>
        simp only at h
        split at h
        · next e he =>
          injection h with h
          subst h
          split_ifs at he
          · split at he
            · have := v1_addTokens_error _ _ _ he
              cases this
            · cases he
        · cases h
    · rintro ⟨hn, _⟩
      exact absurd (by simp [h₂]) hn
  · constructor
    · intro h
      injection h with h
      injection h with h
      exact ⟨by simp [*], h.symm⟩
    · rintro ⟨_, hm⟩
      rw [hm]

end TokenDataV1

namespace Application

open JS

/-- C11: each of the three reducers (application settings, token data, v1
token data) ends with the error `Unexpected action type ...` exactly when the
tag of the action is none of the tags it handles, for every state and every
payload; no state is returned then, and for a handled tag the settings reducer
returns a state whenever the payload is an object. -/
theorem unexpected_action_iff (s : Obj) (action : Action) :
    ((∃ m, reducer s action = .error (.error m)) ↔
        action.type ∉ [UPDATE, UPDATE_TIMEFRAME, UPDATE_SESSION_START, UPDATE_LATEST_BLOCK,
          UPDATE_HEAD_BLOCK, UPDATED_SUPPORTED_TOKENS, UPDATED_WHITELISTED_TOKENS]) ∧
      ((∃ m, TokenData.reducer s action = .error (.error m)) ↔
        action.type ∉ [TokenData.UPDATE, TokenData.UPDATE_TOP_TOKENS,
          TokenData.UPDATE_ALL_PAIRS]) ∧
      ((∃ m, TokenDataV1.reducer s action = .error (.error m)) ↔
        action.type ∉ [TokenDataV1.UPDATE, TokenDataV1.UPDATE_ALL_TOKENS]) ∧
      (∀ m, (reducer s action = .error (.error m) ∨
          TokenData.reducer s action = .error (.error m) ∨
          TokenDataV1.reducer s action = .error (.error m)) →
        m = "Unexpected action type in DataContext reducer: '" ++ action.type ++ "'.") ∧
      (∀ props, action.payload = .obj props →
        action.type ∈ [UPDATE, UPDATE_TIMEFRAME, UPDATE_SESSION_START, UPDATE_LATEST_BLOCK,
          UPDATE_HEAD_BLOCK, UPDATED_SUPPORTED_TOKENS, UPDATED_WHITELISTED_TOKENS] →
        ∃ s', reducer s action = .ok s') := by
  refine ⟨?_, ?_, ?_, ?_, ?_⟩
  · constructor
    · rintro ⟨m, hm⟩
      exact ((settings_reducer_error_iff s action m).1 hm).1
    · intro hn
      exact ⟨_, (settings_reducer_error_iff s action _).2 ⟨hn, rfl⟩⟩
  · constructor
    · rintro ⟨m, hm⟩
      exact ((TokenData.tokenData_reducer_error_iff s action m).1 hm).1
    · intro hn
      exact ⟨_, (TokenData.tokenData_reducer_error_iff s action _).2 ⟨hn, rfl⟩⟩
  · constructor
    · rintro ⟨m, hm⟩
      exact ((TokenDataV1.v1_reducer_error_iff s action m).1 hm).1
    · intro hn
      exact ⟨_, (TokenDataV1.v1_reducer_error_iff s action _).2 ⟨hn, rfl⟩⟩
  · rintro m (h | h | h)
    · exact ((settings_reducer_error_iff s action m).1 h).2
    · exact ((TokenData.tokenData_reducer_error_iff s action m).1 h).2
    · exact ((TokenDataV1.v1_reducer_error_iff s action m).1 h).2
  · intro props hp hmem
    have hfield : ∀ field key, ∃ s', setField s action.payload field key = .ok s' := by
      intro field key
      rw [hp]
      exact ⟨_, rfl⟩
    unfold reducer
    split_ifs with h₁ h₂ h₃ h₄ h₅ h₆ h₇
    · exact hfield _ _
    · exact hfield _ _
    · exact hfield _ _
    · exact hfield _ _
    · exact hfield _ _
    · exact hfield _ _
    · exact hfield _ _
    · simp [*] at hmem

theorem unexpected_action_iff_witness :
    ∃ s', reducer [] ⟨UPDATE_HEAD_BLOCK, .obj [("block", .num 7)]⟩ = .ok s' :=
  (unexpected_action_iff [] ⟨UPDATE_HEAD_BLOCK, .obj [("block", .num 7)]⟩).2.2.2.2
    [("block", .num 7)] rfl (by decide)

end Application

/-! ## The mutation operations of the application settings -/

namespace Application

open JS

theorem getOwn?_setField (s : Obj) (key : String) (v : JSVal) (k : String) :
    getOwn? (setProp (spreadInto [] s) key v) k = if k = key then some v else getOwn? s k := by
  rw [getOwn?_setProp, getOwn?_spreadInto_nil]

theorem sets_only (s : Obj) (key : String) (v : JSVal) :
    getOwn? (setProp (spreadInto [] s) key v) key = some v ∧
      ∀ k, k ≠ key → getOwn? (setProp (spreadInto [] s) key v) k = getOwn? s k := by
  refine ⟨?_, ?_⟩
  · rw [getOwn?_setField, if_pos rfl]
  · intro k hk
    rw [getOwn?_setField, if_neg hk]

/-- C12: each of the seven mutation operations returns a state in which its own
field has the value passed and every other key maps to what it mapped to
before, for every previous state and every value. -/
theorem settings_mutations_frame (s : Obj) (v : JSVal) :
    (∃ s', dispatch s (update v) = .ok s' ∧ getOwn? s' CURRENCY = some v ∧
        ∀ k, k ≠ CURRENCY → getOwn? s' k = getOwn? s k) ∧
      (∃ s', dispatch s (updateTimeframe v) = .ok s' ∧ getOwn? s' TIME_KEY = some v ∧
        ∀ k, k ≠ TIME_KEY → getOwn? s' k = getOwn? s k) ∧
      (∃ s', dispatch s (updateSessionStart v) = .ok s' ∧
        getOwn? s' SESSION_START = some v ∧
        ∀ k, k ≠ SESSION_START → getOwn? s' k = getOwn? s k) ∧
      (∃ s', dispatch s (updateSupportedTokens v) = .ok s' ∧
        getOwn? s' SUPPORTED_TOKENS = some v ∧
        ∀ k, k ≠ SUPPORTED_TOKENS → getOwn? s' k = getOwn? s k) ∧
      (∃ s', dispatch s (updateWhitelistedTokens v) = .ok s' ∧
        getOwn? s' WHITELISTED_TOKENS = some v ∧
        ∀ k, k ≠ WHITELISTED_TOKENS → getOwn? s' k = getOwn? s k) ∧
      (∃ s', dispatch s (updateLatestBlock v) = .ok s' ∧ getOwn? s' LATEST_BLOCK = some v ∧
        ∀ k, k ≠ LATEST_BLOCK → getOwn? s' k = getOwn? s k) ∧
      (∃ s', dispatch s (updateHeadBlock v) = .ok s' ∧ getOwn? s' HEAD_BLOCK = some v ∧
        ∀ k, k ≠ HEAD_BLOCK → getOwn? s' k = getOwn? s k) :=
  ⟨⟨_, rfl, sets_only s CURRENCY v⟩, ⟨_, rfl, sets_only s TIME_KEY v⟩,
    ⟨_, rfl, sets_only s SESSION_START v⟩, ⟨_, rfl, sets_only s SUPPORTED_TOKENS v⟩,
    ⟨_, rfl, sets_only s WHITELISTED_TOKENS v⟩, ⟨_, rfl, sets_only s LATEST_BLOCK v⟩,
    ⟨_, rfl, sets_only s HEAD_BLOCK v⟩⟩

theorem dispatch_call (s : Obj) (call : Call) :
    ∃ key v, dispatch s call.actions = .ok (setProp (spreadInto [] s) key v) ∧
      ((key = CURRENCY ∧ (v = .str "USD" ∨ v = .str "ETH")) ∨ key ≠ CURRENCY) := by
  cases call with
  | toggleCurrency rendered =>
    by_cases h : strictEquals (getProp rendered "currency") (.str "ETH") = true
    · refine ⟨CURRENCY, .str "USD", ?_, Or.inl ⟨rfl, Or.inl rfl⟩⟩
      simp only [Call.actions, useCurrentCurrency.toggleCurrency, h, if_true]
      rfl
    · refine ⟨CURRENCY, .str "ETH", ?_, Or.inl ⟨rfl, Or.inr rfl⟩⟩
      simp only [Call.actions, useCurrentCurrency.toggleCurrency, h]
      rfl
  | updateTimeframe x => exact ⟨TIME_KEY, x, rfl, Or.inr (by decide)⟩
  | updateSessionStart x => exact ⟨SESSION_START, x, rfl, Or.inr (by decide)⟩
  | updateSupportedTokens x => exact ⟨SUPPORTED_TOKENS, x, rfl, Or.inr (by decide)⟩
  | updateWhitelistedTokens x => exact ⟨WHITELISTED_TOKENS, x, rfl, Or.inr (by decide)⟩
  | updateLatestBlock x => exact ⟨LATEST_BLOCK, x, rfl, Or.inr (by decide)⟩
  | updateHeadBlock x => exact ⟨HEAD_BLOCK, x, rfl, Or.inr (by decide)⟩

theorem runCalls_keeps_currency (calls : List Call) (s : Obj)
    (hs : getOwn? s CURRENCY = some (.str "USD") ∨ getOwn? s CURRENCY = some (.str "ETH")) :
    ∃ s', runCalls s calls = .ok s' ∧
      (getOwn? s' CURRENCY = some (.str "USD") ∨ getOwn? s' CURRENCY = some (.str "ETH")) := by
  induction calls generalizing s with
  | nil => exact ⟨s, rfl, hs⟩
  | cons call rest ih =>
    obtain ⟨key, v, hrun, hcase⟩ := dispatch_call s call
    have hnext : getOwn? (setProp (spreadInto [] s) key v) CURRENCY = some (.str "USD") ∨
        getOwn? (setProp (spreadInto [] s) key v) CURRENCY = some (.str "ETH") := by
      rcases hcase with ⟨hkey, hv⟩ | hkey
      · subst hkey
        rw [(sets_only s CURRENCY v).1]
        rcases hv with hv | hv
        · exact Or.inl (by rw [hv])
        · exact Or.inr (by rw [hv])
      · rw [(sets_only s key v).2 CURRENCY (Ne.symm hkey)]
        exact hs
    obtain ⟨s', hrest, hinv⟩ := ih _ hnext
    refine ⟨s', ?_, hinv⟩
    rw [runCalls, hrun]
    exact hrest

/-- C13: the currency is `USD` in the initial state, and every sequence of
calls that the module can make, the currency toggle and the six other mutation
operations with any argument, runs from the initial state to a state whose
currency is `USD` or `ETH`. -/
theorem currency_is_one_of_two_symbols (ALL_TIME : JSVal) (calls : List Call) :
    getOwn? (INITIAL_STATE ALL_TIME) CURRENCY = some (.str "USD") ∧
      ∃ s, runCalls (INITIAL_STATE ALL_TIME) calls = .ok s ∧
        (getOwn? s CURRENCY = some (.str "USD") ∨ getOwn? s CURRENCY = some (.str "ETH")) :=
  ⟨rfl, runCalls_keeps_currency calls _ (Or.inl rfl)⟩

end Application

/-! ## The whitelist and the token lists -/

namespace Application

open JS

/-- C14: the map that `useWhitelistedTokens` returns for a default whitelist
`D` and a fetched map `W` stored in the state has as keys the keys of `D` and
of `W`, with the entry of `W` where `W` has the key and the entry of `D`
otherwise; when no fetched map is stored (no entry, `undefined` or `null`) it
maps every key as `D` does, and is `D` itself when the keys of `D` are distinct. -/
theorem whitelist_merge (D : Obj) (state : Obj) :
    (∀ W, getOwn? state WHITELISTED_TOKENS = some (.obj W) →
        (∀ k, getOwn? (useWhitelistedTokens (.obj D) state) k =
          (match getOwn? W k with
            | some w => some w
            | none => getOwn? D k)) ∧
        (∀ k, k ∈ ownKeys (useWhitelistedTokens (.obj D) state) ↔
          (k ∈ ownKeys D ∨ k ∈ ownKeys W))) ∧
      ((getOwn? state WHITELISTED_TOKENS = none ∨
          getOwn? state WHITELISTED_TOKENS = some .undefined ∨
          getOwn? state WHITELISTED_TOKENS = some .null) →
        (∀ k, getOwn? (useWhitelistedTokens (.obj D) state) k = getOwn? D k) ∧
        ((ownKeys D).Nodup → useWhitelistedTokens (.obj D) state = D)) := by
  refine ⟨?_, ?_⟩
  · intro W hW
    have hval : ownProps (coalesce (getProp state WHITELISTED_TOKENS) (.arr [])) = W := by
      simp [getProp, hW, coalesce, ownProps]
    have hlook : ∀ k, getOwn? (useWhitelistedTokens (.obj D) state) k =
        (match getOwn? W k with
          | some w => some w
          | none => getOwn? D k) := by
      intro k
      unfold useWhitelistedTokens
      rw [hval, getOwn?_spreadInto, getOwn?_spreadInto_nil]
      rfl
    refine ⟨hlook, ?_⟩
    intro k
    rw [mem_ownKeys_iff, hlook k, mem_ownKeys_iff, mem_ownKeys_iff]
    cases getOwn? W k <;> simp
  · intro hnone
    have hval : ownProps (coalesce (getProp state WHITELISTED_TOKENS) (.arr [])) = [] := by
      rcases hnone with h | h | h <;> simp [getProp, h, coalesce, ownProps, indexedFrom]
    refine ⟨?_, ?_⟩
    · intro k
      unfold useWhitelistedTokens
      rw [hval, spreadInto_nil, getOwn?_spreadInto_nil]
      rfl
    · intro hnd
      unfold useWhitelistedTokens
      rw [hval, spreadInto_nil]
      exact spreadInto_nil_of_nodup D hnd

theorem whitelist_merge_witness :
    (∀ k, getOwn? (useWhitelistedTokens (.obj [("A", .obj [("symbol", .str "X")])])
          [("WHITELISTED_TOKENS", .obj [("B", .obj [("symbol", .str "Y")])])]) k =
        (match getOwn? [("B", JSVal.obj [("symbol", .str "Y")])] k with
          | some w => some w
          | none => getOwn? [("A", JSVal.obj [("symbol", .str "X")])] k)) ∧
      (∀ k, k ∈ ownKeys (useWhitelistedTokens (.obj [("A", .obj [("symbol", .str "X")])])
          [("WHITELISTED_TOKENS", .obj [("B", .obj [("symbol", .str "Y")])])]) ↔
        (k ∈ ownKeys [("A", JSVal.obj [("symbol", .str "X")])] ∨
          k ∈ ownKeys [("B", JSVal.obj [("symbol", .str "Y")])])) :=
  (whitelist_merge [("A", .obj [("symbol", .str "X")])]
    [("WHITELISTED_TOKENS", .obj [("B", .obj [("symbol", .str "Y")])])]).1
    [("B", .obj [("symbol", .str "Y")])] rfl

/-- When every source answers with an array `tokens`, the merged collection is
the concatenation of the arrays in the order of the sources. -/
theorem mergeTokenLists_all_carry (lists : List (List JSVal)) (soFar : List JSVal) :
    mergeTokenLists (.arr soFar) (lists.map (fun l => JSVal.obj [("tokens", .arr l)])) =
      .ok (.arr (soFar ++ lists.flatten)) := by
  induction lists generalizing soFar with
  | nil => simp [mergeTokenLists]
  | cons l rest ih =>
    have hstep : mergeTokenLists (.arr soFar)
        ((l :: rest).map (fun l => JSVal.obj [("tokens", .arr l)])) =
        mergeTokenLists (.arr (soFar ++ l))
          (rest.map (fun l => JSVal.obj [("tokens", .arr l)])) := rfl
    rw [hstep, ih]
    simp [List.append_assoc]

/-- C15 (the code differs): a source whose answer has no `tokens` makes the
step of the `reduce` return nothing, which drops what was merged before it.
With the answers `{ tokens: [a] }, {}` the merged collection is `undefined`
and both hooks store `undefined`; with `{ tokens: [a] }, {}, { tokens: [c] }`
the merged collection is `[c]` and the token `a` is in neither store. -/
theorem token_list_merge_drops_earlier_sources (toLowerCase cleanHex : String → String) :
    mergeTokenLists (.arr [])
        [.obj [("tokens", .arr [.obj [("address", .str "0xa")]])], .obj []] =
      .ok .undefined ∧
    useListedTokens.fetchList toLowerCase cleanHex
        [.obj [("tokens", .arr [.obj [("address", .str "0xa")]])], .obj []] =
      updateSupportedTokens .undefined ∧
    useWhitelistedTokens.fetchList toLowerCase cleanHex
        [.obj [("tokens", .arr [.obj [("address", .str "0xa")]])], .obj []] =
      updateWhitelistedTokens .undefined ∧
    mergeTokenLists (.arr [])
        [.obj [("tokens", .arr [.obj [("address", .str "0xa")]])], .obj [],
          .obj [("tokens", .arr [.obj [("address", .str "0xc")]])]] =
      .ok (.arr [.obj [("address", .str "0xc")]]) ∧
    useListedTokens.fetchList toLowerCase cleanHex
        [.obj [("tokens", .arr [.obj [("address", .str "0xa")]])], .obj [],
          .obj [("tokens", .arr [.obj [("address", .str "0xc")]])]] =
      updateSupportedTokens (.arr [.str (cleanHex (toLowerCase "0xc"))]) ∧
    useWhitelistedTokens.fetchList toLowerCase cleanHex
        [.obj [("tokens", .arr [.obj [("address", .str "0xa")]])], .obj [],
          .obj [("tokens", .arr [.obj [("address", .str "0xc")]])]] =
      updateWhitelistedTokens (.obj [(cleanHex (toLowerCase "0xc"),
        .obj [("symbol", .undefined), ("logoURI", .undefined)])]) :=
  ⟨rfl, rfl, rfl, rfl, rfl, rfl⟩

theorem formatSupported_spec (toLowerCase cleanHex : String → String)
    (tokens : List JSVal) (addrs : List String)
    (h : List.Forall₂ (fun t a => getMember t "address" = .ok (.str a)) tokens addrs) :
    formatSupported toLowerCase cleanHex tokens =
      .ok (addrs.map (fun a => JSVal.str (cleanHex (toLowerCase a)))) := by
  induction h with
  | nil => rfl
  | cons hd _ ih =>
    rw [formatSupported, hd]
    simp only [normalizeAddress, ih, List.map_cons]

/-- C16, as the code has it: when every source answers with an array `tokens`
of tokens that carry a string `address`, the list that `useListedTokens` hands
to `updateSupportedTokens` holds the normalized address of each fetched token,
one entry per token in the order fetched; it is free of duplicates exactly when
no two fetched tokens have the same normalized address. -/
theorem supported_list_one_entry_per_token (toLowerCase cleanHex : String → String)
    (lists : List (List JSVal)) (addrs : List String)
    (h : List.Forall₂ (fun t a => getMember t "address" = .ok (.str a)) lists.flatten addrs) :
    ∃ formatted,
      useListedTokens.fetchList toLowerCase cleanHex
          (lists.map (fun l => JSVal.obj [("tokens", .arr l)])) =
        updateSupportedTokens (.arr formatted) ∧
      formatted = addrs.map (fun a => JSVal.str (cleanHex (toLowerCase a))) ∧
      (formatted.Nodup ↔ (addrs.map (fun a => cleanHex (toLowerCase a))).Nodup) := by
  refine ⟨_, ?_, rfl, ?_⟩
  · unfold useListedTokens.fetchList
    rw [mergeTokenLists_all_carry, List.nil_append]
    simp only [formatSupported_spec toLowerCase cleanHex _ _ h]
  · have hmap : addrs.map (fun a => JSVal.str (cleanHex (toLowerCase a))) =
        (addrs.map (fun a => cleanHex (toLowerCase a))).map JSVal.str := by
      rw [List.map_map]
      rfl
    rw [hmap]
    exact List.nodup_map_iff (fun a b hab => JSVal.str.inj hab)

theorem supported_list_one_entry_per_token_witness :
    ∃ formatted,
      useListedTokens.fetchList id id
          ([[JSVal.obj [("address", .str "0xa")]], [JSVal.obj [("address", .str "0xb")]]].map
            (fun l => JSVal.obj [("tokens", .arr l)])) =
        updateSupportedTokens (.arr formatted) ∧
      formatted = ["0xa", "0xb"].map (fun a => JSVal.str (id (id a))) ∧
      (formatted.Nodup ↔ (["0xa", "0xb"].map (fun a => id (id a))).Nodup) :=
  supported_list_one_entry_per_token id id
    [[.obj [("address", .str "0xa")]], [.obj [("address", .str "0xb")]]] ["0xa", "0xb"]
    (List.Forall₂.cons rfl (List.Forall₂.cons rfl List.Forall₂.nil))

/-- C16, as the claim states it, fails: two sources that list the address `0xa`
give the supported list `[0xa, 0xa]`, which holds that address twice. -/
theorem supported_list_keeps_duplicates :
    ¬ (∀ (toLowerCase cleanHex : String → String) (responses : List JSVal)
        (formatted : List JSVal),
      useListedTokens.fetchList toLowerCase cleanHex responses =
          updateSupportedTokens (.arr formatted) →
        formatted.Nodup) := by
  intro h
  have hrun : useListedTokens.fetchList id id
      [.obj [("tokens", .arr [.obj [("address", .str "0xa")]])],
        .obj [("tokens", .arr [.obj [("address", .str "0xa")]])]] =
      updateSupportedTokens (.arr [.str "0xa", .str "0xa"]) := rfl
  have hnd := h id id _ _ hrun
  simp at hnd

end Application

/-! ## The id list of the top tokens -/

namespace TokenData

open JS

theorem any_sameValueZero_str (acc : List String) (a : String) :
    (acc.map JSVal.str).any (fun x => sameValueZero x (.str a)) = decide (a ∈ acc) := by
  induction acc with
  | nil => simp
  | cons b rest ih =>
    rw [List.map_cons, List.any_cons, ih]
    by_cases hab : a = b
    · subst hab
      simp [sameValueZero]
    · have hba : b ≠ a := fun hc => hab hc.symm
      simp [sameValueZero, hab, hba]

theorem mem_firstOccurrences (addrs : List String) (a : String) :
    a ∈ firstOccurrences addrs ↔ a ∈ addrs := by
  induction addrs with
  | nil => simp [firstOccurrences]
  | cons b rest ih =>
    simp only [firstOccurrences, List.mem_cons, List.mem_filter, ih]
    by_cases hab : a = b <;> simp [hab]

theorem nodup_firstOccurrences (addrs : List String) : (firstOccurrences addrs).Nodup := by
  induction addrs with
  | nil => simp [firstOccurrences]
  | cons b rest ih =>
    simp only [firstOccurrences, List.nodup_cons, List.mem_filter]
    exact ⟨by simp, ih.filter _⟩

theorem collectIds_spec (rows : List JSVal) (addrs : List String) (acc : List String)
    (h : List.Forall₂ (fun r a => getMember r "tokenAddress" = .ok (.str a)) rows addrs) :
    collectIds (acc.map JSVal.str) rows =
      .ok ((acc ++ (firstOccurrences addrs).filter (fun b => decide (b ∉ acc))).map
        JSVal.str) := by
  induction h generalizing acc with
  | nil => simp [collectIds, firstOccurrences]
  | @cons r a rows' addrs' hd _ ih =>
    rw [collectIds, hd]
    simp only [any_sameValueZero_str]
    by_cases hmem : a ∈ acc
    · simp only [hmem, decide_True, Bool.not_true, Bool.false_eq_true, if_false]
      rw [ih acc]
      congr 2
      simp only [firstOccurrences, List.filter_cons, hmem, not_true_eq_false, decide_False,
        Bool.false_eq_true, if_false, List.filter_filter]
      congr 1
      apply List.filter_congr
      intro x _
      by_cases hx : x ∈ acc
      · simp [hx]
      · have hxa : x ≠ a := fun hc => hx (hc ▸ hmem)
        simp [hx, hxa]
    · simp only [hmem, decide_False, Bool.not_false, if_true]
      have hacc : acc.map JSVal.str ++ [JSVal.str a] = (acc ++ [a]).map JSVal.str := by simp
      rw [hacc, ih (acc ++ [a])]
      congr 2
      simp only [firstOccurrences, List.filter_cons, hmem, not_false_eq_true, decide_True,
        if_true, List.filter_filter, List.append_assoc, List.singleton_append]
      congr 2
      apply List.filter_congr
      intro x _
      by_cases hx : x ∈ acc <;> by_cases hxa : x = a <;> simp [hx, hxa]

/-- C17: for rows that carry a string `tokenAddress`, the id list that
`getTopTokens` hands to the bulk enrichment holds no address twice, holds
exactly the addresses of the rows, and lists them in the order of their first
occurrence. -/
theorem topTokens_ids_deduplicated (rows : List JSVal) (addrs : List String)
    (h : List.Forall₂ (fun r a => getMember r "tokenAddress" = .ok (.str a)) rows addrs) :
    ∃ ids : List String,
      getTopTokens.ids (.obj [("data", .obj [("tokensDayData", .arr rows)])]) =
        .ok (.arr (ids.map JSVal.str)) ∧
      ids.Nodup ∧ (∀ a, a ∈ ids ↔ a ∈ addrs) ∧ ids = firstOccurrences addrs := by
  refine ⟨firstOccurrences addrs, ?_, nodup_firstOccurrences addrs,
    mem_firstOccurrences addrs, rfl⟩
  have hcollect := collectIds_spec rows addrs [] h
  simp only [List.map_nil, List.nil_append, List.not_mem_nil, not_false_eq_true, decide_True,
    List.filter_true] at hcollect
  have hids : getTopTokens.ids (.obj [("data", .obj [("tokensDayData", .arr rows)])]) =
      (match collectIds [] rows with
        | .error e => .error e
        | .ok ids => .ok (.arr ids)) := rfl
  rw [hids, hcollect]

theorem topTokens_ids_deduplicated_witness :
    ∃ ids : List String,
      getTopTokens.ids (.obj [("data", .obj [("tokensDayData",
          .arr [.obj [("tokenAddress", .str "0xb")], .obj [("tokenAddress", .str "0xa")],
            .obj [("tokenAddress", .str "0xb")]])])]) =
        .ok (.arr (ids.map JSVal.str)) ∧
      ids.Nodup ∧ (∀ a, a ∈ ids ↔ a ∈ ["0xb", "0xa", "0xb"]) ∧
      ids = firstOccurrences ["0xb", "0xa", "0xb"] :=
  topTokens_ids_deduplicated _ ["0xb", "0xa", "0xb"]
    (List.Forall₂.cons rfl (List.Forall₂.cons rfl (List.Forall₂.cons rfl List.Forall₂.nil)))

end TokenData

/-! ## The arithmetic of the binary64 format -/

namespace JS

/-- The product `0.1 * 3` is rounded: it is `0.30000000000000004`. -/
theorem mul_is_rounded :
    (parseFloatString "0.1").mul (.fin 3) = .fin (1351079888211149 / 4503599627370496) := by
  decide!

/-- The difference `0.3 - 0.1` of the two values read is
`0.19999999999999998`, and `10.1 - 0.3` is rounded to `9.799999999999999`. -/
theorem sub_is_rounded :
    (parseFloatString "0.3").sub (parseFloatString "0.1") =
        .fin (7205759403792793 / 36028797018963968) ∧
      (parseFloatString "10.1").sub (parseFloatString "0.3") =
        .fin (5516909543528857 / 562949953421312) := by
  decide!

/-- The quotient `1 / 3` is rounded, a division of a number that is not zero
by zero is an infinity, and `0 / 0` is `NaN`. -/
theorem div_is_rounded :
    (JSNum.fin 1).div (.fin 3) = .fin (6004799503160661 / 18014398509481984) ∧
      (JSNum.fin 1).div (.fin 0) = .inf false ∧ (JSNum.fin (-1)).div (.fin 0) = .inf true ∧
      (JSNum.fin 0).div (.fin 0) = .nan := by
  decide!

/-- A product beyond the largest value is an infinity, and a product below
the least subnormal value is a zero with the sign of the product. -/
theorem mul_overflow_underflow :
    (parseFloatString "1e200").mul (parseFloatString "1e200") = .inf false ∧
      (parseFloatString "1e-200").mul (parseFloatString "1e-200") = .fin 0 ∧
      (parseFloatString "-1e-200").mul (parseFloatString "1e-200") = .negZero := by
  decide!

/-- Reading a number rounds it: `1.00000000000000001` is read as `1`, as a
string of the model of numeric fields and as a string of characters. -/
theorem parseFloat_is_rounded :
    parseFloat (.numeral (100000000000000001 / 100000000000000000)) = .fin 1 ∧
      parseFloat (readValue (.str "1.00000000000000001")) = .fin 1 ∧
      toNumber (.numeral (1 / 10)) = .fin (3602879701896397 / 36028797018963968) := by
  decide!

end JS

/-! ## The records that the bulk enrichment returns -/

namespace TokenData

open JS

theorem optional_member (p : JSVal) (name : String) :
    (match p with
      | .undefined => JSVal.undefined
      | .null => JSVal.undefined
      | q => getProp (ownProps q) name) = getProp (ownProps p) name := by
  cases p <;> rfl

theorem periodOf_eq (currentValue : JSVal) (period : String) :
    periodOf currentValue period =
      getProp (ownProps (getProp (ownProps currentValue) "period")) period := by
  cases currentValue
  case undefined => rfl
  case null => rfl
  case bool b => exact optional_member (getProp (ownProps (.bool b)) "period") period
  case num n => exact optional_member (getProp (ownProps (.num n)) "period") period
  case str s => exact optional_member (getProp (ownProps (.str s)) "period") period
  case arr items => exact optional_member (getProp (ownProps (.arr items)) "period") period
  case obj props => exact optional_member (getProp (ownProps (.obj props)) "period") period

theorem indexPeriod_spec (period : String) (rows : List JSVal) (acc : Obj)
    (hrows : ∀ row ∈ rows, row ≠ .undefined ∧ row ≠ .null) :
    ∃ index, indexPeriod period acc rows = .ok index ∧
      (∀ pre row post, rows = pre ++ row :: post →
        (∀ later ∈ post, tokenKey later ≠ tokenKey row) →
        getOwn? index (tokenKey row) =
          some (getProp (ownProps (getProp (ownProps row) "period")) period)) ∧
      (∀ k, (∀ row ∈ rows, tokenKey row ≠ k) → getOwn? index k = getOwn? acc k) := by
  induction rows generalizing acc with
  | nil =>
    refine ⟨acc, rfl, ?_, ?_⟩
    · intro pre row post h
      simp at h
    · intro k _
      rfl
  | cons x rest ih =>
    have hx := hrows x (List.mem_cons_self _ _)
    obtain ⟨index, hrun, hlast, hframe⟩ :=
      ih (setProp (spreadInto [] acc) (tokenKey x) (periodOf x period))
        (fun row hrow => hrows row (List.mem_cons_of_mem _ hrow))
    refine ⟨index, ?_, ?_, ?_⟩
    · rw [indexPeriod, getMember_of_ne x _ hx.1 hx.2]
      exact hrun
    · intro pre row post hsplit hpost
      cases pre with
      | nil =>
        rw [List.nil_append, List.cons.injEq] at hsplit
        obtain ⟨hxt, hrest⟩ := hsplit
        subst hxt
        subst hrest
        rw [hframe (tokenKey x) hpost, getOwn?_setProp, if_pos rfl, periodOf_eq]
      | cons y pre' =>
        rw [List.cons_append, List.cons.injEq] at hsplit
        exact hlast pre' row post hsplit.2 hpost
    · intro k hk
      rw [hframe k (fun row hrow => hk row (List.mem_cons_of_mem _ hrow)), getOwn?_setProp,
        if_neg (Ne.symm (hk x (List.mem_cons_self _ _))), getOwn?_spreadInto_nil]

theorem enrichAll_map (enrich : JSVal → JSVal → JSVal → Except Thrown JSVal)
    (record : JSVal → JSVal) (oneDayData twoDaysData : Obj) (tokens : List JSVal)
    (h : ∀ token ∈ tokens, token ≠ .undefined ∧ token ≠ .null ∧
      enrich token (getProp oneDayData (tokenKey token))
        (getProp twoDaysData (tokenKey token)) = .ok (record token)) :
    enrichAll enrich oneDayData twoDaysData tokens = .ok (tokens.map record) := by
  induction tokens with
  | nil => rfl
  | cons token rest ih =>
    obtain ⟨h₁, h₂, h₃⟩ := h token (List.mem_cons_self _ _)
    have hkey : toPropertyKey (getProp (ownProps token) "tokenAddress") = tokenKey token := rfl
    rw [enrichAll, getMember_of_ne token _ h₁ h₂]
    simp only [hkey, h₃, ih (fun t ht => h t (List.mem_cons_of_mem _ ht)), List.map_cons]

theorem historyIndex_of_rows (period : String) (historicalData tokensData : Obj)
    (rows : List JSVal) (index : Obj)
    (hhistorical : getProp historicalData "data" = .obj tokensData)
    (hrows : getProp tokensData "tokensData" = .arr rows)
    (hindex : indexPeriod period [] rows = .ok index) :
    historyIndex period (.obj historicalData) = .ok (.obj index) := by
  simp only [historyIndex, ownProps, hhistorical, hrows, hindex]

theorem getBulkTokenData_records (oneDay twoDays : String) (toJSVal : Scalar → JSVal)
    (get2DayPercentChange : Scalar → Scalar → Scalar → Scalar × Scalar)
    (getPercentChange : Scalar → Scalar → Scalar) (ethPrice ethPriceOld : JSVal)
    (current historicalData data tokensData : Obj) (tokens rows : List JSVal)
    (oneDayData twoDaysData : Obj)
    (hdata : getProp current "data" = .obj data)
    (htokens : getProp data "tokens" = .arr tokens)
    (hobjects : ∀ token ∈ tokens, ∃ o, token = .obj o)
    (hhistorical : getProp historicalData "data" = .obj tokensData)
    (hrows : getProp tokensData "tokensData" = .arr rows)
    (hone : indexPeriod oneDay [] rows = .ok oneDayData)
    (htwo : indexPeriod twoDays [] rows = .ok twoDaysData) :
    getBulkTokenData oneDay twoDays
        (getBulkTokenData.callback toJSVal get2DayPercentChange getPercentChange ethPrice
          ethPriceOld)
        (.ok (.obj current)) (.ok (.obj historicalData)) =
      .arr (tokens.map (fun token =>
        .obj (getBulkTokenData.assign toJSVal
          (enrichToken get2DayPercentChange getPercentChange (readValue ethPrice)
            (readValue ethPriceOld) (readRow token)
            (readHistory (getProp oneDayData (tokenKey token)))
            (readHistory (getProp twoDaysData (tokenKey token))))
          (getProp oneDayData (tokenKey token)) (getProp twoDaysData (tokenKey token))
          (ownProps token)))) := by
  have hall := enrichAll_map
    (getBulkTokenData.callback toJSVal get2DayPercentChange getPercentChange ethPrice
      ethPriceOld)
    (fun token =>
      .obj (getBulkTokenData.assign toJSVal
        (enrichToken get2DayPercentChange getPercentChange (readValue ethPrice)
          (readValue ethPriceOld) (readRow token)
          (readHistory (getProp oneDayData (tokenKey token)))
          (readHistory (getProp twoDaysData (tokenKey token))))
        (getProp oneDayData (tokenKey token)) (getProp twoDaysData (tokenKey token))
        (ownProps token)))
    oneDayData twoDaysData tokens
    (fun token ht => by
      obtain ⟨o, rfl⟩ := hobjects token ht
      exact ⟨nofun, nofun, rfl⟩)
  simp only [getBulkTokenData, getBulkTokenData.attempt,
    historyIndex_of_rows oneDay historicalData tokensData rows oneDayData hhistorical hrows hone,
    historyIndex_of_rows twoDays historicalData tokensData rows twoDaysData hhistorical hrows
      htwo,
    truthy, ownProps, hdata, htokens, hall, Bool.not_true, Bool.false_eq_true, if_false]

theorem getBulkTokenData_record (oneDay twoDays : String) (toJSVal : Scalar → JSVal)
    (get2DayPercentChange : Scalar → Scalar → Scalar → Scalar × Scalar)
    (getPercentChange : Scalar → Scalar → Scalar) (ethPrice ethPriceOld : JSVal)
    (current historicalData data tokensData : Obj) (before after : List JSVal) (token : Obj)
    (rows : List JSVal) (oneDayHistory twoDaysHistory : JSVal)
    (hdata : getProp current "data" = .obj data)
    (htokens : getProp data "tokens" = .arr (before ++ .obj token :: after))
    (hobjects : ∀ other ∈ before ++ after, ∃ o, other = .obj o)
    (hhistorical : getProp historicalData "data" = .obj tokensData)
    (hrows : getProp tokensData "tokensData" = .arr rows)
    (hrecords : ∀ row ∈ rows, row ≠ .undefined ∧ row ≠ .null)
    (hhistory :
      ((∀ row ∈ rows, tokenKey row ≠ tokenKey (.obj token)) ∧
        oneDayHistory = .undefined ∧ twoDaysHistory = .undefined) ∨
      ∃ pre row post, rows = pre ++ row :: post ∧ tokenKey row = tokenKey (.obj token) ∧
        (∀ later ∈ post, tokenKey later ≠ tokenKey (.obj token)) ∧
        oneDayHistory = getProp (ownProps (getProp (ownProps row) "period")) oneDay ∧
        twoDaysHistory = getProp (ownProps (getProp (ownProps row) "period")) twoDays) :
    ∃ recordsBefore recordsAfter,
      getBulkTokenData oneDay twoDays
          (getBulkTokenData.callback toJSVal get2DayPercentChange getPercentChange ethPrice
            ethPriceOld)
          (.ok (.obj current)) (.ok (.obj historicalData)) =
        .arr (recordsBefore ++
          .obj (getBulkTokenData.assign toJSVal
            (enrichToken get2DayPercentChange getPercentChange (readValue ethPrice)
              (readValue ethPriceOld) (readRow (.obj token)) (readHistory oneDayHistory)
              (readHistory twoDaysHistory))
            oneDayHistory twoDaysHistory token) :: recordsAfter) ∧
      recordsBefore.length = before.length ∧ recordsAfter.length = after.length := by
  obtain ⟨oneDayData, hone, hlast₁, hframe₁⟩ := indexPeriod_spec oneDay rows [] hrecords
  obtain ⟨twoDaysData, htwo, hlast₂, hframe₂⟩ := indexPeriod_spec twoDays rows [] hrecords
  have hlook : getProp oneDayData (tokenKey (.obj token)) = oneDayHistory ∧
      getProp twoDaysData (tokenKey (.obj token)) = twoDaysHistory := by
    rcases hhistory with ⟨hnone, h₁, h₂⟩ | ⟨pre, row, post, hsplit, hkey, hpost, h₁, h₂⟩
    · have e₁ : getProp oneDayData (tokenKey (.obj token)) = .undefined := by
        unfold getProp
        rw [hframe₁ _ hnone]
        rfl
      have e₂ : getProp twoDaysData (tokenKey (.obj token)) = .undefined := by
        unfold getProp
        rw [hframe₂ _ hnone]
        rfl
      rw [h₁, h₂]
      exact ⟨e₁, e₂⟩
    · rw [← hkey] at hpost ⊢
      have e₁ : getProp oneDayData (tokenKey row) = oneDayHistory := by
        unfold getProp
        rw [hlast₁ pre row post hsplit hpost, h₁]
        rfl
      have e₂ : getProp twoDaysData (tokenKey row) = twoDaysHistory := by
        unfold getProp
        rw [hlast₂ pre row post hsplit hpost, h₂]
        rfl
      exact ⟨e₁, e₂⟩
  have hobjects' : ∀ other ∈ before ++ .obj token :: after, ∃ o, other = .obj o := by
    intro other hother
    rcases List.mem_append.1 hother with h | h
    · exact hobjects other (List.mem_append.2 (Or.inl h))
    · rcases List.mem_cons.1 h with h | h
      · exact ⟨token, h⟩
      · exact hobjects other (List.mem_append.2 (Or.inr h))
  have hall := getBulkTokenData_records oneDay twoDays toJSVal get2DayPercentChange
    getPercentChange ethPrice ethPriceOld current historicalData data tokensData _ rows
    oneDayData twoDaysData hdata htokens hobjects' hhistorical hrows hone htwo
  rw [List.map_append, List.map_cons, hlook.1, hlook.2] at hall
  exact ⟨_, _, hall, List.length_map _ _, List.length_map _ _⟩

theorem getProp_assign (toJSVal : Scalar → JSVal) (computed : EnrichedToken)
    (oneDayHistory twoDaysHistory : JSVal) (data : Obj) :
    getProp (getBulkTokenData.assign toJSVal computed oneDayHistory twoDaysHistory data)
        "priceUSD" = toJSVal (.number computed.priceUSD) ∧
      getProp (getBulkTokenData.assign toJSVal computed oneDayHistory twoDaysHistory data)
        "priceChangeUSD" = toJSVal computed.priceChangeUSD ∧
      getProp (getBulkTokenData.assign toJSVal computed oneDayHistory twoDaysHistory data)
        "oneDayVolumeUSD" = toJSVal (.number computed.oneDayVolumeUSD) ∧
      getProp (getBulkTokenData.assign toJSVal computed oneDayHistory twoDaysHistory data)
        "volumeChangeUSD" = toJSVal computed.volumeChangeUSD ∧
      getProp (getBulkTokenData.assign toJSVal computed oneDayHistory twoDaysHistory data)
        "feesUSD" = toJSVal (.number computed.feesUSD) := by
  simp [getBulkTokenData.assign, getProp, getOwn?_setProp]

theorem truthy_readValue (v : JSVal) : (readValue v).truthy = truthy v := by
  cases v <;> rfl

theorem history_feesUSD (history : JSVal) :
    historyField (readHistory history) TokenRow.feesUSD =
      readValue (getProp (ownProps history) "feesUSD") := by
  cases history <;> rfl

theorem history_derivedETH (history : JSVal) :
    historyField (readHistory history) TokenRow.derivedETH =
      readValue (getProp (ownProps history) "derivedETH") := by
  cases history <;> rfl

theorem history_volumeUSD (history : JSVal) :
    historyField (readHistory history) TokenRow.volumeUSD =
      readValue (getProp (ownProps history) "volumeUSD") := by
  cases history <;> rfl

theorem parseFloat_coalesce_zero (v : JSVal) :
    parseFloat ((readValue v).coalesce (.number (.fin 0))) =
      match v with
      | .undefined => .fin 0
      | .null => .fin 0
      | w => parseFloat (readValue w) := by
  cases v <;> rfl

end TokenData

/-! ## The derived fields of the bulk enrichment -/

namespace TokenData

open JS

theorem priceUSD_of_token (ethPrice : JSVal) (token : Obj) :
    enrichToken.priceUSD (readValue ethPrice) (readRow (.obj token)) =
      if truthy (getProp token "derivedETH") then
        (parseFloat (readValue (getProp token "derivedETH"))).mul (toNumber (readValue ethPrice))
      else .fin 0 := by
  unfold enrichToken.priceUSD
  show (if (readValue (getProp token "derivedETH")).truthy then _ else _) = _
  rw [truthy_readValue]
  rfl

theorem priceUSDOneDay_of_history (ethPriceOld oneDayHistory : JSVal) :
    enrichToken.priceUSDOneDay (readValue ethPriceOld) (readHistory oneDayHistory) =
      if truthy (getProp (ownProps oneDayHistory) "derivedETH") then
        (parseFloat (readValue (getProp (ownProps oneDayHistory) "derivedETH"))).mul
          (toNumber (readValue ethPriceOld))
      else .fin 0 := by
  unfold enrichToken.priceUSDOneDay
  rw [history_derivedETH, truthy_readValue]

theorem getPercentChange_of_text (x y : JSNum) (hx : x.truthy = true) (hy : y.truthy = true) :
    getPercentChange x.toStringScalar y.toStringScalar =
      .number (((x.sub y).div y).mul (.fin 100)) := by
  cases x <;> cases y <;>
    simp_all [JSNum.truthy, getPercentChange, JSNum.toStringScalar, parseFloat, JSNum.reread,
      JSNum.isZero, JSNum.isNaN]

/-- C18: with `getPercentChange` as the spec defines it, in the array that
`getBulkTokenData` returns the record of a token has the field `priceUSD`
equal to `parseFloat(derivedETH) * ethPrice`, and to `0` when the `derivedETH`
of the token is missing or falsy; with `priceUSDOneDay` the like product of the
`derivedETH` of the one-day history and `ethPriceOld`, the field
`priceChangeUSD` is `((priceUSD - priceUSDOneDay) / priceUSDOneDay) * 100`
when both prices are neither zero nor `NaN`, and `0` otherwise.  The
arithmetic is that of the binary64 format. -/
theorem price_enrichment (oneDay twoDays : String) (toJSVal : Scalar → JSVal)
    (get2DayPercentChange : Scalar → Scalar → Scalar → Scalar × Scalar)
    (ethPrice ethPriceOld : JSVal)
    (current historicalData data tokensData : Obj) (before after : List JSVal) (token : Obj)
    (rows : List JSVal) (oneDayHistory twoDaysHistory : JSVal)
    (hdata : getProp current "data" = .obj data)
    (htokens : getProp data "tokens" = .arr (before ++ .obj token :: after))
    (hobjects : ∀ other ∈ before ++ after, ∃ o, other = .obj o)
    (hhistorical : getProp historicalData "data" = .obj tokensData)
    (hrows : getProp tokensData "tokensData" = .arr rows)
    (hrecords : ∀ row ∈ rows, row ≠ .undefined ∧ row ≠ .null)
    (hhistory :
      ((∀ row ∈ rows, tokenKey row ≠ tokenKey (.obj token)) ∧
        oneDayHistory = .undefined ∧ twoDaysHistory = .undefined) ∨
      ∃ pre row post, rows = pre ++ row :: post ∧ tokenKey row = tokenKey (.obj token) ∧
        (∀ later ∈ post, tokenKey later ≠ tokenKey (.obj token)) ∧
        oneDayHistory = getProp (ownProps (getProp (ownProps row) "period")) oneDay ∧
        twoDaysHistory = getProp (ownProps (getProp (ownProps row) "period")) twoDays)
    (priceUSD priceUSDOneDay : JSNum)
    (hprice : priceUSD =
      if truthy (getProp token "derivedETH") then
        (parseFloat (readValue (getProp token "derivedETH"))).mul (toNumber (readValue ethPrice))
      else .fin 0)
    (hpriceOneDay : priceUSDOneDay =
      if truthy (getProp (ownProps oneDayHistory) "derivedETH") then
        (parseFloat (readValue (getProp (ownProps oneDayHistory) "derivedETH"))).mul
          (toNumber (readValue ethPriceOld))
      else .fin 0) :
    ∃ recordsBefore record recordsAfter,
      getBulkTokenData oneDay twoDays
          (getBulkTokenData.callback toJSVal get2DayPercentChange getPercentChange ethPrice
            ethPriceOld)
          (.ok (.obj current)) (.ok (.obj historicalData)) =
        .arr (recordsBefore ++ .obj record :: recordsAfter) ∧
      recordsBefore.length = before.length ∧ recordsAfter.length = after.length ∧
      getProp record "priceUSD" = toJSVal (.number priceUSD) ∧
      getProp record "priceChangeUSD" =
        toJSVal (.number (if priceUSD.truthy && priceUSDOneDay.truthy then
          ((priceUSD.sub priceUSDOneDay).div priceUSDOneDay).mul (.fin 100) else .fin 0)) := by
  obtain ⟨recordsBefore, recordsAfter, hall, hbefore, hafter⟩ :=
    getBulkTokenData_record oneDay twoDays toJSVal get2DayPercentChange getPercentChange
      ethPrice ethPriceOld current historicalData data tokensData before after token rows
      oneDayHistory twoDaysHistory hdata htokens hobjects hhistorical hrows hrecords hhistory
  refine ⟨recordsBefore, _, recordsAfter, hall, hbefore, hafter, ?_, ?_⟩
  · rw [(getProp_assign _ _ _ _ _).1]
    show toJSVal (.number (enrichToken.priceUSD (readValue ethPrice) (readRow (.obj token)))) = _
    rw [priceUSD_of_token, hprice]
  · rw [(getProp_assign _ _ _ _ _).2.1]
    show toJSVal (enrichToken.priceUSDChange getPercentChange (readValue ethPrice)
      (readValue ethPriceOld) (readRow (.obj token)) (readHistory oneDayHistory)) = _
    unfold enrichToken.priceUSDChange
    rw [priceUSD_of_token, priceUSDOneDay_of_history, ← hprice, ← hpriceOneDay]
    by_cases hx : priceUSD.truthy = true
    · by_cases hy : priceUSDOneDay.truthy = true
      · rw [getPercentChange_of_text _ _ hx hy]
        simp only [hx, hy, Bool.and_self, if_true]
      · simp only [hy, Bool.and_false, Bool.false_eq_true, if_false]
    · simp only [hx, Bool.false_and, Bool.false_eq_true, if_false]

theorem price_enrichment_witness :
    (∃ recordsBefore record recordsAfter,
      getBulkTokenData "one_day" "two_days"
          (getBulkTokenData.callback asFraction (fun _ _ _ => (.undefined, .undefined))
            getPercentChange (.num 1500) (.num 1400))
          (.ok (.obj [("data", .obj [("tokens", .arr [.obj [("tokenAddress", .str "0x1"),
            ("derivedETH", .str "2")]])])]))
          (.ok (.obj [("data", .obj [("tokensData", .arr [.obj [("tokenAddress", .str "0x1"),
            ("period", .obj [("one_day", .obj [("derivedETH", .str "1.8")])])]])])])) =
        .arr (recordsBefore ++ .obj record :: recordsAfter) ∧
      recordsBefore.length = 0 ∧ recordsAfter.length = 0 ∧
      getProp record "priceUSD" = asFraction (.number (.fin 3000)) ∧
      getProp record "priceChangeUSD" =
        asFraction (.number (.fin (5361428127822019 / 281474976710656)))) ∧
    (∃ recordsBefore record recordsAfter,
      getBulkTokenData "one_day" "two_days"
          (getBulkTokenData.callback asFraction (fun _ _ _ => (.undefined, .undefined))
            getPercentChange (.num 1500) (.num 1400))
          (.ok (.obj [("data", .obj [("tokens", .arr [.obj [("tokenAddress", .str "0x1")]])])]))
          (.ok (.obj [("data", .obj [("tokensData", .arr [.obj [("tokenAddress", .str "0x1"),
            ("period", .obj [("one_day", .obj [("derivedETH", .str "1.8")])])]])])])) =
        .arr (recordsBefore ++ .obj record :: recordsAfter) ∧
      recordsBefore.length = 0 ∧ recordsAfter.length = 0 ∧
      getProp record "priceUSD" = asFraction (.number (.fin 0)) ∧
      getProp record "priceChangeUSD" = asFraction (.number (.fin 0))) ∧
    (JSNum.fin 48000).div (.fin 2520) = .fin (5361428127822019 / 281474976710656) ∧
    (parseFloat (readValue (.str "1.8"))).mul (toNumber (readValue (.num 1400))) =
      .fin 2520 := by
  have hx : (if truthy (.str "2") then
      (parseFloat (readValue (.str "2"))).mul (toNumber (readValue (.num 1500)))
      else .fin 0) = JSNum.fin 3000 := by decide!
  have hy : (if truthy (.str "1.8") then
      (parseFloat (readValue (.str "1.8"))).mul (toNumber (readValue (.num 1400)))
      else .fin 0) = JSNum.fin 2520 := by decide!
  have hchange : (if (JSNum.fin 3000).truthy && (JSNum.fin 2520).truthy then
      (((JSNum.fin 3000).sub (.fin 2520)).div (.fin 2520)).mul (.fin 100) else .fin 0) =
      .fin (5361428127822019 / 281474976710656) := by decide!
  have hnone : (if (JSNum.fin 0).truthy && (JSNum.fin 2520).truthy then
      (((JSNum.fin 0).sub (.fin 2520)).div (.fin 2520)).mul (.fin 100) else .fin 0) =
      .fin 0 := by decide!
  obtain ⟨recordsBefore, record, recordsAfter, hall, hbefore, hafter, hprice, hpriceChange⟩ :=
    price_enrichment "one_day" "two_days" asFraction (fun _ _ _ => (.undefined, .undefined))
      (.num 1500) (.num 1400)
      [("data", .obj [("tokens", .arr [.obj [("tokenAddress", .str "0x1"),
        ("derivedETH", .str "2")]])])]
      [("data", .obj [("tokensData", .arr [.obj [("tokenAddress", .str "0x1"),
        ("period", .obj [("one_day", .obj [("derivedETH", .str "1.8")])])]])])]
      [("tokens", .arr [.obj [("tokenAddress", .str "0x1"), ("derivedETH", .str "2")]])]
      [("tokensData", .arr [.obj [("tokenAddress", .str "0x1"),
        ("period", .obj [("one_day", .obj [("derivedETH", .str "1.8")])])]])]
      [] [] [("tokenAddress", .str "0x1"), ("derivedETH", .str "2")]
      [.obj [("tokenAddress", .str "0x1"),
        ("period", .obj [("one_day", .obj [("derivedETH", .str "1.8")])])]]
      (.obj [("derivedETH", .str "1.8")]) .undefined rfl rfl (by simp) rfl rfl
      (by
        intro row hrow
        rw [List.mem_singleton.1 hrow]
        exact ⟨nofun, nofun⟩)
      (Or.inr ⟨[], _, [], rfl, rfl, by simp, rfl, rfl⟩)
      (.fin 3000) (.fin 2520) hx.symm hy.symm
  obtain ⟨recordsBefore', record', recordsAfter', hall', hbefore', hafter', hprice',
      hpriceChange'⟩ :=
    price_enrichment "one_day" "two_days" asFraction (fun _ _ _ => (.undefined, .undefined))
      (.num 1500) (.num 1400)
      [("data", .obj [("tokens", .arr [.obj [("tokenAddress", .str "0x1")]])])]
      [("data", .obj [("tokensData", .arr [.obj [("tokenAddress", .str "0x1"),
        ("period", .obj [("one_day", .obj [("derivedETH", .str "1.8")])])]])])]
      [("tokens", .arr [.obj [("tokenAddress", .str "0x1")]])]
      [("tokensData", .arr [.obj [("tokenAddress", .str "0x1"),
        ("period", .obj [("one_day", .obj [("derivedETH", .str "1.8")])])]])]
      [] [] [("tokenAddress", .str "0x1")]
      [.obj [("tokenAddress", .str "0x1"),
        ("period", .obj [("one_day", .obj [("derivedETH", .str "1.8")])])]]
      (.obj [("derivedETH", .str "1.8")]) .undefined rfl rfl (by simp) rfl rfl
      (by
        intro row hrow
        rw [List.mem_singleton.1 hrow]
        exact ⟨nofun, nofun⟩)
      (Or.inr ⟨[], _, [], rfl, rfl, by simp, rfl, rfl⟩)
      (.fin 0) (.fin 2520) rfl hy.symm
  rw [hchange] at hpriceChange
  rw [hnone] at hpriceChange'
  exact ⟨⟨recordsBefore, record, recordsAfter, hall, hbefore, hafter, hprice, hpriceChange⟩,
    ⟨recordsBefore', record', recordsAfter', hall', hbefore', hafter', hprice',
      hpriceChange'⟩, by decide!, by decide!⟩

/-- C19 (the code differs): the callback computes the constant `txCount`, the
current count minus the count one day ago, and assigns it to no field, so the
record it returns keeps the `txCount` of the query answer; with a current
count of 10 and a count of 4 one day ago the constant is 6 and the field is
the string `10`. -/
theorem txCount_delta_is_not_stored
    (get2DayPercentChange : Scalar → Scalar → Scalar → Scalar × Scalar)
    (getPercentChange : Scalar → Scalar → Scalar) (ethPrice ethPriceOld : Scalar) :
    (∀ token oneDayHistory twoDaysHistory,
        (enrichToken get2DayPercentChange getPercentChange ethPrice ethPriceOld token
          oneDayHistory twoDaysHistory).txCount = token.txCount) ∧
      enrichToken.txCount
        ⟨.undefined, .undefined, .undefined, .numeral 10, .undefined, .undefined, .undefined⟩
        (some ⟨.undefined, .undefined, .undefined, .numeral 4, .undefined, .undefined,
          .undefined⟩) = .fin 6 ∧
      (enrichToken get2DayPercentChange getPercentChange ethPrice ethPriceOld
        ⟨.undefined, .undefined, .undefined, .numeral 10, .undefined, .undefined, .undefined⟩
        (some ⟨.undefined, .undefined, .undefined, .numeral 4, .undefined, .undefined,
          .undefined⟩) none).txCount = .numeral 10 := by
  exact ⟨fun _ _ _ => rfl, by decide!, rfl⟩

/-- C20: in the array that `getBulkTokenData` returns, the record of a token has
as its field `feesUSD` the difference `parseFloat(current) - parseFloat(previous)`
of the `feesUSD` of the token and the `feesUSD` of its one-day history, the
entry `period[oneDay]` of the last row of the historical answer with the
address of the token, when both values are truthy; when the history or its
`feesUSD` is missing or `null`, the field is `parseFloat` of the current
value.  The arithmetic is that of the binary64 format. -/
theorem feesUSD_delta (oneDay twoDays : String) (toJSVal : Scalar → JSVal)
    (get2DayPercentChange : Scalar → Scalar → Scalar → Scalar × Scalar)
    (getPercentChange : Scalar → Scalar → Scalar) (ethPrice ethPriceOld : JSVal)
    (current historicalData data tokensData : Obj) (before after : List JSVal) (token : Obj)
    (rows : List JSVal) (oneDayHistory twoDaysHistory : JSVal)
    (hdata : getProp current "data" = .obj data)
    (htokens : getProp data "tokens" = .arr (before ++ .obj token :: after))
    (hobjects : ∀ other ∈ before ++ after, ∃ o, other = .obj o)
    (hhistorical : getProp historicalData "data" = .obj tokensData)
    (hrows : getProp tokensData "tokensData" = .arr rows)
    (hrecords : ∀ row ∈ rows, row ≠ .undefined ∧ row ≠ .null)
    (hhistory :
      ((∀ row ∈ rows, tokenKey row ≠ tokenKey (.obj token)) ∧
        oneDayHistory = .undefined ∧ twoDaysHistory = .undefined) ∨
      ∃ pre row post, rows = pre ++ row :: post ∧ tokenKey row = tokenKey (.obj token) ∧
        (∀ later ∈ post, tokenKey later ≠ tokenKey (.obj token)) ∧
        oneDayHistory = getProp (ownProps (getProp (ownProps row) "period")) oneDay ∧
        twoDaysHistory = getProp (ownProps (getProp (ownProps row) "period")) twoDays) :
    ∃ recordsBefore record recordsAfter,
      getBulkTokenData oneDay twoDays
          (getBulkTokenData.callback toJSVal get2DayPercentChange getPercentChange ethPrice
            ethPriceOld)
          (.ok (.obj current)) (.ok (.obj historicalData)) =
        .arr (recordsBefore ++ .obj record :: recordsAfter) ∧
      recordsBefore.length = before.length ∧ recordsAfter.length = after.length ∧
      (truthy (getProp token "feesUSD") = true →
        truthy (getProp (ownProps oneDayHistory) "feesUSD") = true →
        getProp record "feesUSD" =
          toJSVal (.number ((parseFloat (readValue (getProp token "feesUSD"))).sub
            (parseFloat (readValue (getProp (ownProps oneDayHistory) "feesUSD")))))) ∧
      ((getProp (ownProps oneDayHistory) "feesUSD" = .undefined ∨
          getProp (ownProps oneDayHistory) "feesUSD" = .null) →
        getProp record "feesUSD" =
          toJSVal (.number (parseFloat (readValue (getProp token "feesUSD"))))) := by
  obtain ⟨recordsBefore, recordsAfter, hall, hbefore, hafter⟩ :=
    getBulkTokenData_record oneDay twoDays toJSVal get2DayPercentChange getPercentChange
      ethPrice ethPriceOld current historicalData data tokensData before after token rows
      oneDayHistory twoDaysHistory hdata htokens hobjects hhistorical hrows hrecords hhistory
  refine ⟨recordsBefore, _, recordsAfter, hall, hbefore, hafter, ?_, ?_⟩
  · intro hcurrent hprevious
    rw [(getProp_assign _ _ _ _ _).2.2.2.2]
    show toJSVal (.number (enrichToken.feesUSD (readRow (.obj token))
      (readHistory oneDayHistory))) = _
    unfold enrichToken.feesUSD
    rw [history_feesUSD]
    show toJSVal (.number (if (readValue (getProp token "feesUSD")).truthy &&
      (readValue (getProp (ownProps oneDayHistory) "feesUSD")).truthy then _ else _)) = _
    rw [truthy_readValue, truthy_readValue, hcurrent, hprevious]
    rfl
  · intro hmissing
    rw [(getProp_assign _ _ _ _ _).2.2.2.2]
    show toJSVal (.number (enrichToken.feesUSD (readRow (.obj token))
      (readHistory oneDayHistory))) = _
    unfold enrichToken.feesUSD
    rw [history_feesUSD]
    show toJSVal (.number (if (readValue (getProp token "feesUSD")).truthy &&
      (readValue (getProp (ownProps oneDayHistory) "feesUSD")).truthy then _ else _)) = _
    rw [truthy_readValue, truthy_readValue]
    rcases hmissing with h | h <;> rw [h] <;>
      simp only [truthy, Bool.and_false, Bool.false_eq_true, if_false] <;> rfl

theorem feesUSD_delta_witness :
    (∃ recordsBefore record recordsAfter,
      getBulkTokenData "one_day" "two_days"
          (getBulkTokenData.callback asFraction (fun _ _ _ => (.undefined, .undefined))
            (fun _ _ => .undefined) (.num 1500) (.num 1400))
          (.ok (.obj [("data", .obj [("tokens", .arr [.obj [("tokenAddress", .str "0x1"),
            ("feesUSD", .str "0.3")]])])]))
          (.ok (.obj [("data", .obj [("tokensData", .arr [.obj [("tokenAddress", .str "0x1"),
            ("period", .obj [("one_day", .obj [("feesUSD", .str "0.1")])])]])])])) =
        .arr (recordsBefore ++ .obj record :: recordsAfter) ∧
      recordsBefore.length = 0 ∧ recordsAfter.length = 0 ∧
      getProp record "feesUSD" =
        asFraction (.number (.fin (7205759403792793 / 36028797018963968)))) ∧
    (∃ recordsBefore record recordsAfter,
      getBulkTokenData "one_day" "two_days"
          (getBulkTokenData.callback asFraction (fun _ _ _ => (.undefined, .undefined))
            (fun _ _ => .undefined) (.num 1500) (.num 1400))
          (.ok (.obj [("data", .obj [("tokens", .arr [.obj [("tokenAddress", .str "0x1"),
            ("feesUSD", .str "10.1")]])])]))
          (.ok (.obj [("data", .obj [("tokensData", .arr [.obj [("tokenAddress", .str "0x1"),
            ("period", .obj [("one_day", .obj [("feesUSD", .str "0.3")])])]])])])) =
        .arr (recordsBefore ++ .obj record :: recordsAfter) ∧
      recordsBefore.length = 0 ∧ recordsAfter.length = 0 ∧
      getProp record "feesUSD" =
        asFraction (.number (.fin (5516909543528857 / 562949953421312)))) ∧
    (∃ recordsBefore record recordsAfter,
      getBulkTokenData "one_day" "two_days"
          (getBulkTokenData.callback asFraction (fun _ _ _ => (.undefined, .undefined))
            (fun _ _ => .undefined) (.num 1500) (.num 1400))
          (.ok (.obj [("data", .obj [("tokens", .arr [.obj [("tokenAddress", .str "0x1"),
            ("feesUSD", .str "0.3")]])])]))
          (.ok (.obj [("data", .obj [("tokensData", .arr [.obj [("tokenAddress", .str "0x2"),
            ("period", .obj [("one_day", .obj [("feesUSD", .str "0.1")])])]])])])) =
        .arr (recordsBefore ++ .obj record :: recordsAfter) ∧
      recordsBefore.length = 0 ∧ recordsAfter.length = 0 ∧
      getProp record "feesUSD" =
        asFraction (.number (.fin (5404319552844595 / 18014398509481984)))) := by
  obtain ⟨r₁, record₁, s₁, hall₁, hbefore₁, hafter₁, hdelta₁, _⟩ :=
    feesUSD_delta "one_day" "two_days" asFraction (fun _ _ _ => (.undefined, .undefined))
      (fun _ _ => .undefined) (.num 1500) (.num 1400)
      [("data", .obj [("tokens", .arr [.obj [("tokenAddress", .str "0x1"),
        ("feesUSD", .str "0.3")]])])]
      [("data", .obj [("tokensData", .arr [.obj [("tokenAddress", .str "0x1"),
        ("period", .obj [("one_day", .obj [("feesUSD", .str "0.1")])])]])])]
      [("tokens", .arr [.obj [("tokenAddress", .str "0x1"), ("feesUSD", .str "0.3")]])]
      [("tokensData", .arr [.obj [("tokenAddress", .str "0x1"),
        ("period", .obj [("one_day", .obj [("feesUSD", .str "0.1")])])]])]
      [] [] [("tokenAddress", .str "0x1"), ("feesUSD", .str "0.3")]
      [.obj [("tokenAddress", .str "0x1"),
        ("period", .obj [("one_day", .obj [("feesUSD", .str "0.1")])])]]
      (.obj [("feesUSD", .str "0.1")]) .undefined rfl rfl (by simp) rfl rfl
      (by
        intro row hrow
        rw [List.mem_singleton.1 hrow]
        exact ⟨nofun, nofun⟩)
      (Or.inr ⟨[], _, [], rfl, rfl, by simp, rfl, rfl⟩)
  obtain ⟨r₂, record₂, s₂, hall₂, hbefore₂, hafter₂, hdelta₂, _⟩ :=
    feesUSD_delta "one_day" "two_days" asFraction (fun _ _ _ => (.undefined, .undefined))
      (fun _ _ => .undefined) (.num 1500) (.num 1400)
      [("data", .obj [("tokens", .arr [.obj [("tokenAddress", .str "0x1"),
        ("feesUSD", .str "10.1")]])])]
      [("data", .obj [("tokensData", .arr [.obj [("tokenAddress", .str "0x1"),
        ("period", .obj [("one_day", .obj [("feesUSD", .str "0.3")])])]])])]
      [("tokens", .arr [.obj [("tokenAddress", .str "0x1"), ("feesUSD", .str "10.1")]])]
      [("tokensData", .arr [.obj [("tokenAddress", .str "0x1"),
        ("period", .obj [("one_day", .obj [("feesUSD", .str "0.3")])])]])]
      [] [] [("tokenAddress", .str "0x1"), ("feesUSD", .str "10.1")]
      [.obj [("tokenAddress", .str "0x1"),
        ("period", .obj [("one_day", .obj [("feesUSD", .str "0.3")])])]]
      (.obj [("feesUSD", .str "0.3")]) .undefined rfl rfl (by simp) rfl rfl
      (by
        intro row hrow
        rw [List.mem_singleton.1 hrow]
        exact ⟨nofun, nofun⟩)
      (Or.inr ⟨[], _, [], rfl, rfl, by simp, rfl, rfl⟩)
  obtain ⟨r₃, record₃, s₃, hall₃, hbefore₃, hafter₃, _, hraw₃⟩ :=
    feesUSD_delta "one_day" "two_days" asFraction (fun _ _ _ => (.undefined, .undefined))
      (fun _ _ => .undefined) (.num 1500) (.num 1400)
      [("data", .obj [("tokens", .arr [.obj [("tokenAddress", .str "0x1"),
        ("feesUSD", .str "0.3")]])])]
      [("data", .obj [("tokensData", .arr [.obj [("tokenAddress", .str "0x2"),
        ("period", .obj [("one_day", .obj [("feesUSD", .str "0.1")])])]])])]
      [("tokens", .arr [.obj [("tokenAddress", .str "0x1"), ("feesUSD", .str "0.3")]])]
      [("tokensData", .arr [.obj [("tokenAddress", .str "0x2"),
        ("period", .obj [("one_day", .obj [("feesUSD", .str "0.1")])])]])]
      [] [] [("tokenAddress", .str "0x1"), ("feesUSD", .str "0.3")]
      [.obj [("tokenAddress", .str "0x2"),
        ("period", .obj [("one_day", .obj [("feesUSD", .str "0.1")])])]]
      .undefined .undefined rfl rfl (by simp) rfl rfl
      (by
        intro row hrow
        rw [List.mem_singleton.1 hrow]
        exact ⟨nofun, nofun⟩)
      (Or.inl ⟨by
        intro row hrow
        rw [List.mem_singleton.1 hrow]
        decide, rfl, rfl⟩)
  have hvalue₁ : (parseFloat (readValue (.str "0.3"))).sub
      (parseFloat (readValue (.str "0.1"))) =
      .fin (7205759403792793 / 36028797018963968) := by decide!
  have hvalue₂ : (parseFloat (readValue (.str "10.1"))).sub
      (parseFloat (readValue (.str "0.3"))) =
      .fin (5516909543528857 / 562949953421312) := by decide!
  have hvalue₃ : parseFloat (readValue (.str "0.3")) =
      .fin (5404319552844595 / 18014398509481984) := by decide!
  refine ⟨⟨r₁, record₁, s₁, hall₁, hbefore₁, hafter₁, ?_⟩,
    ⟨r₂, record₂, s₂, hall₂, hbefore₂, hafter₂, ?_⟩,
    ⟨r₃, record₃, s₃, hall₃, hbefore₃, hafter₃, ?_⟩⟩
  · rw [← hvalue₁]
    exact hdelta₁ rfl rfl
  · rw [← hvalue₂]
    exact hdelta₂ rfl rfl
  · rw [← hvalue₃]
    exact hraw₃ (Or.inl rfl)

end TokenData

/-! ## Missing fields and the volume change of the bulk enrichment -/

namespace TokenData

open JS

/-- C21 (the code differs): for a token without `derivedETH` the field
`priceUSD` is `0`, and without `totalValueLockedUSD` the field
`totalLiquidityUSD` is `0`; for a token without `feesUSD` the field `feesUSD`
is `parseFloat(undefined)`, which is `NaN`, because the fallback tests the
token and not its field. -/
theorem missing_feesUSD_gives_nan
    (get2DayPercentChange : Scalar → Scalar → Scalar → Scalar × Scalar)
    (getPercentChange : Scalar → Scalar → Scalar) (ethPrice ethPriceOld : Scalar)
    (token : TokenRow) (oneDayHistory twoDaysHistory : Option TokenRow) :
    (token.derivedETH = .undefined →
        (enrichToken get2DayPercentChange getPercentChange ethPrice ethPriceOld token
          oneDayHistory twoDaysHistory).priceUSD = .fin 0) ∧
      (token.totalValueLockedUSD = .undefined →
        (enrichToken get2DayPercentChange getPercentChange ethPrice ethPriceOld token
          oneDayHistory twoDaysHistory).totalLiquidityUSD = .fin 0) ∧
      (token.feesUSD = .undefined →
        (enrichToken get2DayPercentChange getPercentChange ethPrice ethPriceOld token
          oneDayHistory twoDaysHistory).feesUSD = .nan) ∧
      (enrichToken get2DayPercentChange getPercentChange ethPrice ethPriceOld
        ⟨.numeral 100, .numeral 5, .numeral 2, .numeral 10, .undefined, .numeral 7,
          .numeral 3⟩ oneDayHistory twoDaysHistory).feesUSD = .nan := by
  refine ⟨?_, ?_, ?_, ?_⟩
  · intro h
    show enrichToken.priceUSD ethPrice token = .fin 0
    simp [enrichToken.priceUSD, h, Scalar.truthy]
  · intro h
    show (if token.totalValueLockedUSD.truthy then parseFloat token.totalValueLockedUSD
      else JSNum.fin 0) = .fin 0
    simp [h, Scalar.truthy]
  · intro h
    show enrichToken.feesUSD token oneDayHistory = .nan
    simp [enrichToken.feesUSD, h, Scalar.truthy, parseFloat]
  · simp [enrichToken, enrichToken.feesUSD, Scalar.truthy, parseFloat]

/-- C22: with `get2DayPercentChange` as the spec defines it, let `c` be the
parsed `volumeUSD` of a token, and `d` and `t` the parsed `volumeUSD` of its
one-day and two-day histories, each `0` when the history or its `volumeUSD` is
missing or `null`.  When `d` is a number and `d - t` is not zero, the record
of the token in the array that `getBulkTokenData` returns has the field
`oneDayVolumeUSD` equal to `c - d` (read by `parseFloat`, which gives the
positive zero for the negative one) and the field `volumeChangeUSD` equal to
`(((c - d) - (d - t)) / (d - t)) * 100`.  The arithmetic is that of the
binary64 format. -/
theorem volume_enrichment (oneDay twoDays : String) (toJSVal : Scalar → JSVal)
    (getPercentChange : Scalar → Scalar → Scalar) (ethPrice ethPriceOld : JSVal)
    (current historicalData data tokensData : Obj) (before after : List JSVal) (token : Obj)
    (rows : List JSVal) (oneDayHistory twoDaysHistory : JSVal)
    (hdata : getProp current "data" = .obj data)
    (htokens : getProp data "tokens" = .arr (before ++ .obj token :: after))
    (hobjects : ∀ other ∈ before ++ after, ∃ o, other = .obj o)
    (hhistorical : getProp historicalData "data" = .obj tokensData)
    (hrows : getProp tokensData "tokensData" = .arr rows)
    (hrecords : ∀ row ∈ rows, row ≠ .undefined ∧ row ≠ .null)
    (hhistory :
      ((∀ row ∈ rows, tokenKey row ≠ tokenKey (.obj token)) ∧
        oneDayHistory = .undefined ∧ twoDaysHistory = .undefined) ∨
      ∃ pre row post, rows = pre ++ row :: post ∧ tokenKey row = tokenKey (.obj token) ∧
        (∀ later ∈ post, tokenKey later ≠ tokenKey (.obj token)) ∧
        oneDayHistory = getProp (ownProps (getProp (ownProps row) "period")) oneDay ∧
        twoDaysHistory = getProp (ownProps (getProp (ownProps row) "period")) twoDays)
    (c d t : JSNum)
    (hc : c = parseFloat (readValue (getProp token "volumeUSD")))
    (hd : d =
      match getProp (ownProps oneDayHistory) "volumeUSD" with
      | .undefined => .fin 0
      | .null => .fin 0
      | value => parseFloat (readValue value))
    (ht : t =
      match getProp (ownProps twoDaysHistory) "volumeUSD" with
      | .undefined => .fin 0
      | .null => .fin 0
      | value => parseFloat (readValue value))
    (hnumber : d.isNaN = false) (hne : (d.sub t).isZero = false) :
    ∃ recordsBefore record recordsAfter,
      getBulkTokenData oneDay twoDays
          (getBulkTokenData.callback toJSVal get2DayPercentChange getPercentChange ethPrice
            ethPriceOld)
          (.ok (.obj current)) (.ok (.obj historicalData)) =
        .arr (recordsBefore ++ .obj record :: recordsAfter) ∧
      recordsBefore.length = before.length ∧ recordsAfter.length = after.length ∧
      getProp record "oneDayVolumeUSD" = toJSVal (.number (c.sub d).reread) ∧
      getProp record "volumeChangeUSD" =
        toJSVal (.number ((((c.sub d).sub (d.sub t)).div (d.sub t)).mul (.fin 100))) := by
  obtain ⟨recordsBefore, recordsAfter, hall, hbefore, hafter⟩ :=
    getBulkTokenData_record oneDay twoDays toJSVal get2DayPercentChange getPercentChange
      ethPrice ethPriceOld current historicalData data tokensData before after token rows
      oneDayHistory twoDaysHistory hdata htokens hobjects hhistorical hrows hrecords hhistory
  have hcall : get2DayPercentChange (readRow (.obj token)).volumeUSD
      ((historyField (readHistory oneDayHistory) TokenRow.volumeUSD).coalesce
        (.number (.fin 0)))
      ((historyField (readHistory twoDaysHistory) TokenRow.volumeUSD).coalesce
        (.number (.fin 0))) =
      (.number (c.sub d),
        .number ((((c.sub d).sub (d.sub t)).div (d.sub t)).mul (.fin 100))) := by
    unfold get2DayPercentChange
    rw [history_volumeUSD, history_volumeUSD, parseFloat_coalesce_zero,
      parseFloat_coalesce_zero, ← hd, ← ht]
    have hc' : parseFloat (readRow (.obj token)).volumeUSD = c := hc.symm
    rw [hc']
    simp only [hnumber, hne, Bool.false_eq_true, if_false]
  refine ⟨recordsBefore, _, recordsAfter, hall, hbefore, hafter, ?_, ?_⟩
  · rw [(getProp_assign _ _ _ _ _).2.2.1]
    show toJSVal (.number (parseFloat (get2DayPercentChange (readRow (.obj token)).volumeUSD
      ((historyField (readHistory oneDayHistory) TokenRow.volumeUSD).coalesce
        (.number (.fin 0)))
      ((historyField (readHistory twoDaysHistory) TokenRow.volumeUSD).coalesce
        (.number (.fin 0)))).1)) = _
    rw [hcall]
    rfl
  · rw [(getProp_assign _ _ _ _ _).2.2.2.1]
    show toJSVal (get2DayPercentChange (readRow (.obj token)).volumeUSD
      ((historyField (readHistory oneDayHistory) TokenRow.volumeUSD).coalesce
        (.number (.fin 0)))
      ((historyField (readHistory twoDaysHistory) TokenRow.volumeUSD).coalesce
        (.number (.fin 0)))).2 = _
    rw [hcall]

theorem volume_enrichment_witness :
    (∃ recordsBefore record recordsAfter,
      getBulkTokenData "one_day" "two_days"
          (getBulkTokenData.callback asFraction get2DayPercentChange (fun _ _ => .undefined)
            (.num 1500) (.num 1400))
          (.ok (.obj [("data", .obj [("tokens", .arr [.obj [("tokenAddress", .str "0x1"),
            ("volumeUSD", .str "100")]])])]))
          (.ok (.obj [("data", .obj [("tokensData", .arr [.obj [("tokenAddress", .str "0x1"),
            ("period", .obj [("one_day", .obj [("volumeUSD", .str "80")]),
              ("two_days", .obj [("volumeUSD", .str "60")])])]])])])) =
        .arr (recordsBefore ++ .obj record :: recordsAfter) ∧
      recordsBefore.length = 0 ∧ recordsAfter.length = 0 ∧
      getProp record "oneDayVolumeUSD" = asFraction (.number (.fin 20)) ∧
      getProp record "volumeChangeUSD" = asFraction (.number (.fin 0))) ∧
    (∃ recordsBefore record recordsAfter,
      getBulkTokenData "one_day" "two_days"
          (getBulkTokenData.callback asFraction get2DayPercentChange (fun _ _ => .undefined)
            (.num 1500) (.num 1400))
          (.ok (.obj [("data", .obj [("tokens", .arr [.obj [("tokenAddress", .str "0x1"),
            ("volumeUSD", .str "100")]])])]))
          (.ok (.obj [("data", .obj [("tokensData", .arr [.obj [("tokenAddress", .str "0x1"),
            ("period", .obj [("one_day", .obj [("volumeUSD", .str "80")])])]])])])) =
        .arr (recordsBefore ++ .obj record :: recordsAfter) ∧
      recordsBefore.length = 0 ∧ recordsAfter.length = 0 ∧
      getProp record "oneDayVolumeUSD" = asFraction (.number (.fin 20)) ∧
      getProp record "volumeChangeUSD" = asFraction (.number (.fin (-75)))) := by
  have hboth := volume_enrichment "one_day" "two_days" asFraction (fun _ _ => .undefined)
    (.num 1500) (.num 1400)
    [("data", .obj [("tokens", .arr [.obj [("tokenAddress", .str "0x1"),
      ("volumeUSD", .str "100")]])])]
    [("data", .obj [("tokensData", .arr [.obj [("tokenAddress", .str "0x1"),
      ("period", .obj [("one_day", .obj [("volumeUSD", .str "80")]),
        ("two_days", .obj [("volumeUSD", .str "60")])])]])])]
    [("tokens", .arr [.obj [("tokenAddress", .str "0x1"), ("volumeUSD", .str "100")]])]
    [("tokensData", .arr [.obj [("tokenAddress", .str "0x1"),
      ("period", .obj [("one_day", .obj [("volumeUSD", .str "80")]),
        ("two_days", .obj [("volumeUSD", .str "60")])])]])]
    [] [] [("tokenAddress", .str "0x1"), ("volumeUSD", .str "100")]
    [.obj [("tokenAddress", .str "0x1"),
      ("period", .obj [("one_day", .obj [("volumeUSD", .str "80")]),
        ("two_days", .obj [("volumeUSD", .str "60")])])]]
    (.obj [("volumeUSD", .str "80")]) (.obj [("volumeUSD", .str "60")]) rfl rfl (by simp) rfl rfl
    (by
      intro row hrow
      rw [List.mem_singleton.1 hrow]
      exact ⟨nofun, nofun⟩)
    (Or.inr ⟨[], _, [], rfl, rfl, by simp, rfl, rfl⟩)
    (.fin 100) (.fin 80) (.fin 60) (by decide!) (by decide!) (by decide!) rfl (by decide!)
  have hmissing := volume_enrichment "one_day" "two_days" asFraction (fun _ _ => .undefined)
    (.num 1500) (.num 1400)
    [("data", .obj [("tokens", .arr [.obj [("tokenAddress", .str "0x1"),
      ("volumeUSD", .str "100")]])])]
    [("data", .obj [("tokensData", .arr [.obj [("tokenAddress", .str "0x1"),
      ("period", .obj [("one_day", .obj [("volumeUSD", .str "80")])])]])])]
    [("tokens", .arr [.obj [("tokenAddress", .str "0x1"), ("volumeUSD", .str "100")]])]
    [("tokensData", .arr [.obj [("tokenAddress", .str "0x1"),
      ("period", .obj [("one_day", .obj [("volumeUSD", .str "80")])])]])]
    [] [] [("tokenAddress", .str "0x1"), ("volumeUSD", .str "100")]
    [.obj [("tokenAddress", .str "0x1"),
      ("period", .obj [("one_day", .obj [("volumeUSD", .str "80")])])]]
    (.obj [("volumeUSD", .str "80")]) .undefined rfl rfl (by simp) rfl rfl
    (by
      intro row hrow
      rw [List.mem_singleton.1 hrow]
      exact ⟨nofun, nofun⟩)
    (Or.inr ⟨[], _, [], rfl, rfl, by simp, rfl, rfl⟩)
    (.fin 100) (.fin 80) (.fin 0) (by decide!) (by decide!) (by decide!) rfl (by decide!)
  have hone : ((JSNum.fin 100).sub (.fin 80)).reread = .fin 20 := by decide!
  have hsame : ((((JSNum.fin 100).sub (.fin 80)).sub ((JSNum.fin 80).sub (.fin 60))).div
      ((JSNum.fin 80).sub (.fin 60))).mul (.fin 100) = .fin 0 := by decide!
  have hless : ((((JSNum.fin 100).sub (.fin 80)).sub ((JSNum.fin 80).sub (.fin 0))).div
      ((JSNum.fin 80).sub (.fin 0))).mul (.fin 100) = .fin (-75) := by decide!
  rw [hone, hsame] at hboth
  rw [hone, hless] at hmissing
  exact ⟨hboth, hmissing⟩

end TokenData

/-! ## The pair list, the list fetch and the v1 refresh -/

namespace TokenData

open JS

/-- C23: after `UPDATE_ALL_PAIRS` for an address and a pair list, the hook
`useTokenPairs` returns that list for the address, every other field of the
record of the address has the value it had, and every other address keeps its
record; for an address without a record, or with a record without a pair list,
the hook returns the empty list. -/
theorem tokenPairs_round_trip (s : Obj) (a : String) (pairs : List JSVal) :
    ∃ s' r, dispatch s (updateAllPairs (.str a) (.arr pairs)) = .ok s' ∧
      useTokenPairs s' (.str a) = .arr pairs ∧
      getOwn? s' a = some (.obj r) ∧
      (∀ k, k ≠ TOKEN_PAIRS_KEY → getOwn? r k = getOwn? (ownProps (getProp s a)) k) ∧
      (∀ b, b ≠ a → getOwn? s' b = getOwn? s b) ∧
      ((getOwn? s a = none ∨
          ∃ rec, getOwn? s a = some (.obj rec) ∧ getOwn? rec TOKEN_PAIRS_KEY = none) →
        useTokenPairs s (.str a) = .arr []) := by
  refine ⟨setProp (spreadInto [] s) a
      (.obj (setProp (spreadInto [] (ownProps (getProp s a))) TOKEN_PAIRS_KEY (.arr pairs))),
    setProp (spreadInto [] (ownProps (getProp s a))) TOKEN_PAIRS_KEY (.arr pairs),
    rfl, ?_, ?_, ?_, ?_, ?_⟩
  · unfold useTokenPairs
    simp [toPropertyKey_str, getProp, getOwn?_update, ownProps, getOwn?_setProp, truthy]
  · rw [getOwn?_update, if_pos rfl]
  · intro k hk
    rw [getOwn?_setProp, if_neg hk, getOwn?_spreadInto_nil]
  · intro b hb
    rw [getOwn?_update, if_neg hb]
  · intro habs
    unfold useTokenPairs
    rcases habs with h | ⟨rec, h, hrec⟩
    · simp [toPropertyKey_str, getProp, h, truthy]
    · simp [toPropertyKey_str, getProp, h, ownProps, hrec, truthy]

theorem forEachUpdate_without_id (data : List JSVal)
    (h : ∀ p ∈ data, getMember p "id" = .ok .undefined) :
    useTokenDataForList.forEachUpdate data = [] := by
  induction data with
  | nil => rfl
  | cons p rest ih =>
    rw [useTokenDataForList.forEachUpdate, h p (List.mem_cons_self _ _),
      ih (fun q hq => h q (List.mem_cons_of_mem _ hq))]
    rfl

/-- C24 (the code differs): the list fetch calls `update(p.id, p)`.  A record
of the query answer carries `tokenAddress` and no `id`, so the address passed is
`undefined` and `update` dispatches nothing: for the untracked address `0x1`
and the fetched record of `0x1` the store stays empty and `0x1` stays
untracked, while the bulk refresh files the same record under `0x1`. -/
theorem list_fetch_stores_nothing :
    (∀ (isStarknetAddress : JSVal → Bool) (state : Obj) (addresses data : List JSVal),
        (∀ p ∈ data, getMember p "id" = .ok .undefined) →
        useTokenDataForList.effect isStarknetAddress state addresses (.arr data) = []) ∧
      useTokenDataForList.untrackedAddresses (fun _ => true) [] [.str "0x1"] = [.str "0x1"] ∧
      useTokenDataForList.effect (fun _ => true) [] [.str "0x1"]
        (.arr [.obj [("tokenAddress", .str "0x1"), ("priceUSD", .num 3000)]]) = [] ∧
      dispatch [] (useTokenDataForList.effect (fun _ => true) [] [.str "0x1"]
        (.arr [.obj [("tokenAddress", .str "0x1"), ("priceUSD", .num 3000)]])) = .ok [] ∧
      getOwn? [] "0x1" = none ∧
      dispatch [] (updateTopTokens
        (.arr [.obj [("tokenAddress", .str "0x1"), ("priceUSD", .num 3000)]])) =
        .ok [("0x1", .obj [("tokenAddress", .str "0x1"), ("priceUSD", .num 3000)])] := by
  refine ⟨?_, rfl, rfl, rfl, rfl, rfl⟩
  intro isStarknetAddress state addresses data h
  unfold useTokenDataForList.effect
  split_ifs
  · rfl
  · exact forEachUpdate_without_id data h
  · rfl

end TokenData

namespace TokenDataV1

open JS

/-- C25 (the code differs): v1 `getTokens` returns the empty object for an
empty id list and for an answer without data; the empty object is truthy and
has no `map`, so the case `UPDATE_ALL_TOKENS` of the reducer ends with a
`TypeError` for it, in every state, and so does the refresh of the `Updater`. -/
theorem v1_refresh_throws_on_empty_object
    (enrich : JSVal → JSVal → JSVal → Except Thrown JSVal) (s : Obj)
    (currentResult oneDayResult : Except Thrown JSVal) :
    getTokens enrich [] currentResult oneDayResult = .obj [] ∧
      getTokens enrich [.str "0x1"] (.ok (.obj [])) (.ok (.obj [])) = .obj [] ∧
      reducer s ⟨UPDATE_ALL_TOKENS, .obj [("allTokens", .obj [])]⟩ = .error .typeError ∧
      dispatch s (Updater (.num 1500) (.num 1400)
        (getTokens enrich [] currentResult oneDayResult)) = .error .typeError :=
  ⟨rfl, rfl, rfl, rfl⟩

end TokenDataV1

/-! ## The currency toggle and the tags of the dispatched actions -/

namespace Application

open JS

theorem dispatch_actions_key (s : Obj) (m : Mutation) :
    ∃ key v, dispatch s m.actions = .ok (setProp (spreadInto [] s) key v) ∧
      key ≠ "currency" := by
  cases m with
  | update c => exact ⟨CURRENCY, c, rfl, by decide⟩
  | updateTimeframe x => exact ⟨TIME_KEY, x, rfl, by decide⟩
  | updateSessionStart x => exact ⟨SESSION_START, x, rfl, by decide⟩
  | updateSupportedTokens x => exact ⟨SUPPORTED_TOKENS, x, rfl, by decide⟩
  | updateWhitelistedTokens x => exact ⟨WHITELISTED_TOKENS, x, rfl, by decide⟩
  | updateLatestBlock x => exact ⟨LATEST_BLOCK, x, rfl, by decide⟩
  | updateHeadBlock x => exact ⟨HEAD_BLOCK, x, rfl, by decide⟩

theorem run_sets_no_lower_case_key (ms : List Mutation) (s s' : Obj)
    (hs : getOwn? s "currency" = none) (h : run s ms = .ok s') :
    getOwn? s' "currency" = none := by
  induction ms generalizing s with
  | nil =>
    injection h with h
    rw [← h]
    exact hs
  | cons m rest ih =>
    obtain ⟨key, v, hrun, hkey⟩ := dispatch_actions_key s m
    rw [run, hrun] at h
    refine ih _ ?_ h
    rw [(sets_only s key v).2 "currency" (Ne.symm hkey)]
    exact hs

theorem toggleCurrency_of_no_key (state : Obj) (h : getOwn? state "currency" = none) :
    useCurrentCurrency.toggleCurrency state = update (.str "ETH") := by
  unfold useCurrentCurrency.toggleCurrency
  simp [getProp, h, strictEquals]

/-- C26 (the code differs): `toggleCurrency` tests `state.currency`, while the
currency is kept under the key `CURRENCY`; no mutation operation sets the key
`currency`, so in every state reached from the initial state the test fails and
the toggle calls `update('ETH')`.  From a state whose currency is `ETH` the
toggle leaves the currency `ETH`. -/
theorem toggleCurrency_always_sets_ETH :
    (∀ (ALL_TIME : JSVal) (ms : List Mutation) (s : Obj),
        run (INITIAL_STATE ALL_TIME) ms = .ok s →
        useCurrentCurrency.toggleCurrency s = update (.str "ETH")) ∧
      useCurrentCurrency [("CURRENCY", .str "ETH"), ("TIME_KEY", .null)] = .str "ETH" ∧
      dispatch [("CURRENCY", .str "ETH"), ("TIME_KEY", .null)]
          (useCurrentCurrency.toggleCurrency
            [("CURRENCY", .str "ETH"), ("TIME_KEY", .null)]) =
        .ok [("CURRENCY", .str "ETH"), ("TIME_KEY", .null)] := by
  refine ⟨?_, rfl, rfl⟩
  intro ALL_TIME ms s h
  exact toggleCurrency_of_no_key s
    (run_sets_no_lower_case_key ms (INITIAL_STATE ALL_TIME) s rfl h)

/-- C27: every action that an operation of the three providers dispatches, for
every argument, carries a tag that a case of its reducer handles, so that the
reducer never ends with the error `Unexpected action type ...` for it. -/
theorem provider_actions_are_handled (a b : JSVal) (s : Obj) (m : String) :
    (∀ action ∈ update a ++ updateTimeframe a ++ updateSessionStart a ++
          updateSupportedTokens a ++ updateWhitelistedTokens a ++ updateLatestBlock a ++
          updateHeadBlock a,
        action.type ∈ [UPDATE, UPDATE_TIMEFRAME, UPDATE_SESSION_START, UPDATE_LATEST_BLOCK,
          UPDATE_HEAD_BLOCK, UPDATED_SUPPORTED_TOKENS, UPDATED_WHITELISTED_TOKENS] ∧
        reducer s action ≠ .error (.error m)) ∧
      (∀ action ∈ TokenData.update a b ++ TokenData.updateTopTokens a ++
          TokenData.updateAllPairs a b,
        action.type ∈ [TokenData.UPDATE, TokenData.UPDATE_TOP_TOKENS,
          TokenData.UPDATE_ALL_PAIRS] ∧
        TokenData.reducer s action ≠ .error (.error m)) ∧
      (∀ action ∈ TokenDataV1.update a b ++ TokenDataV1.updateAllTokens a,
        action.type ∈ [TokenDataV1.UPDATE, TokenDataV1.UPDATE_ALL_TOKENS] ∧
        TokenDataV1.reducer s action ≠ .error (.error m)) := by
  refine ⟨?_, ?_, ?_⟩
  · intro action hmem
    have htag : action.type ∈ [UPDATE, UPDATE_TIMEFRAME, UPDATE_SESSION_START,
        UPDATE_LATEST_BLOCK, UPDATE_HEAD_BLOCK, UPDATED_SUPPORTED_TOKENS,
        UPDATED_WHITELISTED_TOKENS] := by
      simp only [update, updateTimeframe, updateSessionStart, updateSupportedTokens,
        updateWhitelistedTokens, updateLatestBlock, updateHeadBlock, List.cons_append,
        List.nil_append, List.mem_cons, List.mem_singleton, List.not_mem_nil,
        or_false] at hmem
      rcases hmem with h | h | h | h | h | h | h <;> subst h <;> simp
    exact ⟨htag, fun herr => ((settings_reducer_error_iff s action m).1 herr).1 htag⟩
  · intro action hmem
    have htag : action.type ∈ [TokenData.UPDATE, TokenData.UPDATE_TOP_TOKENS,
        TokenData.UPDATE_ALL_PAIRS] := by
      rw [List.mem_append, List.mem_append] at hmem
      rcases hmem with (h | h) | h
      · unfold TokenData.update at h
        split_ifs at h
        · cases h
        · rw [List.mem_singleton] at h
          subst h
          simp
      · rw [TokenData.updateTopTokens, List.mem_singleton] at h
        subst h
        simp
      · rw [TokenData.updateAllPairs, List.mem_singleton] at h
        subst h
        simp
    exact ⟨htag, fun herr => ((TokenData.tokenData_reducer_error_iff s action m).1 herr).1 htag⟩
  · intro action hmem
    have htag : action.type ∈ [TokenDataV1.UPDATE, TokenDataV1.UPDATE_ALL_TOKENS] := by
      rw [List.mem_append] at hmem
      rcases hmem with h | h
      · unfold TokenDataV1.update at h
        split_ifs at h
        · cases h
        · rw [List.mem_singleton] at h
          subst h
          simp
      · rw [TokenDataV1.updateAllTokens, List.mem_singleton] at h
        subst h
        simp
    exact ⟨htag, fun herr => ((TokenDataV1.v1_reducer_error_iff s action m).1 herr).1 htag⟩

end Application
